import Mathlib

/-!
# mogware/ipc : channels, contexts and selectors

A shallow embedding of `ipc.context.{h,cpp}`, `ipc.channel.h`,
`ipc.selector.{h,cpp}` and `ipc.scheduler.{h,cpp}`.

* Pointers to channels and contexts are identifiers (`ChanId`, `CtxId`); a
  thread is identified with the context `context::get()` returns for it.
* A `void*` that is either `nullptr` or the address of a `new T(...)` is an
  `Option T`; a `channable*` that may be null is an `Option ChanId`.
* The whole heap is a `World`: the channels, the contexts and the sequence of
  values `std::rand()` is going to return.  All channels of a `World T` carry
  the element type `T` (the selector erases the element type to `void*`; take
  for `T` the sum of the element types in use).
* `count_` is a `Nat`: the code decrements it only under `size() > 0`.
* `dispatch`, `receive`, `close` and the registration of a `select` run
  under `context::mutex`; the code between two suspension points is one
  function of the `World`.  A `while (true)` loop that contains
  `ctext->wait()` is cut at the wait: `dispatch` / `receive` / `select_poll`
  run from the loop head to a return, a throw or the wait, and the `_wake`
  functions run from the return of `wait()` on.
* `send` and `recv` evaluate a test before they take the mutex.
  `channel.send` and `channel.recv` are the calls in which no other thread
  runs between the test and the lock; `channel.recv_interleaved` is `recv`
  with the heap changed in between.  In `Sys.step` the polling pass of a
  `select` is one step and its registration, made under a further
  acquisition of the mutex, is another.
-/

namespace ipc

abbrev ChanId := Nat
abbrev CtxId := Nat

/-- The `std::runtime_error` values of the library. -/
inductive Err where
  | sendOnClosedChannel
  | notRemovedFromSendQueue
  | notRemovedFromReceiveQueue
  | chanNotFoundInContext
  | channelExist
  | illegalState
  deriving DecidableEq, Repr

/-- The text passed to `std::runtime_error`. -/
def Err.what : Err → String
  | .sendOnClosedChannel => "send on closed channel"
  | .notRemovedFromSendQueue => "not removed from send queue"
  | .notRemovedFromReceiveQueue => "not removed from receive queue"
  | .chanNotFoundInContext => "chan not found in context"
  | .channelExist => "channel exist"
  | .illegalState => "illegal state"

/-- Abnormal ends of a call: an exception, or behaviour the language leaves
undefined (`rand() % 0`, erasing with an iterator of another container,
indexing a vector out of range, dereferencing `nullptr`). -/
inductive Fault where
  | thrown (e : Err)
  | undefined
  deriving DecidableEq, Repr

/-- How a run of library code ends: it returns `r`, it ends with a fault, or
it reaches `ctext->wait()` and the thread is suspended there. -/
inductive Outcome (R : Type) where
  | ret (r : R)
  | fault (f : Fault)
  | parked
  deriving DecidableEq, Repr

/-- Entry of `send_data_`: `std::pair<channable*, void*>`. -/
abbrev Offer (T : Type) := Option ChanId × Option T

/-- Data members of `ipc::context` (the condition variable is represented by
the suspension points of the model). -/
structure context (T : Type) where
  count_ : Nat
  unblockedx_ : Int
  recv_data_ : Option T
  send_data_ : List (Offer T)
  deriving DecidableEq, Repr

/-- Data members of `ipc::channel<T>`. -/
structure channel (T : Type) where
  buffer_ : List T
  size_ : Nat
  recvq_ : List CtxId
  sendq_ : List CtxId
  closed_ : Bool
  count_ : Nat
  sendx_ : Nat
  recvx_ : Nat
  deriving DecidableEq, Repr

/-- Data members of `ipc::selector`. -/
structure selector (T : Type) where
  data_ : Option T
  send_data_ : List (Offer T)
  deriving DecidableEq, Repr

/-- The heap: every channel, every thread's context, and the values the next
calls of `std::rand()` return. -/
structure World (T : Type) where
  chans : ChanId → channel T
  ctxs : CtxId → context T
  rand : Nat → Nat

variable {T : Type}

def World.setChan (w : World T) (c : ChanId) (ch : channel T) : World T :=
  { w with chans := Function.update w.chans c ch }

def World.setCtx (w : World T) (x : CtxId) (cx : context T) : World T :=
  { w with ctxs := Function.update w.ctxs x cx }

/-- One call of `std::rand()`: the next value of the sequence. -/
def std_rand (w : World T) : Nat × World T :=
  (w.rand 0, { w with rand := fun k => w.rand (k + 1) })

/-! ## ipc.context.cpp -/

/-- `context::context()`. -/
def context.init : context T :=
  { count_ := 0, unblockedx_ := -1, recv_data_ := none, send_data_ := [] }

/-- `context::add(chan, data)`; `context::add(chan)` is `data = nullptr`. -/
def context.add (w : World T) (self : CtxId) (chan : Option ChanId) (data : Option T) :
    World T :=
  let cx := w.ctxs self
  w.setCtx self { cx with send_data_ := cx.send_data_ ++ [(chan, data)] }

/-- `context::clear()`. -/
def context.clear (w : World T) (self : CtxId) : World T :=
  let cx := w.ctxs self
  w.setCtx self { cx with unblockedx_ := -1, recv_data_ := none, send_data_ := [] }

/-- `context::signal()`. -/
def context.signal (w : World T) (self : CtxId) : World T :=
  let cx := w.ctxs self
  w.setCtx self { cx with count_ := cx.count_ + 1 }

/-- `context::wait()` can return only when `count_` is not zero. -/
def context.wait_ready (w : World T) (self : CtxId) : Bool :=
  (w.ctxs self).count_ != 0

/-- The `--count_` with which `context::wait()` returns. -/
def context.wait_return (w : World T) (self : CtxId) : World T :=
  let cx := w.ctxs self
  w.setCtx self { cx with count_ := cx.count_ - 1 }

/-! ## ipc.channel.h : queue maintenance and observers -/

/-- `channel<T>::channel(size)`. -/
def channel.init [Inhabited T] (size : Nat) : channel T :=
  { buffer_ := List.replicate size default, size_ := size, recvq_ := [], sendq_ := [],
    closed_ := false, count_ := 0, sendx_ := 0, recvx_ := 0 }

def channel.capacity (ch : channel T) : Nat := ch.size_

def channel.size (ch : channel T) : Nat := ch.count_

def channel.empty (ch : channel T) : Bool := ch.size == 0

def channel.add_sender (w : World T) (this : ChanId) (ctext : CtxId) : World T :=
  let ch := w.chans this
  w.setChan this { ch with sendq_ := ch.sendq_ ++ [ctext] }

def channel.add_receiver (w : World T) (this : ChanId) (ctext : CtxId) : World T :=
  let ch := w.chans this
  w.setChan this { ch with recvq_ := ch.recvq_ ++ [ctext] }

/-- `channel<T>::remove_sender`: erase the first occurrence, if any. -/
def channel.remove_sender (w : World T) (this : ChanId) (ctext : CtxId) : Bool × World T :=
  let ch := w.chans this
  if ctext ∈ ch.sendq_ then
    (true, w.setChan this { ch with sendq_ := ch.sendq_.erase ctext })
  else
    (false, w)

/-- `channel<T>::remove_receiver`: erase the first occurrence, if any. -/
def channel.remove_receiver (w : World T) (this : ChanId) (ctext : CtxId) : Bool × World T :=
  let ch := w.chans this
  if ctext ∈ ch.recvq_ then
    (true, w.setChan this { ch with recvq_ := ch.recvq_.erase ctext })
  else
    (false, w)

/-! ## ipc.context.cpp : registration and commit routines -/

/-- Loop of `context::add_to_all_channels` over the entries of `send_data_`. -/
def context.add_to_all_channels_loop (self : CtxId) : List (Offer T) → World T → World T
  | [], w => w
  | (none, _) :: rest, w => context.add_to_all_channels_loop self rest w
  | (some ch, none) :: rest, w =>
      context.add_to_all_channels_loop self rest (channel.add_receiver w ch self)
  | (some ch, some _) :: rest, w =>
      context.add_to_all_channels_loop self rest (channel.add_sender w ch self)

def context.add_to_all_channels (w : World T) (self : CtxId) : World T :=
  context.add_to_all_channels_loop self (w.ctxs self).send_data_ w

/-- Loop of `context::remove_from_all_channels`. -/
def context.remove_from_all_channels_loop (self : CtxId) : List (Offer T) → World T → World T
  | [], w => w
  | (none, _) :: rest, w => context.remove_from_all_channels_loop self rest w
  | (some ch, none) :: rest, w =>
      context.remove_from_all_channels_loop self rest (channel.remove_receiver w ch self).2
  | (some ch, some _) :: rest, w =>
      context.remove_from_all_channels_loop self rest (channel.remove_sender w ch self).2

def context.remove_from_all_channels (w : World T) (self : CtxId) : World T :=
  context.remove_from_all_channels_loop self (w.ctxs self).send_data_ w

/-- Local variables of the scan in `unblocked_sender` / `unblocked_receiver`
together with the heap. -/
structure Scan (T : Type) where
  w : World T
  data : Option T
  found : Bool

/-- Body of the `for` loop of `context::unblocked_sender` at index `i`. -/
def context.unblocked_sender_body (self : CtxId) (chan : ChanId) (i : Nat) (s : Scan T) :
    Scan T :=
  match (s.w.ctxs self).send_data_.getD i (none, none) with
  | (none, _) => s
  | (some ch, second) =>
    if ch = chan ∧ second.isSome ∧ s.found = false then
      let cx := s.w.ctxs self
      { w := s.w.setCtx self { cx with unblockedx_ := (i : Int) }, data := second, found := true }
    else if second.isNone then
      { s with w := (channel.remove_receiver s.w ch self).2 }
    else
      { s with w := (channel.remove_sender s.w ch self).2 }

/-- The `for (n = 0; n < size; n++)` loop of `context::unblocked_sender`:
`n` iterations are left and the cyclic index is `i`. -/
def context.unblocked_sender_loop (self : CtxId) (chan : ChanId) (size : Nat) :
    Nat → Nat → Scan T → Scan T
  | 0, _, s => s
  | n + 1, i, s =>
    context.unblocked_sender_loop self chan size n (if i + 1 ≥ size then 0 else i + 1)
      (context.unblocked_sender_body self chan i s)

/-- `context::unblocked_sender(chan)`. -/
def context.unblocked_sender (w : World T) (self : CtxId) (chan : ChanId) :
    Except Fault T × World T :=
  let size := (w.ctxs self).send_data_.length
  let (r, w) := std_rand w
  if size = 0 then (.error .undefined, w)
  else
    let s := context.unblocked_sender_loop self chan size size (r % size)
      { w := w, data := none, found := false }
    if s.found = false then (.error (.thrown .chanNotFoundInContext), s.w)
    else
      let cx := s.w.ctxs self
      match s.data with
      | some d => (.ok d, s.w.setCtx self { cx with send_data_ := [] })
      | none => (.error .undefined, s.w.setCtx self { cx with send_data_ := [] })

/-- Body of the `for` loop of `context::unblocked_receiver` at index `i`. -/
def context.unblocked_receiver_body (self : CtxId) (chan : ChanId) (data : Option T)
    (i : Nat) (s : Scan T) : Scan T :=
  match (s.w.ctxs self).send_data_.getD i (none, none) with
  | (none, _) => s
  | (some ch, second) =>
    if ch = chan ∧ second.isNone ∧ s.found = false then
      let cx := s.w.ctxs self
      { s with w := s.w.setCtx self { cx with unblockedx_ := (i : Int), recv_data_ := data },
               found := true }
    else if second.isNone then
      { s with w := (channel.remove_receiver s.w ch self).2 }
    else
      { s with w := (channel.remove_sender s.w ch self).2 }

def context.unblocked_receiver_loop (self : CtxId) (chan : ChanId) (data : Option T)
    (size : Nat) : Nat → Nat → Scan T → Scan T
  | 0, _, s => s
  | n + 1, i, s =>
    context.unblocked_receiver_loop self chan data size n (if i + 1 ≥ size then 0 else i + 1)
      (context.unblocked_receiver_body self chan data i s)

/-- `context::unblocked_receiver(chan, data)`. -/
def context.unblocked_receiver (w : World T) (self : CtxId) (chan : ChanId)
    (data : Option T) : Except Fault Unit × World T :=
  let size := (w.ctxs self).send_data_.length
  let (r, w) := std_rand w
  if size = 0 then (.error .undefined, w)
  else
    let s := context.unblocked_receiver_loop self chan data size size (r % size)
      { w := w, data := none, found := false }
    if s.found = false then (.error (.thrown .chanNotFoundInContext), s.w)
    else
      let cx := s.w.ctxs self
      (.ok (), s.w.setCtx self { cx with send_data_ := [] })

/-! ## ipc.channel.h : send -/

/-- `channel<T>::dispatch(data, block)` from the head of its `while (true)`
loop to the first `return`, `throw` or `ctext->wait()`.  `self` is the context
of the calling thread. -/
def channel.dispatch (w : World T) (this : ChanId) (self : CtxId) (data : T) (block : Bool) :
    Outcome Bool × World T :=
  let ch := w.chans this
  if ch.closed_ then
    (.fault (.thrown .sendOnClosedChannel), w)
  else if !ch.recvq_.isEmpty && ch.size > 0 then
    -- `sendq_.erase(recvq_.begin())`: an iterator of another vector
    (.fault .undefined, w)
  else
    match ch.recvq_ with
    | ctext :: rest =>
      let w1 := w.setChan this { ch with recvq_ := rest }
      match context.unblocked_receiver w1 ctext this (some data) with
      | (.ok _, w2) => (.ret true, context.signal w2 ctext)
      | (.error f, w2) => (.fault f, w2)
    | [] =>
      if ch.size < ch.capacity then
        let sendx1 := ch.sendx_ + 1
        (.ret true, w.setChan this
          { ch with buffer_ := ch.buffer_.set ch.sendx_ data,
                    sendx_ := if sendx1 = ch.capacity then 0 else sendx1,
                    count_ := ch.count_ + 1 })
      else if !block then
        (.ret false, w)
      else
        let w1 := context.add w self (some this) (some data)
        let ch1 := w1.chans this
        (.parked, w1.setChan this { ch1 with sendq_ := ch1.sendq_ ++ [self] })

/-- `channel<T>::dispatch` from the normal return of `ctext->wait()` on;
`none` while the semaphore count is zero and the wait cannot return. -/
def channel.dispatch_wake (w : World T) (this : ChanId) (self : CtxId) (data : T)
    (block : Bool) : Option (Outcome Bool × World T) :=
  if context.wait_ready w self then
    let w := context.wait_return w self
    if self ∈ (w.chans this).sendq_ then
      some (.fault (.thrown .notRemovedFromSendQueue), context.clear w self)
    else if (w.ctxs self).unblockedx_ ≠ -1 then
      some (.ret true, context.clear w self)
    else
      some (channel.dispatch (context.clear w self) this self data block)
  else none

/-- `channel<T>::dispatch`, the `catch (...)` around `ctext->wait()`. -/
def channel.dispatch_cancel (w : World T) (this : ChanId) (self : CtxId) :
    Outcome Bool × World T :=
  let ch := w.chans this
  (.ret true, context.clear (w.setChan this { ch with sendq_ := ch.sendq_.erase self }) self)

/-- `channel<T>::send(data, block)`. -/
def channel.send (w : World T) (this : ChanId) (self : CtxId) (data : T) (block : Bool) :
    Outcome Bool × World T :=
  let ch := w.chans this
  if !block && ((ch.capacity == 0 && ch.recvq_.isEmpty) ||
      (decide (ch.capacity > 0) && ch.size == ch.capacity)) && !ch.closed_ then
    (.ret false, w)
  else
    channel.dispatch w this self data block

/-! ## ipc.channel.h : receive -/

/-- The block `if (size() > 0)` of `receive`: the value taken, if any. -/
def channel.receive_pop [Inhabited T] (w : World T) (this : ChanId) : Option T × World T :=
  let ch := w.chans this
  if ch.size > 0 then
    let recvx1 := ch.recvx_ + 1
    (some (ch.buffer_.getD ch.recvx_ default), w.setChan this
      { ch with recvx_ := if recvx1 = ch.capacity then 0 else recvx1,
                count_ := ch.count_ - 1 })
  else
    (none, w)

/-- The block `if (!has_data && !sendq_.empty())` of `receive`; `has` is
`some data` when `has_data` is set. -/
def channel.receive_direct (w : World T) (this : ChanId) (has : Option T) :
    Except Fault (Option T) × World T :=
  let ch := w.chans this
  match has, ch.sendq_ with
  | none, ctext :: rest =>
    let w1 := w.setChan this { ch with sendq_ := rest }
    match context.unblocked_sender w1 ctext this with
    | (.ok d, w2) => (.ok (some d), context.signal w2 ctext)
    | (.error f, w2) => (.error f, w2)
  | _, _ => (.ok has, w)

/-- The block `if (!sendq_.empty() && size() < capacity())` of `receive`. -/
def channel.receive_refill (w : World T) (this : ChanId) : Except Fault Unit × World T :=
  let ch := w.chans this
  match ch.sendq_ with
  | ctext :: rest =>
    if ch.size < ch.capacity then
      let w1 := w.setChan this { ch with sendq_ := rest }
      match context.unblocked_sender w1 ctext this with
      | (.ok d, w2) =>
        let ch2 := w2.chans this
        let sendx1 := ch2.sendx_ + 1
        (.ok (), context.signal (w2.setChan this
          { ch2 with buffer_ := ch2.buffer_.set ch2.sendx_ d,
                     sendx_ := if sendx1 ≥ ch2.capacity then 0 else sendx1,
                     count_ := ch2.count_ + 1 }) ctext)
      | (.error f, w2) => (.error f, w2)
    else (.ok (), w)
  | [] => (.ok (), w)

/-- `channel<T>::receive(block)` from the head of its `while (true)` loop to
the first `return`, `throw` or `ctext->wait()`. -/
def channel.receive [Inhabited T] (w : World T) (this : ChanId) (self : CtxId)
    (_block : Bool) : Outcome (T × Bool) × World T :=
  let ch := w.chans this
  if ch.closed_ ∧ ch.size = 0 then
    (.ret (default, true), w)   -- todo
  else
    let (has0, w0) := channel.receive_pop w this
    match channel.receive_direct w0 this has0 with
    | (.error f, w1) => (.fault f, w1)
    | (.ok has1, w1) =>
      match channel.receive_refill w1 this with
      | (.error f, w2) => (.fault f, w2)
      | (.ok _, w2) =>
        match has1 with
        | some data => (.ret (data, true), w2)
        | none =>
          let w3 := context.add w2 self (some this) none
          let ch3 := w3.chans this
          (.parked, w3.setChan this { ch3 with recvq_ := ch3.recvq_ ++ [self] })

/-- `channel<T>::receive` from the normal return of `ctext->wait()` on;
`none` while the wait cannot return. -/
def channel.receive_wake [Inhabited T] (w : World T) (this : ChanId) (self : CtxId)
    (block : Bool) : Option (Outcome (T × Bool) × World T) :=
  if context.wait_ready w self then
    let w := context.wait_return w self
    if self ∈ (w.chans this).recvq_ then
      some (.fault (.thrown .notRemovedFromReceiveQueue), context.clear w self)
    else if (w.ctxs self).unblockedx_ ≠ -1 then
      match (w.ctxs self).recv_data_ with
      | some data => some (.ret (data, true), context.clear w self)
      | none => some (.fault .undefined, w)
    else
      some (channel.receive (context.clear w self) this self block)
  else none

/-- `channel<T>::receive`, the `catch (...)` around `ctext->wait()`. -/
def channel.receive_cancel [Inhabited T] (w : World T) (this : ChanId) (self : CtxId) :
    Outcome (T × Bool) × World T :=
  let ch := w.chans this
  (.ret (default, false),
    context.clear (w.setChan this { ch with recvq_ := ch.recvq_.erase self }) self)

/-- `channel<T>::recv(block)`. -/
def channel.recv [Inhabited T] (w : World T) (this : ChanId) (self : CtxId) (block : Bool) :
    Outcome (T × Bool) × World T :=
  let ch := w.chans this
  if !block && ((ch.capacity == 0 && ch.sendq_.isEmpty) ||
      (decide (ch.capacity > 0) && ch.size == 0)) && !ch.closed_ then
    (.ret (default, false), w)
  else
    channel.receive w this self block

/-- `channel<T>::close()`. -/
def channel.close (w : World T) (this : ChanId) : World T :=
  let ch := w.chans this
  if !ch.closed_ then
    let w1 := w.setChan this { ch with closed_ := true }
    let w2 := ch.recvq_.foldl context.signal w1
    ch.sendq_.foldl context.signal w2
  else w

/-- `channel<T>::peek()`: `nullptr` is `none`. -/
def channel.peek [Inhabited T] (w : World T) (this : ChanId) (self : CtxId) :
    Outcome (Option T) × World T :=
  match channel.recv w this self false with
  | (.ret res, w1) => (.ret (if res.2 then some res.1 else none), w1)
  | (.fault f, w1) => (.fault f, w1)
  | (.parked, w1) => (.parked, w1)

/-- `channel<T>::poke(data)`. -/
def channel.poke (w : World T) (this : ChanId) (self : CtxId) (data : T) :
    Outcome Bool × World T :=
  channel.send w this self data false

/-! ## ipc.selector.h, ipc.selector.cpp -/

/-- `selector::selector()`. -/
def selector.init : selector T := { data_ := none, send_data_ := [] }

/-- `selector::send(chan, data)`. -/
def selector.send (sel : selector T) (chan : ChanId) (data : T) : selector T :=
  { sel with send_data_ := sel.send_data_ ++ [(some chan, some data)] }

/-- `selector::recv(chan)`. -/
def selector.recv (sel : selector T) (chan : ChanId) : selector T :=
  { sel with send_data_ := sel.send_data_ ++ [(some chan, none)] }

/-- `selector::get_data<T>()`: `*static_cast<T*>(data_)`, `none` when `data_`
is `nullptr`. -/
def selector.get_data (sel : selector T) : Option T := sel.data_

/-- `selector::clear()`. -/
def selector.clear (sel : selector T) : selector T := { sel with send_data_ := [] }

/-- `selector::set_data(data)`. -/
def selector.set_data (sel : selector T) (data : Option T) : selector T :=
  { sel with data_ := data }

/-- The `for (auto sd: send_data_) ctext->add(sd.first, sd.second)` of
`selector::select`. -/
def selector.select_install (self : CtxId) : List (Offer T) → World T → World T
  | [], w => w
  | sd :: rest, w => selector.select_install self rest (context.add w self sd.1 sd.2)

/-- The polling `for` loop of `selector::select`: `n` iterations are left and
the cyclic index is `i`.  The first component is `none` when the loop ends
without a `return`. -/
def selector.select_poll_loop [Inhabited T] (self : CtxId) (size : Nat) :
    Nat → Nat → World T → selector T → Option (Outcome Int) × World T × selector T
  | 0, _, w, sel => (none, w, sel)
  | n + 1, i, w, sel =>
    let next := if i + 1 ≥ size then 0 else i + 1
    match (w.ctxs self).send_data_[i]? with
    | none => (some (.fault .undefined), w, sel)
    | some (none, _) => selector.select_poll_loop self size n next w sel
    | some (some ch, none) =>
      match channel.peek w ch self with
      | (.ret (some v), w1) =>
        (some (.ret (i : Int)), context.clear w1 self, sel.set_data (some v))
      | (.ret none, w1) => selector.select_poll_loop self size n next w1 sel
      | (.fault f, w1) => (some (.fault f), w1, sel)
      | (.parked, w1) => (some .parked, w1, sel)
    | some (some ch, some data) =>
      match channel.poke w ch self data with
      | (.ret true, w1) =>
        (some (.ret (i : Int)), context.clear w1 self, sel.set_data none)
      | (.ret false, w1) => selector.select_poll_loop self size n next w1 sel
      | (.fault f, w1) => (some (.fault f), w1, sel)
      | (.parked, w1) => (some .parked, w1, sel)

/-- The start index of the polling pass:
`i = size < 1 ? 0 : std::rand() % size`. -/
def selector.select_start (w : World T) (self : CtxId) : Nat × World T :=
  let size := (w.ctxs self).send_data_.length
  if size < 1 then (0, w) else ((std_rand w).1 % size, (std_rand w).2)

/-- The polling pass of `selector::select`: the start index and the `for`
loop over the `size` entries of the context. -/
def selector.select_poll [Inhabited T] (w : World T) (sel : selector T) (self : CtxId) :
    Option (Outcome Int) × World T × selector T :=
  let size := (w.ctxs self).send_data_.length
  selector.select_poll_loop self size size (selector.select_start w self).1
    (selector.select_start w self).2 sel

/-- One pass of the `while (true)` body of `selector::select`, from its head
to the first `return`, `throw` or `ctext->wait()`: the polling pass, then
`return -1` or the registration on every offered channel. -/
def selector.select_round [Inhabited T] (w : World T) (sel : selector T) (self : CtxId)
    (block : Bool) : Outcome Int × World T × selector T :=
  match selector.select_poll w sel self with
  | (some o, w1, sel1) => (o, w1, sel1)
  | (none, w1, sel1) =>
    if !block then (.ret (-1), w1, sel1)
    else (.parked, context.add_to_all_channels w1 self, sel1)

/-- `selector::select(block)`. -/
def selector.select [Inhabited T] (w : World T) (sel : selector T) (self : CtxId)
    (block : Bool) : Outcome Int × World T × selector T :=
  selector.select_round (selector.select_install self sel.send_data_ w) sel self block

/-- `selector::select` from the normal return of `ctext->wait()` on; `none`
while the wait cannot return. -/
def selector.select_wake [Inhabited T] (w : World T) (sel : selector T) (self : CtxId)
    (block : Bool) : Option (Outcome Int × World T × selector T) :=
  if context.wait_ready w self then
    let w := context.wait_return w self
    if (w.ctxs self).unblockedx_ = -1 then
      some (selector.select_round (context.remove_from_all_channels w self) sel self block)
    else if (w.ctxs self).send_data_.length > 0 then
      some (.fault (.thrown .channelExist), context.clear w self, sel)
    else
      -- `index == -1` cannot hold here: the first test has excluded it
      some (.ret (w.ctxs self).unblockedx_, context.clear w self,
        sel.set_data (w.ctxs self).recv_data_)
  else none

/-- `selector::select`, the `catch (...)` around `ctext->wait()`. -/
def selector.select_cancel (w : World T) (sel : selector T) (self : CtxId) :
    Outcome Int × World T × selector T :=
  (.ret (-1), context.clear (context.remove_from_all_channels w self) self, sel)

/-! ## Scenarios -/

/-- A heap of fresh objects: every channel is `channel<T>(cap c)`, every
context is new, and `std::rand()` returns the values of `rnd`. -/
def World.fresh [Inhabited T] (cap : ChanId → Nat) (rnd : Nat → Nat) : World T :=
  { chans := fun c => channel.init (cap c), ctxs := fun _ => context.init, rand := rnd }

/-! ## Calls of one thread on one channel -/

/-- A call of `send(v, block)` or `recv(block)`. -/
inductive Call (T : Type) where
  | send (v : T) (block : Bool)
  | recv (block : Bool)
  deriving DecidableEq, Repr

/-- What a call came back with. -/
inductive Reply (T : Type) where
  | sent (o : Outcome Bool)
  | received (o : Outcome (T × Bool))
  deriving DecidableEq, Repr

/-- Thread `self` makes the calls one after the other on channel `c`. -/
def runCalls [Inhabited T] (c : ChanId) (self : CtxId) : List (Call T) → World T → List (Reply T)
  | [], _ => []
  | .send v b :: rest, w =>
    .sent (channel.send w c self v b).1 :: runCalls c self rest (channel.send w c self v b).2
  | .recv b :: rest, w =>
    .received (channel.recv w c self b).1 :: runCalls c self rest (channel.recv w c self b).2

/-- With `n` values in flight, no call of the sequence has to park on a
channel of capacity `C`: a send finds fewer than `C` values, a recv at least
one. -/
def neverParks (C : Nat) : Nat → List (Call T) → Bool
  | _, [] => true
  | n, .send _ _ :: rest => decide (n < C) && neverParks C (n + 1) rest
  | n, .recv _ :: rest => decide (0 < n) && neverParks C (n - 1) rest

def sentValues : List (Call T) → List T
  | [] => []
  | .send v _ :: rest => v :: sentValues rest
  | .recv _ :: rest => sentValues rest

def sendCount : List (Call T) → Nat
  | [] => 0
  | .send _ _ :: rest => sendCount rest + 1
  | .recv _ :: rest => sendCount rest

def recvCount : List (Call T) → Nat
  | [] => 0
  | .send _ _ :: rest => recvCount rest
  | .recv _ :: rest => recvCount rest + 1

def sendReplies : List (Reply T) → List (Outcome Bool)
  | [] => []
  | .sent o :: rest => o :: sendReplies rest
  | .received _ :: rest => sendReplies rest

def recvReplies : List (Reply T) → List (Outcome (T × Bool))
  | [] => []
  | .sent _ :: rest => recvReplies rest
  | .received o :: rest => o :: recvReplies rest

/-- The ring buffer of `ch`, of capacity `C`, holds exactly the values `q`,
oldest first, in the slots `recvx_, recvx_ + 1, ...` (mod `C`). -/
structure Ring (C : Nat) (ch : channel T) (q : List T) : Prop where
  cap : ch.size_ = C
  len : ch.buffer_.length = C
  rx : ch.recvx_ < C
  sx : ch.sendx_ = (ch.recvx_ + q.length) % C
  cnt : ch.count_ = q.length
  le : q.length ≤ C
  slots : ∀ k, k < q.length → ch.buffer_[(ch.recvx_ + k) % C]? = q[k]?

/-! ## Scenarios of section 8 of the specification -/

/-- Scenario 3: `channel<int>(3)`, send 10, send 20, close. -/
def scenario_close_drains : World Int :=
  let w0 : World Int := World.fresh (fun _ => 3) (fun _ => 0)
  let w1 := (channel.send w0 0 1 10 true).2
  let w2 := (channel.send w1 0 1 20 true).2
  channel.close w2 0

/-- Scenario 3 continued: the result of the `k`-th following `recv()` of
thread 1 (counting from 0). -/
def scenario_close_drains_recv : Nat → Outcome (Int × Bool) × World Int
  | 0 => channel.recv scenario_close_drains 0 1 true
  | k + 1 => channel.recv (scenario_close_drains_recv k).2 0 1 true

/-- Scenario 1 with a history: thread 1 first polls a selector that offers
`send(c, 5)` on the unbuffered channel `c = 0`; nobody receives, so
`select(false)` returns -1. -/
def scenario_rendezvous_select : Outcome Int × World Int × selector Int :=
  selector.select (World.fresh (fun _ => 0) (fun _ => 0)) (selector.init.send 0 5) 1 false

/-- Thread 1 then calls the blocking `c.send(7)`. -/
def scenario_rendezvous_send : Outcome Bool × World Int :=
  channel.send scenario_rendezvous_select.2.1 0 1 7 true

/-- Thread 2 then calls `c.recv()`. -/
def scenario_rendezvous_recv : Outcome (Int × Bool) × World Int :=
  channel.recv scenario_rendezvous_send.2 0 2 true

/-- Scenario 4: capacity 1, thread 1 sends 1, thread 2 calls `send(2)`. -/
def scenario_close_wakes_sender_parked : Outcome Bool × World Int :=
  channel.send (channel.send (World.fresh (fun _ => 1) (fun _ => 0)) 0 1 1 true).2 0 2 2 true

/-- Scenario 4: the main thread closes the channel. -/
def scenario_close_wakes_sender : World Int :=
  channel.close scenario_close_wakes_sender_parked.2 0

/-- Thread 2 calls `recv()` on an empty open channel of capacity 1. -/
def scenario_close_wakes_receiver_parked : Outcome (Int × Bool) × World Int :=
  channel.recv (World.fresh (fun _ => 1) (fun _ => 0)) 0 2 true

/-- The main thread closes the channel. -/
def scenario_close_wakes_receiver : World Int :=
  channel.close scenario_close_wakes_receiver_parked.2 0

/-- The selector of scenario 5: `sel.recv(a).recv(b)` with `a = 0`, `b = 1`. -/
def scenario_selector : selector Int := (selector.init.recv 0).recv 1

/-- Scenario 5 with a history: thread 1 calls `select(false)` while `a` and
`b` (capacity 1) are both empty. -/
def scenario_selector_first : Outcome Int × World Int × selector Int :=
  selector.select (World.fresh (fun _ => 1) (fun _ => 2)) scenario_selector 1 false

/-- Thread 2 sends 42 on `a`, and thread 1 calls `select()` again on the same
selector. -/
def scenario_selector_second : Outcome Int × World Int × selector Int :=
  selector.select (channel.send scenario_selector_first.2.1 0 2 42 true).2
    scenario_selector_first.2.2 1 true

/-! ## Frames of the commit routines -/

/-- `l'` is `l` after some calls of `erase x` (each removes the first
occurrence of `x`, if any). -/
inductive Erasures (x : CtxId) : List CtxId → List CtxId → Prop where
  | refl (l : List CtxId) : Erasures x l l
  | step {l l' : List CtxId} : Erasures x l l' → Erasures x l (l'.erase x)

/-- Channel `ch'` is channel `ch` except that context `x` may have been
erased from its queues. -/
structure QueueOnly (x : CtxId) (ch ch' : channel T) : Prop where
  buffer_ : ch'.buffer_ = ch.buffer_
  size_ : ch'.size_ = ch.size_
  closed_ : ch'.closed_ = ch.closed_
  count_ : ch'.count_ = ch.count_
  sendx_ : ch'.sendx_ = ch.sendx_
  recvx_ : ch'.recvx_ = ch.recvx_
  recvq_ : Erasures x ch.recvq_ ch'.recvq_
  sendq_ : Erasures x ch.sendq_ ch'.sendq_

/-- The heap `w'` is `w` except for the context of `x`, the queues it may
have been erased from, and the random numbers consumed. -/
structure CommitFrame (x : CtxId) (w w' : World T) : Prop where
  chans : ∀ d, QueueOnly x (w.chans d) (w'.chans d)
  ctxs : ∀ y, y ≠ x → w'.ctxs y = w.ctxs y
  offers : (w'.ctxs x).send_data_ = (w.ctxs x).send_data_
  count : (w'.ctxs x).count_ = (w.ctxs x).count_

/-- Invariant of the scan of `unblocked_receiver` started in the heap `w0`. -/
structure RecvScan (x : CtxId) (chan : ChanId) (data : Option T) (w0 : World T)
    (s : Scan T) : Prop where
  frame : CommitFrame x w0 s.w
  rand : s.w.rand = w0.rand
  committed : s.found = true → (s.w.ctxs x).recv_data_ = data ∧
    ∃ j : Nat, (s.w.ctxs x).unblockedx_ = (j : Int) ∧
      (w0.ctxs x).send_data_[j]? = some (some chan, none)
  untouched : s.found = false → (s.w.ctxs x).unblockedx_ = (w0.ctxs x).unblockedx_ ∧
    (s.w.ctxs x).recv_data_ = (w0.ctxs x).recv_data_

/-- Scenario 2: `channel<int>(2)` after `send(1)` and `send(2)`. -/
def scenario_full_buffer : World Int :=
  (channel.send (channel.send (World.fresh (fun _ => 2) (fun _ => 0)) 0 1 1 true).2 0 1 2 true).2

/-- Channel `ch'` is channel `ch` except that contexts may have left its
queues. -/
structure QueuesShrink (ch ch' : channel T) : Prop where
  buffer_ : ch'.buffer_ = ch.buffer_
  size_ : ch'.size_ = ch.size_
  closed_ : ch'.closed_ = ch.closed_
  count_ : ch'.count_ = ch.count_
  sendx_ : ch'.sendx_ = ch.sendx_
  recvx_ : ch'.recvx_ = ch.recvx_
  recvq_ : ch'.recvq_.Sublist ch.recvq_
  sendq_ : ch'.sendq_.Sublist ch.sendq_

/-! ## The polling pass of select -/

/-- The non-blocking attempt of the offer `(c, d)` in the heap `w` fails and
changes nothing: `poke` returns `false`, `peek` returns `nullptr`. -/
def OfferFails [Inhabited T] (w : World T) (self : CtxId) (c : ChanId) : Option T → Prop
  | none => ∃ v, channel.recv w c self false = (.ret (v, false), w)
  | some x => channel.send w c self x false = (.ret false, w)

/-- The offer `(c, d)` is performed in the heap `w`: the non-blocking `recv`
(for `d = nullptr`) or `send` succeeds, the context is cleared, giving `w'`,
and the data slot of the selector is set, giving `sel'`. -/
def OfferPerformed [Inhabited T] (w : World T) (self : CtxId) (c : ChanId) (sel : selector T)
    (w' : World T) (sel' : selector T) : Option T → Prop
  | none => ∃ v, (channel.recv w c self false).1 = .ret (v, true) ∧
      w' = context.clear (channel.recv w c self false).2 self ∧ sel' = sel.set_data (some v)
  | some x => (channel.send w c self x false).1 = .ret true ∧
      w' = context.clear (channel.send w c self x false).2 self ∧ sel' = sel.set_data none

/-- The heap in which the polling pass of `select` runs: the offers of the
selector are installed in the context and the start index has been drawn. -/
def selector.select_polled (w : World T) (sel : selector T) (self : CtxId) : World T :=
  (selector.select_start (selector.select_install self sel.send_data_ w) self).2

/-- Thread 2 is parked in a blocking `select` that offers `recv(a)` and
`recv(b)` on the empty unbuffered channels `a = 0` and `b = 1`. -/
def scenario_parked_selector : Outcome Int × World Int × selector Int :=
  selector.select (World.fresh (fun _ => 0) (fun _ => 0)) ((selector.init.recv 0).recv 1) 2 true

/-- Thread 1 then calls `select(false)` on a selector that offers
`send(a, 1)` and `send(b, 2)`. -/
def scenario_polling_selector : Outcome Int × World Int × selector Int :=
  selector.select scenario_parked_selector.2.1 ((selector.init.send 0 1).send 1 2) 1 false

/-! ## Threads and atomic steps -/

/-- Where a thread is: outside the library, suspended in the `ctext->wait()`
of `dispatch`, of `receive` or of `select`, or inside `select` between the
polling pass and the `lock_guard` under which it registers. -/
inductive Status (T : Type) where
  | idle
  | in_dispatch (c : ChanId) (data : T) (block : Bool)
  | in_receive (c : ChanId) (block : Bool)
  | polled (sel : selector T) (block : Bool)
  | in_select (sel : selector T) (block : Bool)
  deriving DecidableEq, Repr

/-- The steps of a run. Each one is executed under `context::mutex`, or
under a sequence of acquisitions of it that no other thread interleaves with:
a call of `send`, `recv`, `close` or `select` up to its return, throw or wait;
the registration of a polled `select`; the return of a `wait()`, normal
(`wake`) or by exception (`cancel`). -/
inductive Action (T : Type) where
  | send (self : CtxId) (c : ChanId) (data : T) (block : Bool)
  | recv (self : CtxId) (c : ChanId) (block : Bool)
  | close (c : ChanId)
  | select (self : CtxId) (sel : selector T) (block : Bool)
  | register (self : CtxId)
  | wake (self : CtxId)
  | cancel (self : CtxId)
  deriving DecidableEq, Repr

/-- The heap and the place of every thread. -/
structure Sys (T : Type) where
  w : World T
  status : CtxId → Status T

/-- Thread `self` leaves a piece of library code with outcome `o` in the heap
`w`: it is suspended as `susp` if the code reached `wait()`, else it is back
in its caller. -/
def Sys.leave {R : Type} (s : Sys T) (self : CtxId) (o : Outcome R) (w : World T)
    (susp : Status T) : Sys T :=
  { w := w,
    status := Function.update s.status self
      (match o with
       | .parked => susp
       | _ => .idle) }

/-- Thread `self` has finished a polling pass of `select` with the result
`r`: it returns or throws, or, when nothing was ready, it returns -1 or goes
on to register. -/
def Sys.leave_poll (s : Sys T) (self : CtxId) (block : Bool)
    (r : Option (Outcome Int) × World T × selector T) : Sys T :=
  match r with
  | (some o, w1, sel1) => s.leave self o w1 (.in_select sel1 block)
  | (none, w1, sel1) =>
    { w := w1,
      status := Function.update s.status self (if !block then .idle else .polled sel1 block) }

/-- One step; `none` when the action is not enabled (the thread is not where
the action needs it, or its `wait()` cannot return yet). -/
def Sys.step [Inhabited T] (s : Sys T) : Action T → Option (Sys T)
  | .send self c data block =>
    match s.status self with
    | .idle =>
      some (s.leave self (channel.send s.w c self data block).1
        (channel.send s.w c self data block).2 (.in_dispatch c data block))
    | _ => none
  | .recv self c block =>
    match s.status self with
    | .idle =>
      some (s.leave self (channel.recv s.w c self block).1
        (channel.recv s.w c self block).2 (.in_receive c block))
    | _ => none
  | .close c => some { s with w := channel.close s.w c }
  | .select self sel block =>
    match s.status self with
    | .idle =>
      some (s.leave_poll self block
        (selector.select_poll (selector.select_install self sel.send_data_ s.w) sel self))
    | _ => none
  | .register self =>
    match s.status self with
    | .polled sel block =>
      some { w := context.add_to_all_channels s.w self,
             status := Function.update s.status self (.in_select sel block) }
    | _ => none
  | .wake self =>
    match s.status self with
    | .in_dispatch c data block =>
      (channel.dispatch_wake s.w c self data block).map
        (fun r => s.leave self r.1 r.2 (.in_dispatch c data block))
    | .in_receive c block =>
      (channel.receive_wake s.w c self block).map
        (fun r => s.leave self r.1 r.2 (.in_receive c block))
    | .in_select sel block =>
      if context.wait_ready s.w self then
        if ((context.wait_return s.w self).ctxs self).unblockedx_ = -1 then
          some (s.leave_poll self block
            (selector.select_poll
              (context.remove_from_all_channels (context.wait_return s.w self) self) sel self))
        else
          (selector.select_wake s.w sel self block).map
            (fun r => s.leave self r.1 r.2.1 (.in_select r.2.2 block))
      else none
    | _ => none
  | .cancel self =>
    match s.status self with
    | .in_dispatch c _ _ =>
      some (s.leave self (channel.dispatch_cancel s.w c self).1
        (channel.dispatch_cancel s.w c self).2 .idle)
    | .in_receive c _ =>
      some (s.leave self (channel.receive_cancel s.w c self).1
        (channel.receive_cancel s.w c self).2 .idle)
    | .in_select sel _ =>
      some (s.leave self (selector.select_cancel s.w sel self).1
        (selector.select_cancel s.w sel self).2.1 .idle)
    | _ => none

/-- A run: the actions one after the other; `none` if one is not enabled. -/
def Sys.run [Inhabited T] : List (Action T) → Sys T → Option (Sys T)
  | [], s => some s
  | a :: rest, s =>
    match s.step a with
    | some s1 => Sys.run rest s1
    | none => none

/-- The initial state: fresh channels of the capacities `cap`, every thread
outside the library. -/
def Sys.init [Inhabited T] (cap : ChanId → Nat) (rnd : Nat → Nat) : Sys T :=
  { w := World.fresh cap rnd, status := fun _ => .idle }

/-- Every thread has returned or is parked: none is between the polling pass
and the registration of a `select`. -/
def Sys.quiescent (s : Sys T) : Prop :=
  ∀ x, ∀ sel block, s.status x ≠ .polled sel block

/-- The calls and resumptions of `send`, `recv` and `close`. -/
def Action.channel_op : Action T → Bool
  | .send _ _ _ _ => true
  | .recv _ _ _ => true
  | .close _ => true
  | .select _ _ _ => false
  | .register _ => false
  | .wake _ => true
  | .cancel _ => true

/-- Scenario 4 continued: after `send(1)`, the parked `send(2)` of thread 2 and
`close()`, thread 2 resumes from its wait. -/
def scenario_woken_by_close : Option (Sys Int) :=
  Sys.run [.send 1 0 1 true, .send 2 0 2 true, .close 0, .wake 2]
    (Sys.init (fun _ => 1) (fun _ => 0))

/-- A blocking `select` of thread 1 offering `recv(b)` on the empty channel
`b = 0` of capacity 1 finishes its polling pass; thread 2 sends 5 into the
buffer; thread 1 then registers and waits. -/
def scenario_register_after_send : Option (Sys Int) :=
  Sys.run [.select 1 (selector.init.recv 0) true, .send 2 0 5 true, .register 1]
    (Sys.init (fun _ => 1) (fun _ => 0))

/-- Thread 1 calls a blocking `select` offering `send(c, 1)` and `recv(c)`
on the same unbuffered channel `c = 0`, and parks. -/
def scenario_select_both_directions : Option (Sys Int) :=
  Sys.run [.select 1 ((selector.init.send 0 1).recv 0) true, .register 1]
    (Sys.init (fun _ => 0) (fun _ => 0))

/-! ## ipc.scheduler.h, ipc.scheduler.cpp

Time points and durations of `std::chrono::system_clock` are natural numbers.
`run()` is cut at its suspension points: the `cond_.wait(lock)` on an empty
map, the `cond_.wait_until(lock, t)`, and the call of a task with the lock
released. -/

/-- The values of `ipc::func` that occur: a callable of the user, known by a
number, or the `std::bind(&repeat, s, f, d)` built by the periodic
`schedule`. -/
inductive func where
  | call (id : Nat)
  | bind_repeat (f : func) (d : Nat)
  deriving DecidableEq, Repr

/-- Data members of `ipc::scheduler`; `tasks_` is the `std::multimap` in
iteration order. -/
structure scheduler where
  tasks_ : List (Nat × func)
  nthreads_ : Int
  stop_requested_ : Bool
  stop_when_empty_ : Bool
  deriving DecidableEq, Repr

/-- `scheduler::scheduler()`. -/
def scheduler.init : scheduler :=
  { tasks_ := [], nthreads_ := 0, stop_requested_ := false, stop_when_empty_ := false }

/-- `std::multimap::insert`: the new entry goes behind every entry whose key
is not greater (the upper bound of its key). -/
def multimap_insert (t : Nat) (f : func) : List (Nat × func) → List (Nat × func)
  | [] => [(t, f)]
  | e :: rest => if t < e.1 then (t, f) :: e :: rest else e :: multimap_insert t f rest

/-- `scheduler::schedule(f, t)` with a time point. -/
def scheduler.schedule (s : scheduler) (f : func) (t : Nat) : scheduler :=
  { s with tasks_ := multimap_insert t f s.tasks_ }

/-- `scheduler::schedule(f, s)` with a delay, called at time `now`. -/
def scheduler.schedule_after (s : scheduler) (f : func) (delay now : Nat) : scheduler :=
  s.schedule f (now + delay)

/-- `scheduler::schedule(f, s, d)`: first delay `delay`, period `d`. -/
def scheduler.schedule_periodic (s : scheduler) (f : func) (delay d now : Nat) : scheduler :=
  s.schedule_after (.bind_repeat f d) delay now

/-- `scheduler::stop(drain)`. -/
def scheduler.stop (s : scheduler) (drain : Bool) : scheduler :=
  if drain then { s with stop_when_empty_ := true } else { s with stop_requested_ := true }

/-- The call of a task with the lock released, started at time `now`; `dur`
is the time each callable of the user takes. The result is the scheduler, the
time at which the call ends and the callables of the user that ran.
`repeat(s, f, d)` is `f(); s->schedule(std::bind(&repeat, s, f, d), d);`. -/
def func.invoke (dur : Nat → Nat) : func → scheduler → Nat → scheduler × Nat × List Nat
  | .call id, s, now => (s, now + dur id, [id])
  | .bind_repeat f d, s, now =>
    ((f.invoke dur s now).1.schedule_after (.bind_repeat f d) d (f.invoke dur s now).2.1,
      (f.invoke dur s now).2.1, (f.invoke dur s now).2.2)

/-- Where a piece of `run()` ends: `run()` returns; it waits in
`cond_.wait(lock)`; it waits in `cond_.wait_until(lock, t)`; it has erased the
front entry and calls its task; it is back at the head of the outer loop
(`continue`); or it has read `tasks_.begin()->first` of an empty map. -/
inductive RunStep where
  | returned (s : scheduler)
  | wait_empty (s : scheduler)
  | wait_until (t : Nat) (s : scheduler)
  | call (entry : Nat × func) (s : scheduler)
  | continue_ (s : scheduler)
  | undefined
  deriving DecidableEq, Repr

/-- `run()` after its second inner loop: `if (stop_requested_) break;
if (tasks_.empty()) continue;` and the removal of the front entry. -/
def scheduler.run_take (s : scheduler) : RunStep :=
  if s.stop_requested_ then .returned { s with nthreads_ := s.nthreads_ - 1 }
  else
    match s.tasks_ with
    | [] => .continue_ s
    | entry :: rest => .call entry { s with tasks_ := rest }

/-- `run()` from the test of `while (!stop_requested_ && !tasks_.empty() &&
cond_.wait_until(lock, t) != std::cv_status::timeout)` at time `now`; also the
code that runs when `wait_until` returns at time `now`. -/
def scheduler.run_timed (s : scheduler) (t now : Nat) : RunStep :=
  if !s.stop_requested_ && !s.tasks_.isEmpty && decide (now < t) then .wait_until t s
  else s.run_take

/-- `run()` from the test of `while (!stop_requested_ && !stop_when_empty_ &&
tasks_.empty()) cond_.wait(lock);` on; also the code that runs when that wait
returns. -/
def scheduler.run_inner (s : scheduler) (now : Nat) : RunStep :=
  if !s.stop_requested_ && !s.stop_when_empty_ && s.tasks_.isEmpty then .wait_empty s
  else
    match s.tasks_ with
    | [] => .undefined
    | entry :: _ => s.run_timed entry.1 now

/-- `run()` from the test of its outer `while` on, up to the next suspension
point, `continue` or return. -/
def scheduler.run_outer (s : scheduler) (now : Nat) : RunStep :=
  if !s.stop_requested_ && !(s.stop_when_empty_ && s.tasks_.isEmpty) then s.run_inner now
  else .returned { s with nthreads_ := s.nthreads_ - 1 }

/-- A `continue` goes through the test of the outer `while` once more. -/
def scheduler.run_resolve (now : Nat) : RunStep → RunStep
  | .continue_ s => s.run_outer now
  | r => r

/-- `run()` from the head of its outer loop to the next suspension point or
return; also the code that runs after a task has returned. -/
def scheduler.run_head (s : scheduler) (now : Nat) : RunStep :=
  scheduler.run_resolve now (s.run_outer now)

/-- `scheduler::run()` from its call to the first suspension point. -/
def scheduler.run (s : scheduler) (now : Nat) : RunStep :=
  scheduler.run_head
    { s with nthreads_ := s.nthreads_ + 1, stop_requested_ := false, stop_when_empty_ := false }
    now

/-- `run()` from the return of `cond_.wait(lock)` at time `now`. -/
def scheduler.run_wake_empty (s : scheduler) (now : Nat) : RunStep :=
  scheduler.run_resolve now (s.run_inner now)

/-- `run()` from the return of `cond_.wait_until(lock, t)` at time `now`. -/
def scheduler.run_wake_until (s : scheduler) (t now : Nat) : RunStep :=
  scheduler.run_resolve now (s.run_timed t now)

/-- The driver alone: no other thread touches the scheduler, the clock stands
at `now`, and a `wait_until(lock, t)` returns when the clock reaches `t`. The
result is where the driver ends after at most `fuel` suspensions, the time,
and the entries whose tasks it has called, in order. A driver waiting on an
empty map stays there. -/
def scheduler.drive (dur : Nat → Nat) :
    Nat → RunStep → Nat → List (Nat × func) → RunStep × Nat × List (Nat × func)
  | 0, r, now, done => (r, now, done)
  | fuel + 1, .wait_until t s, now, done =>
    scheduler.drive dur fuel (s.run_wake_until t (max now t)) (max now t) done
  | fuel + 1, .call entry s, now, done =>
    scheduler.drive dur fuel
      ((entry.2.invoke dur s now).1.run_head (entry.2.invoke dur s now).2.1)
      (entry.2.invoke dur s now).2.1 (done ++ [entry])
  | _ + 1, r, now, done => (r, now, done)

/-- The calls `schedule(f, t)` of a list, in order. -/
def scheduler.schedule_all (s : scheduler) : List (Nat × func) → scheduler
  | [] => s
  | e :: rest => (s.schedule e.2 e.1).schedule_all rest

/-- The keys of a task map are in non-decreasing order. -/
def deadlines_sorted (l : List (Nat × func)) : Prop :=
  List.Sorted (fun a b => a.1 ≤ b.1) l

/-! ## The values in the ring buffer

A ghost list kept next to a channel: the values written into `buffer_` and
not yet read out of it, oldest first. It is extended where the code executes
`buffer_[sendx_] = ...` and shortened where it executes
`data = buffer_[recvx_]`. -/

/-- The list after `dispatch(data, block)`: `data` is appended when
`dispatch` takes its branch `if (size() < capacity())`. -/
def channel.dispatch_log (w : World T) (this : ChanId) (data : T) (g : List T) : List T :=
  let ch := w.chans this
  if ch.closed_ then g
  else if !ch.recvq_.isEmpty && ch.size > 0 then g
  else
    match ch.recvq_ with
    | _ :: _ => g
    | [] => if ch.size < ch.capacity then g ++ [data] else g

/-- The list after `send(data, block)`. -/
def channel.send_log (w : World T) (this : ChanId) (data : T) (block : Bool) (g : List T) :
    List T :=
  let ch := w.chans this
  if !block && ((ch.capacity == 0 && ch.recvq_.isEmpty) ||
      (decide (ch.capacity > 0) && ch.size == ch.capacity)) && !ch.closed_ then g
  else channel.dispatch_log w this data g

/-- The list after the block `if (!sendq_.empty() && size() < capacity())` of
`receive`: the value of the committed sender is appended. -/
def channel.receive_refill_log (w : World T) (this : ChanId) (g : List T) : List T :=
  let ch := w.chans this
  match ch.sendq_ with
  | ctext :: rest =>
    if ch.size < ch.capacity then
      match context.unblocked_sender (w.setChan this { ch with sendq_ := rest }) ctext this with
      | (.ok d, _) => g ++ [d]
      | (.error _, _) => g
    else g
  | [] => g

/-- The list after `receive(block)`: the oldest value is dropped when
`receive` takes its block `if (size() > 0)`, then the refill applies. -/
def channel.receive_log [Inhabited T] (w : World T) (this : ChanId) (g : List T) : List T :=
  let ch := w.chans this
  if ch.closed_ ∧ ch.size = 0 then g
  else
    match channel.receive_direct (channel.receive_pop w this).2 this
      (channel.receive_pop w this).1 with
    | (.error _, _) => if ch.size > 0 then g.tail else g
    | (.ok _, w1) => channel.receive_refill_log w1 this (if ch.size > 0 then g.tail else g)

/-- The list after `recv(block)`. -/
def channel.recv_log [Inhabited T] (w : World T) (this : ChanId) (block : Bool) (g : List T) :
    List T :=
  let ch := w.chans this
  if !block && ((ch.capacity == 0 && ch.sendq_.isEmpty) ||
      (decide (ch.capacity > 0) && ch.size == 0)) && !ch.closed_ then g
  else channel.receive_log w this g

/-- The list after the return of the `wait()` in `dispatch`: the loop runs
`dispatch` again when the thread is neither in `sendq_` nor committed. -/
def channel.dispatch_wake_log (w : World T) (this : ChanId) (self : CtxId) (data : T)
    (g : List T) : List T :=
  if context.wait_ready w self then
    if self ∈ ((context.wait_return w self).chans this).sendq_ then g
    else if ((context.wait_return w self).ctxs self).unblockedx_ ≠ -1 then g
    else channel.dispatch_log (context.clear (context.wait_return w self) self) this data g
  else g

/-- The list after the return of the `wait()` in `receive`. -/
def channel.receive_wake_log [Inhabited T] (w : World T) (this : ChanId) (self : CtxId)
    (g : List T) : List T :=
  if context.wait_ready w self then
    if self ∈ ((context.wait_return w self).chans this).recvq_ then g
    else if ((context.wait_return w self).ctxs self).unblockedx_ ≠ -1 then g
    else channel.receive_log (context.clear (context.wait_return w self) self) this g
  else g

/-- The lists of all channels after one step of `send`, `recv` or `close`
(calls and resumptions). The steps of `select` are not followed. -/
def Sys.log_step [Inhabited T] (s : Sys T) (a : Action T) (g : ChanId → List T) :
    ChanId → List T :=
  match a with
  | .send _ c data block => Function.update g c (channel.send_log s.w c data block (g c))
  | .recv _ c block => Function.update g c (channel.recv_log s.w c block (g c))
  | .wake self =>
    match s.status self with
    | .in_dispatch c data _ =>
      Function.update g c (channel.dispatch_wake_log s.w c self data (g c))
    | .in_receive c _ => Function.update g c (channel.receive_wake_log s.w c self (g c))
    | _ => g
  | _ => g

/-- The lists of all channels after a run. -/
def Sys.log_run [Inhabited T] : List (Action T) → Sys T → (ChanId → List T) → ChanId → List T
  | [], _, g => g
  | a :: rest, s, g =>
    match s.step a with
    | some s1 => Sys.log_run rest s1 (s.log_step a g)
    | none => g

/-- The invariant of a channel of capacity `C` with the list `g`: the count
is the length of `g`, within the capacity; for `C > 0` the ring buffer holds
`g`; and parked receivers coexist neither with parked senders nor with
buffered values. -/
structure ChanInv (C : Nat) (ch : channel T) (g : List T) : Prop where
  cap : ch.size_ = C
  cnt : ch.count_ = g.length
  le : g.length ≤ C
  ring : 0 < C → Ring C ch g
  excl : ch.recvq_ ≠ [] → ch.sendq_ = [] ∧ ch.count_ = 0

/-- Every thread is outside the library or parked in `send` or `recv`. -/
def Sys.no_select (s : Sys T) : Prop :=
  ∀ x, s.status x = .idle ∨ (∃ c data block, s.status x = .in_dispatch c data block) ∨
    ∃ c block, s.status x = .in_receive c block

/-- Capacities of the run below: channel 0 is `channel<int>(2)`, every other
channel is unbuffered. -/
def scenario_two_channels_cap : ChanId → Nat := fun c => if c = 0 then 2 else 0

/-- Thread 1 sends 10, 20 and 30 on channel 0 and parks in the third call;
thread 2 receives 10, which moves 30 into the buffer and wakes thread 1;
thread 3 parks in `recv` on the unbuffered channel 1 and is handed 7 by
thread 4; channel 0 is closed. -/
def scenario_two_channels_actions : List (Action Int) :=
  [.send 1 0 10 true, .send 1 0 20 true, .send 1 0 30 true, .recv 2 0 true, .wake 1,
   .recv 3 1 true, .send 4 1 7 true, .wake 3, .close 0]

/-- The state at the end of that run. -/
def scenario_two_channels : Sys Int :=
  (Sys.run scenario_two_channels_actions (Sys.init scenario_two_channels_cap (fun _ => 0))).getD
    (Sys.init scenario_two_channels_cap (fun _ => 0))

/-- The values accepted by the buffers in that run and not yet taken. -/
def scenario_two_channels_log : ChanId → List Int :=
  Sys.log_run scenario_two_channels_actions (Sys.init scenario_two_channels_cap (fun _ => 0))
    (fun _ => [])

/-! ## The unlocked test of recv -/

/-- The test that `recv(block)` evaluates before it takes `context::mutex`:
`!block && ((capacity() == 0 && sendq_.empty()) || (capacity() > 0 &&
size() == 0)) && !closed_`. -/
def channel.recv_fast_path (w : World T) (this : ChanId) (block : Bool) : Bool :=
  let ch := w.chans this
  !block && ((ch.capacity == 0 && ch.sendq_.isEmpty) ||
    (decide (ch.capacity > 0) && ch.size == 0)) && !ch.closed_

/-- `recv(block)` of thread `self` when other threads run between its test,
evaluated in the heap `w`, and its `lock_guard`, taken in the heap `w1`. -/
def channel.recv_interleaved [Inhabited T] (w w1 : World T) (this : ChanId) (self : CtxId)
    (block : Bool) : Outcome (T × Bool) × World T :=
  if channel.recv_fast_path w this block then (.ret (default, false), w1)
  else channel.receive w1 this self block

/-- A channel of capacity 1 that holds the value 1, sent by thread 2. -/
def scenario_one_buffered : World Int :=
  (channel.send (World.fresh (fun _ => 1) (fun _ => 0)) 0 2 1 true).2

/-- Thread 3 takes the value with `recv()`. -/
def scenario_one_buffered_taken : Outcome (Int × Bool) × World Int :=
  channel.recv scenario_one_buffered 0 3 true

/-- Thread 1 has called `recv(false)` and evaluated its test while the value
was in the buffer; it takes the mutex after the `recv()` of thread 3. -/
def scenario_nonblocking_recv_late : Outcome (Int × Bool) × World Int :=
  channel.recv_interleaved scenario_one_buffered scenario_one_buffered_taken.2 0 1 false

/-- A ticker of period 5 is constructed at time 0 and stopped before its
driver thread has entered `run()`: the periodic task is queued and
`stop(false)` has been called. -/
def scenario_ticker_stopped_early : scheduler :=
  (scheduler.init.schedule_periodic (.call 0) 5 5 0).stop false

/-- The non-blocking attempt of the offer `(c, d)` succeeds in the heap `w`:
`peek` returns a value (for `d = nullptr`), `poke` returns `true`. -/
def OfferReady [Inhabited T] (w : World T) (self : CtxId) (c : ChanId) : Option T → Prop
  | none => ∃ v, (channel.recv w c self false).1 = .ret (v, true)
  | some x => (channel.send w c self x false).1 = .ret true

/-- Two channels of capacity 1, each holding one value. -/
def scenario_two_ready : World Int :=
  (channel.send (channel.send (World.fresh (fun _ => 1) (fun _ => 1)) 0 2 10 true).2
    1 2 11 true).2

/-! ## Periodic tasks -/

/-- The entry is an offer on the channel `chan`: to send when `send` is set
(its data pointer is not null), to receive otherwise. -/
def Offer.is (chan : ChanId) (send : Bool) (o : Offer T) : Bool :=
  o.1 == some chan && (o.2.isSome == send)

/-- The queue of parked senders (`send` set) or of parked receivers. -/
def channel.queue (send : Bool) (ch : channel T) : List CtxId :=
  if send then ch.sendq_ else ch.recvq_

/-- The indices met by `size` steps of a cyclic scan that starts at `r`. -/
def scan_order (size r : Nat) : List Nat := (List.range size).map (fun k => (r + k) % size)

/-- The first index, in the order of the scan from `r`, whose entry is an
offer of the given kind on `chan`. -/
def scan_first (offs : List (Offer T)) (chan : ChanId) (send : Bool) (r : Nat) : Option Nat :=
  (scan_order offs.length r).find? (fun j => Offer.is chan send (offs.getD j (none, none)))

/-- The common form of the bodies of the two scans: `unblocked_sender` is
`send = true`, `unblocked_receiver` is `send = false` with the value `data`. -/
def context.unblocked_body (send : Bool) (self : CtxId) (chan : ChanId) (data : Option T)
    (i : Nat) (s : Scan T) : Scan T :=
  match (s.w.ctxs self).send_data_.getD i (none, none) with
  | (none, _) => s
  | (some ch, second) =>
    if ch = chan ∧ second.isSome = send ∧ s.found = false then
      let cx := s.w.ctxs self
      if send then
        { w := s.w.setCtx self { cx with unblockedx_ := (i : Int) }, data := second,
          found := true }
      else
        { s with w := s.w.setCtx self { cx with unblockedx_ := (i : Int), recv_data_ := data },
                 found := true }
    else if second.isNone then
      { s with w := (channel.remove_receiver s.w ch self).2 }
    else
      { s with w := (channel.remove_sender s.w ch self).2 }

/-- The scan as a fold of its body over the indices it meets. -/
def context.unblocked_fold (send : Bool) (self : CtxId) (chan : ChanId) (data : Option T)
    (vis : List Nat) (s : Scan T) : Scan T :=
  vis.foldl (fun s i => context.unblocked_body send self chan data i s) s

/-- Invariant of a scan of kind `send` started in the heap `w0`, after the
indices `vis`: the flag `found` tells whether an offer of the kind on `chan`
has been met; if so the first one met is committed; and the context `x` has
lost one queue entry for each other offer met. -/
structure ScanInv (send : Bool) (x : CtxId) (chan : ChanId) (data : Option T) (w0 : World T)
    (vis : List Nat) (s : Scan T) : Prop where
  frame : CommitFrame x w0 s.w
  found : s.found =
    vis.any (fun j => Offer.is chan send ((w0.ctxs x).send_data_.getD j (none, none)))
  index : ∀ j,
    vis.find? (fun j => Offer.is chan send ((w0.ctxs x).send_data_.getD j (none, none))) =
      some j →
    (s.w.ctxs x).unblockedx_ = (j : Int)
  data_send : send = true → ∀ j,
    vis.find? (fun j => Offer.is chan send ((w0.ctxs x).send_data_.getD j (none, none))) =
      some j →
    s.data = ((w0.ctxs x).send_data_.getD j (none, none)).2
  data_keep : send = true → (s.w.ctxs x).recv_data_ = (w0.ctxs x).recv_data_
  data_recv : send = false → ∀ j,
    vis.find? (fun j => Offer.is chan send ((w0.ctxs x).send_data_.getD j (none, none))) =
      some j →
    (s.w.ctxs x).recv_data_ = data
  queues : ∀ d b, (channel.queue b (s.w.chans d)).count x =
    (channel.queue b (w0.chans d)).count x -
      (vis.countP (fun j => Offer.is d b ((w0.ctxs x).send_data_.getD j (none, none))) -
        (if d = chan ∧ b = send ∧ s.found = true then 1 else 0))

/-- What a commit routine of kind `send` has done for the context `x` on the
channel `chan` between the heaps `w` and `w'`, having committed the offer at
index `j`: the index is recorded and the offers list is empty; no other
context and no semaphore is touched; channels differ only by entries of `x`
erased from their queues, one for each offer of `x` other than the committed
one. -/
structure Commit (x : CtxId) (chan : ChanId) (send : Bool) (j : Nat) (w w' : World T) :
    Prop where
  index : (w'.ctxs x).unblockedx_ = (j : Int)
  offers : (w'.ctxs x).send_data_ = []
  count : (w'.ctxs x).count_ = (w.ctxs x).count_
  ctxs : ∀ y, y ≠ x → w'.ctxs y = w.ctxs y
  chans : ∀ d, QueueOnly x (w.chans d) (w'.chans d)
  queues : ∀ d b, (channel.queue b (w'.chans d)).count x =
    (channel.queue b (w.chans d)).count x -
      ((w.ctxs x).send_data_.countP (Offer.is d b) - (if d = chan ∧ b = send then 1 else 0))

/-- Thread 1 is parked in a blocking `select` that offers `send(c, 1)` and
`send(c, 2)` on the unbuffered channel `c = 0`; `rand()` returns 1. -/
def scenario_two_sends : World Int :=
  (selector.select (World.fresh (fun _ => 0) (fun _ => 1))
    ((selector.init.send 0 1).send 0 2) 1 true).2.1

/-- Scenario 2 continued: `channel<int>(2)` holds 10 and 20, sent by thread 1,
and thread 2 is parked in `send(30)`. -/
def scenario_full_with_sender : World Int :=
  (channel.send (channel.send (channel.send (World.fresh (fun _ => 2) (fun _ => 0))
    0 1 10 true).2 0 1 20 true).2 0 2 30 true).2

/-- Thread 1 is parked in a blocking `select` that offers `send(c, 1)` and
`recv(c)` on the open unbuffered channel `c = 0`. -/
def scenario_select_both_parked : World Int :=
  (selector.select (World.fresh (fun _ => 0) (fun _ => 0))
    ((selector.init.send 0 1).recv 0) 1 true).2.1

/-- Channels of capacity 1. Thread 1 sends 1 on channel 0; the `send(2)` of
thread 2 parks; channel 0 is closed; thread 2 resumes, throws and returns, and
then parks in `recv()` on channel 1. -/
def scenario_popped_value : Option (Sys Int) :=
  Sys.run [.send 1 0 1 true, .send 2 0 2 true, .close 0, .wake 2, .recv 2 1 true]
    (Sys.init (fun _ => 1) (fun _ => 0))

/-- `channel<int> c(1)` holds 10, sent by thread 1; thread 2 has called
`select(false)` on a selector offering `send(c, 5)`, which returned -1, and is
now parked in `c.send(30)`; `rand()` returns 0. -/
def scenario_stale_sender : World Int :=
  (channel.send (selector.select
    (channel.send (World.fresh (fun _ => 1) (fun _ => 0)) 0 1 10 true).2
    (selector.init.send 0 5) 2 false).2.1 0 2 30 true).2

/-- Scenario 5 with a history and both channels ready: after the
`select(false)` of `scenario_selector_first` has returned -1, thread 2 sends
42 on `a` and 43 on `b`. -/
def scenario_selector_both_ready : World Int :=
  (channel.send (channel.send scenario_selector_first.2.1 0 2 42 true).2 1 2 43 true).2

/-! # Theorems -/

section basic

@[simp] theorem World.setChan_chans_same (w : World T) (c : ChanId) (ch : channel T) :
    (w.setChan c ch).chans c = ch := by
  simp [World.setChan]

@[simp] theorem World.setChan_chans_other (w : World T) (c d : ChanId) (ch : channel T)
    (h : d ≠ c) : (w.setChan c ch).chans d = w.chans d := by
  simp [World.setChan, Function.update_noteq h]

@[simp] theorem World.setChan_ctxs (w : World T) (c : ChanId) (ch : channel T) :
    (w.setChan c ch).ctxs = w.ctxs := rfl

@[simp] theorem World.setChan_rand (w : World T) (c : ChanId) (ch : channel T) :
    (w.setChan c ch).rand = w.rand := rfl

@[simp] theorem World.setCtx_ctxs_same (w : World T) (x : CtxId) (cx : context T) :
    (w.setCtx x cx).ctxs x = cx := by
  simp [World.setCtx]

@[simp] theorem World.setCtx_ctxs_other (w : World T) (x y : CtxId) (cx : context T)
    (h : y ≠ x) : (w.setCtx x cx).ctxs y = w.ctxs y := by
  simp [World.setCtx, Function.update_noteq h]

@[simp] theorem World.setCtx_chans (w : World T) (x : CtxId) (cx : context T) :
    (w.setCtx x cx).chans = w.chans := rfl

@[simp] theorem World.setCtx_rand (w : World T) (x : CtxId) (cx : context T) :
    (w.setCtx x cx).rand = w.rand := rfl

end basic

/-! ## Closed channels -/

/-- On a closed channel with `count_ = 0`, `recv` takes the first `return` of
`receive`, whose flag is `true`, and changes nothing. -/
theorem channel.recv_closed_empty [Inhabited T] (w : World T) (c : ChanId) (self : CtxId)
    (block : Bool) (hc : (w.chans c).closed_ = true) (h0 : (w.chans c).count_ = 0) :
    channel.recv w c self block = (.ret (default, true), w) := by
  simp [channel.recv, channel.receive, channel.size, hc, h0]

/-- C1 (the code departs from the claim): in scenario 3 the first two `recv`
return the buffered values, and the third and the fourth `recv`, on the closed
and drained channel, return the default value with `ok = true`, not `false`;
the channel is left as it was. -/
theorem C1_closed_drained_recv_reports_ok_true :
    (scenario_close_drains_recv 0).1 = .ret (10, true) ∧
    (scenario_close_drains_recv 1).1 = .ret (20, true) ∧
    (scenario_close_drains_recv 2).1 = .ret (0, true) ∧
    (scenario_close_drains_recv 3).1 = .ret (0, true) ∧
    (channel.recv (scenario_close_drains_recv 1).2 0 1 false).1 = .ret (0, true) ∧
    (scenario_close_drains_recv 2).2.chans 0 = (scenario_close_drains_recv 1).2.chans 0 ∧
    (scenario_close_drains_recv 3).2.chans 0 = (scenario_close_drains_recv 1).2.chans 0 := by
  decide

/-- C3: on a closed channel `send(v, block)` throws "send on closed channel"
for both values of `block`, whatever the buffer and the queues hold, and
leaves the whole heap as it was. -/
theorem C3_send_on_closed_throws (w : World T) (c : ChanId) (self : CtxId) (v : T)
    (block : Bool) (hc : (w.chans c).closed_ = true) :
    channel.send w c self v block = (.fault (.thrown .sendOnClosedChannel), w) ∧
    Err.what .sendOnClosedChannel = "send on closed channel" := by
  refine ⟨?_, rfl⟩
  simp [channel.send, channel.dispatch, hc]

/-- Witness of C3 on the closed channel of scenario 3, for both values of
`block`. -/
theorem C3_send_on_closed_throws_witness :
    (scenario_close_drains.chans 0).closed_ = true ∧
    (channel.send scenario_close_drains 0 1 30 true =
        (.fault (.thrown .sendOnClosedChannel), scenario_close_drains) ∧
      Err.what .sendOnClosedChannel = "send on closed channel") ∧
    (channel.send scenario_close_drains 0 1 30 false).1 =
        .fault (.thrown .sendOnClosedChannel) :=
  ⟨by decide, C3_send_on_closed_throws scenario_close_drains 0 1 30 true (by decide),
    by decide⟩

/-! ## The ring buffer -/

theorem wrap_succ (a C : Nat) (hC : 0 < C) :
    (if a % C + 1 = C then 0 else a % C + 1) = (a + 1) % C := by
  have hlt : a % C < C := Nat.mod_lt a hC
  have hmod : (a + 1) % C = (a % C + 1) % C := by
    rw [Nat.add_mod a 1 C, Nat.add_mod (a % C) 1 C, Nat.mod_mod]
  rw [hmod]
  split
  · rename_i h
    rw [h, Nat.mod_self]
  · rename_i h
    exact (Nat.mod_eq_of_lt (by omega)).symm

theorem mod_add_inj (a k l C : Nat) (hk : k < C) (hl : l < C)
    (h : (a + k) % C = (a + l) % C) : k = l :=
  Nat.ModEq.eq_of_lt_of_lt (Nat.ModEq.add_left_cancel' a h) hk hl

theorem Ring.init [Inhabited T] (C : Nat) (hC : 0 < C) : Ring C (channel.init C : channel T) [] where
  cap := rfl
  len := by simp [channel.init]
  rx := hC
  sx := by simp [channel.init]
  cnt := rfl
  le := by simp
  slots := by intro k hk; simp at hk

theorem Ring.push {C : Nat} {ch : channel T} {q : List T} (h : Ring C ch q)
    (hlt : q.length < C) (v : T) :
    Ring C { ch with buffer_ := ch.buffer_.set ch.sendx_ v,
                     sendx_ := if ch.sendx_ + 1 = ch.capacity then 0 else ch.sendx_ + 1,
                     count_ := ch.count_ + 1 } (q ++ [v]) where
  cap := h.cap
  len := by simp [h.len]
  rx := h.rx
  sx := by
    have hC : 0 < C := by omega
    simp only [channel.capacity, h.cap, h.sx, List.length_append, List.length_singleton]
    rw [wrap_succ _ _ hC]; rfl
  cnt := by simp [h.cnt]
  le := by simp; omega
  slots := by
    intro k hk
    simp only [List.length_append, List.length_singleton] at hk
    have hC : 0 < C := by omega
    by_cases hkq : k = q.length
    · subst hkq
      simp only [h.sx]
      rw [List.getElem?_set_self (by rw [h.len]; exact Nat.mod_lt _ hC)]
      simp
    · have hk' : k < q.length := by omega
      have hne : ch.sendx_ ≠ (ch.recvx_ + k) % C := by
        rw [h.sx]
        intro heq
        exact hkq (mod_add_inj _ _ _ _ (by omega) hlt heq.symm)
      simp only []
      rw [List.getElem?_set_ne hne, h.slots k hk', List.getElem?_append_left hk']

theorem Ring.pop {C : Nat} {ch : channel T} {x : T} {q : List T} [Inhabited T]
    (h : Ring C ch (x :: q)) :
    ch.buffer_.getD ch.recvx_ default = x ∧
    Ring C { ch with recvx_ := if ch.recvx_ + 1 = ch.capacity then 0 else ch.recvx_ + 1,
                     count_ := ch.count_ - 1 } q := by
  have hC : 0 < C := by have := h.rx; omega
  have hrx := h.rx
  have hwrap : (if ch.recvx_ + 1 = ch.capacity then 0 else ch.recvx_ + 1) = (ch.recvx_ + 1) % C := by
    have := wrap_succ ch.recvx_ C hC
    rw [Nat.mod_eq_of_lt hrx] at this
    simpa [channel.capacity, h.cap] using this
  constructor
  · have := h.slots 0 (by simp)
    simp [Nat.mod_eq_of_lt hrx] at this
    simp [this]
  · refine ⟨h.cap, h.len, ?_, ?_, ?_, ?_, ?_⟩
    · simp only [hwrap]; exact Nat.mod_lt _ hC
    · simp only [hwrap, h.sx, List.length_cons]
      rw [Nat.mod_add_mod]; congr 1; omega
    · simp [h.cnt]
    · have := h.le; simp at this; omega
    · intro k hk
      simp only [hwrap]
      rw [Nat.mod_add_mod]
      have := h.slots (k + 1) (by simp; omega)
      rw [List.getElem?_cons_succ] at this
      rw [← this]; congr 2; omega

theorem channel.send_into_buffer (w : World T) (c : ChanId) (self : CtxId) (v : T) (b : Bool)
    {C : Nat} {q : List T} (hopen : (w.chans c).closed_ = false)
    (hrq : (w.chans c).recvq_ = []) (hr : Ring C (w.chans c) q) (hlt : q.length < C) :
    channel.send w c self v b = (.ret true, w.setChan c
      { w.chans c with buffer_ := (w.chans c).buffer_.set (w.chans c).sendx_ v,
                       sendx_ := if (w.chans c).sendx_ + 1 = (w.chans c).capacity then 0
                                 else (w.chans c).sendx_ + 1,
                       count_ := (w.chans c).count_ + 1 }) := by
  have hC : 0 < C := by omega
  have hne : ¬ (q.length = C) := by omega
  have hne0 : ¬ (C = 0) := by omega
  simp [channel.send, channel.dispatch, channel.capacity, channel.size, hopen, hrq, hr.cap,
    hr.cnt, hlt, hne, hne0]

theorem channel.recv_from_buffer [Inhabited T] (w : World T) (c : ChanId) (self : CtxId)
    (b : Bool) {C : Nat} {x : T} {q : List T}
    (hsq : (w.chans c).sendq_ = []) (hr : Ring C (w.chans c) (x :: q)) :
    channel.recv w c self b = (.ret (x, true), w.setChan c
      { w.chans c with recvx_ := if (w.chans c).recvx_ + 1 = (w.chans c).capacity then 0
                                 else (w.chans c).recvx_ + 1,
                       count_ := (w.chans c).count_ - 1 }) := by
  have hC : 0 < C := by have := hr.rx; omega
  have hne0 : ¬ (C = 0) := by omega
  have hx := (Ring.pop hr).1
  simp only [List.getD_eq_getElem?_getD] at hx
  simp [channel.recv, channel.receive, channel.receive_pop, channel.receive_direct,
    channel.receive_refill, channel.capacity, channel.size, hsq, hr.cap, hr.cnt, hne0, hx]

theorem runCalls_fifo [Inhabited T] (c : ChanId) (self : CtxId) (C : Nat)
    (calls : List (Call T)) : ∀ (w : World T) (q : List T),
    (w.chans c).closed_ = false → (w.chans c).recvq_ = [] → (w.chans c).sendq_ = [] →
    Ring C (w.chans c) q → neverParks C q.length calls = true →
    sendReplies (runCalls c self calls w) = List.replicate (sendCount calls) (.ret true) ∧
    recvReplies (runCalls c self calls w) =
      ((q ++ sentValues calls).take (recvCount calls)).map (fun v => .ret (v, true)) := by
  induction calls with
  | nil => intro w q _ _ _ _ _; simp [runCalls, sendReplies, recvReplies, sendCount, recvCount]
  | cons call rest ih =>
    intro w q hopen hrq hsq hr hp
    cases call with
    | send v b =>
      simp only [neverParks, Bool.and_eq_true, decide_eq_true_eq] at hp
      have hstep := channel.send_into_buffer w c self v b hopen hrq hr hp.1
      have := ih (channel.send w c self v b).2 (q ++ [v]) (by rw [hstep]; simpa using hopen) (by rw [hstep]; simpa using hrq)
        (by rw [hstep]; simpa using hsq) (by rw [hstep]; simpa using Ring.push hr hp.1 v)
        (by simpa using hp.2)
      have ho : (channel.send w c self v b).1 = .ret true := by rw [hstep]
      simp only [runCalls, sendReplies, recvReplies, sendCount, recvCount, sentValues, ho]
      refine ⟨?_, ?_⟩
      · rw [this.1]; rfl
      · rw [this.2]; simp
    | recv b =>
      simp only [neverParks, Bool.and_eq_true, decide_eq_true_eq] at hp
      cases q with
      | nil => simp at hp
      | cons x q =>
        have hstep := channel.recv_from_buffer w c self b hsq hr
        have := ih (channel.recv w c self b).2 q (by rw [hstep]; simpa using hopen) (by rw [hstep]; simpa using hrq)
          (by rw [hstep]; simpa using hsq) (by rw [hstep]; simpa using (Ring.pop hr).2)
          (by simpa using hp.2)
        have ho : (channel.recv w c self b).1 = .ret (x, true) := by rw [hstep]
        simp only [runCalls, sendReplies, recvReplies, sendCount, recvCount, sentValues, ho]
        refine ⟨this.1, ?_⟩
        rw [this.2]; simp

/-- C2: sequence law through the ring buffer. On a fresh channel of capacity
`C > 0`, for every sequence of `send` and `recv` calls of one thread (blocking
or not) in which the number of values in flight stays within `[0, C]`, every
`send` returns `true` and the `recv` calls return, in order and with
`ok = true`, the values of the first sends: the i-th `recv` returns the value
of the i-th `send`. -/
theorem C2_sequence_law [Inhabited T] (w : World T) (c : ChanId) (self : CtxId) (C : Nat)
    (calls : List (Call T)) (hC : 0 < C) (hfresh : w.chans c = channel.init C)
    (hpark : neverParks C 0 calls = true) :
    sendReplies (runCalls c self calls w) = List.replicate (sendCount calls) (.ret true) ∧
    recvReplies (runCalls c self calls w) =
      ((sentValues calls).take (recvCount calls)).map (fun v => .ret (v, true)) := by
  have h := runCalls_fifo c self C calls w [] (by rw [hfresh]; rfl) (by rw [hfresh]; rfl)
    (by rw [hfresh]; rfl) (by rw [hfresh]; exact Ring.init C hC) (by simpa using hpark)
  simpa using h

/-- Witness of C2 on `channel<int>(2)`: six calls, the indices wrap around. -/
theorem C2_sequence_law_witness :
    0 < 2 ∧ (World.fresh (fun _ => 2) (fun _ => 0) : World Int).chans 0 = channel.init 2 ∧
    (sendReplies (runCalls 0 1
        [.send 1 true, .send 2 true, .recv true, .send 3 false, .recv true, .recv false]
        (World.fresh (fun _ => 2) (fun _ => 0) : World Int)) =
      [.ret true, .ret true, .ret true] ∧
     recvReplies (runCalls 0 1
        [.send 1 true, .send 2 true, .recv true, .send 3 false, .recv true, .recv false]
        (World.fresh (fun _ => 2) (fun _ => 0) : World Int)) =
      [.ret (1, true), .ret (2, true), .ret (3, true)]) :=
  ⟨by decide, rfl,
    C2_sequence_law (World.fresh (fun _ => 2) (fun _ => 0) : World Int) 0 1 2
      [.send 1 true, .send 2 true, .recv true, .send 3 false, .recv true, .recv false]
      (by decide) rfl (by decide)⟩

/-! ## Scenarios in which the code departs from the specification -/

/-- C4 (the code departs from the claim): thread 1 polled a selector offering
`send(c, 5)`, which returned -1 and left the offer in its context; its
blocking `c.send(7)` then parks with the context holding both offers, and the
`recv()` of thread 2 returns `(5, true)`, the value of the stale offer, not
the 7 passed to `send`. Only that sender leaves `sendq_` and its `send`
resumes with `true`. -/
theorem C4_rendezvous_delivers_stale_offer :
    scenario_rendezvous_select.1 = .ret (-1) ∧
    (scenario_rendezvous_select.2.1.ctxs 1).send_data_ = [(some 0, some 5)] ∧
    scenario_rendezvous_send.1 = .parked ∧
    (scenario_rendezvous_send.2.chans 0).sendq_ = [1] ∧
    (scenario_rendezvous_send.2.chans 0).closed_ = false ∧
    (scenario_rendezvous_send.2.chans 0).size_ = 0 ∧
    scenario_rendezvous_recv.1 = .ret (5, true) ∧
    (scenario_rendezvous_recv.2.chans 0).sendq_ = [] ∧
    Option.map Prod.fst (channel.dispatch_wake scenario_rendezvous_recv.2 0 1 7 true) =
      some (.ret true) := by
  decide

/-- C6 (the code departs from the claim): in scenario 4 the sender parked on
the full channel is woken by `close()`, which signals it but leaves it in
`sendq_`; on resuming it throws "not removed from send queue", not "send on
closed channel", and it is still in `sendq_` afterwards. -/
theorem C6_close_wakes_sender_wrong_error :
    scenario_close_wakes_sender_parked.1 = .parked ∧
    (scenario_close_wakes_sender.ctxs 2).unblockedx_ = -1 ∧
    (scenario_close_wakes_sender.chans 0).closed_ = true ∧
    (scenario_close_wakes_sender.chans 0).sendq_ = [2] ∧
    Option.map Prod.fst (channel.dispatch_wake scenario_close_wakes_sender 0 2 2 true) =
      some (.fault (.thrown .notRemovedFromSendQueue)) ∧
    (channel.send scenario_close_wakes_sender 0 3 2 true).1 =
      .fault (.thrown .sendOnClosedChannel) ∧
    Err.what .notRemovedFromSendQueue ≠ Err.what .sendOnClosedChannel := by
  decide

/-- C7 (the code departs from the claim): a receiver parked on an empty open
channel and woken by `close()` throws "not removed from receive queue" on
resuming, and it is still in `recvq_` afterwards. -/
theorem C7_close_wakes_receiver_throws :
    scenario_close_wakes_receiver_parked.1 = .parked ∧
    (scenario_close_wakes_receiver_parked.2.chans 0).recvq_ = [2] ∧
    (scenario_close_wakes_receiver.chans 0).closed_ = true ∧
    (scenario_close_wakes_receiver.chans 0).count_ = 0 ∧
    Option.map Prod.fst (channel.receive_wake scenario_close_wakes_receiver 0 2 true) =
      some (.fault (.thrown .notRemovedFromReceiveQueue)) ∧
    Option.map (fun r => (r.2.chans 0).recvq_)
      (channel.receive_wake scenario_close_wakes_receiver 0 2 true) = some [2] := by
  decide

/-- C8 (the code departs from the claim): a selector with the two offers
`recv(a)`, `recv(b)` whose `select(false)` returned -1 keeps both offers in the
context; the next `select()` of the same thread appends them again, polls a
list of four entries and returns 2, which is not a position of the selector's
list; the value 42 was taken from `a`, the offer inserted at position 0. -/
theorem C8_select_returns_index_out_of_range :
    scenario_selector.send_data_.length = 2 ∧
    scenario_selector_first.1 = .ret (-1) ∧
    (scenario_selector_first.2.1.ctxs 1).send_data_ = [(some 0, none), (some 1, none)] ∧
    scenario_selector_second.1 = .ret 2 ∧
    scenario_selector_second.2.2.get_data = some 42 ∧
    (scenario_selector_second.2.1.chans 0).count_ = 0 := by
  decide

/-! ## Commit routines and hand-off -/

theorem Erasures.append_steps {x : CtxId} {l l' l'' : List CtxId} (h : Erasures x l l')
    (h' : Erasures x l' l'') : Erasures x l l'' := by
  induction h' with
  | refl => exact h
  | step _ ih => exact .step ih

theorem Erasures.sublist {x : CtxId} {l l' : List CtxId} (h : Erasures x l l') :
    l'.Sublist l := by
  induction h with
  | refl => exact List.Sublist.refl _
  | step _ ih => exact (List.erase_sublist _ _).trans ih

theorem QueueOnly.of_same (x : CtxId) (ch : channel T) : QueueOnly x ch ch :=
  ⟨rfl, rfl, rfl, rfl, rfl, rfl, .refl _, .refl _⟩

theorem QueueOnly.compose {x : CtxId} {a b c : channel T} (h : QueueOnly x a b)
    (h' : QueueOnly x b c) : QueueOnly x a c :=
  ⟨h'.buffer_.trans h.buffer_, h'.size_.trans h.size_, h'.closed_.trans h.closed_,
    h'.count_.trans h.count_, h'.sendx_.trans h.sendx_, h'.recvx_.trans h.recvx_,
    h.recvq_.append_steps h'.recvq_, h.sendq_.append_steps h'.sendq_⟩

theorem CommitFrame.of_same_world (x : CtxId) (w : World T) : CommitFrame x w w :=
  ⟨fun _ => QueueOnly.of_same _ _, fun _ _ => rfl, rfl, rfl⟩

theorem CommitFrame.compose_frames {x : CtxId} {a b c : World T} (h : CommitFrame x a b)
    (h' : CommitFrame x b c) : CommitFrame x a c :=
  ⟨fun d => (h.chans d).compose (h'.chans d), fun y hy => (h'.ctxs y hy).trans (h.ctxs y hy),
    h'.offers.trans h.offers, h'.count.trans h.count⟩

theorem channel.remove_receiver_frame (w : World T) (d : ChanId) (x : CtxId) :
    CommitFrame x w (channel.remove_receiver w d x).2 := by
  simp only [channel.remove_receiver]
  by_cases hm : x ∈ (w.chans d).recvq_ <;> simp only [hm, if_true, if_false]
  · refine ⟨fun e => ?_, fun _ _ => rfl, rfl, rfl⟩
    by_cases he : e = d
    · subst he
      simp only [World.setChan_chans_same]
      exact ⟨rfl, rfl, rfl, rfl, rfl, rfl, .step (.refl _), .refl _⟩
    · simp only [World.setChan_chans_other _ _ _ _ he]
      exact QueueOnly.of_same _ _
  · exact CommitFrame.of_same_world _ _

theorem channel.remove_sender_frame (w : World T) (d : ChanId) (x : CtxId) :
    CommitFrame x w (channel.remove_sender w d x).2 := by
  simp only [channel.remove_sender]
  by_cases hm : x ∈ (w.chans d).sendq_ <;> simp only [hm, if_true, if_false]
  · refine ⟨fun e => ?_, fun _ _ => rfl, rfl, rfl⟩
    by_cases he : e = d
    · subst he
      simp only [World.setChan_chans_same]
      exact ⟨rfl, rfl, rfl, rfl, rfl, rfl, .refl _, .step (.refl _)⟩
    · simp only [World.setChan_chans_other _ _ _ _ he]
      exact QueueOnly.of_same _ _
  · exact CommitFrame.of_same_world _ _


@[simp] theorem channel.remove_receiver_ctxs (w : World T) (d : ChanId) (x : CtxId) :
    (channel.remove_receiver w d x).2.ctxs = w.ctxs := by
  simp only [channel.remove_receiver]; split <;> rfl

@[simp] theorem channel.remove_receiver_rand (w : World T) (d : ChanId) (x : CtxId) :
    (channel.remove_receiver w d x).2.rand = w.rand := by
  simp only [channel.remove_receiver]; split <;> rfl

@[simp] theorem channel.remove_sender_ctxs (w : World T) (d : ChanId) (x : CtxId) :
    (channel.remove_sender w d x).2.ctxs = w.ctxs := by
  simp only [channel.remove_sender]; split <;> rfl

@[simp] theorem channel.remove_sender_rand (w : World T) (d : ChanId) (x : CtxId) :
    (channel.remove_sender w d x).2.rand = w.rand := by
  simp only [channel.remove_sender]; split <;> rfl

theorem context.unblocked_receiver_body_scan (self : CtxId) (chan : ChanId) (data : Option T)
    (w0 : World T) (i : Nat) (s : Scan T) (h : RecvScan self chan data w0 s) :
    RecvScan self chan data w0 (context.unblocked_receiver_body self chan data i s) := by
  unfold context.unblocked_receiver_body
  split
  · exact h
  · rename_i ch second heq
    split
    · rename_i hc
      obtain ⟨hch, hsec, hf⟩ := hc
      have hoff := h.frame.offers
      refine ⟨⟨fun d => h.frame.chans d, fun y hy => ?_, ?_, ?_⟩, h.rand, fun _ => ⟨?_, i, ?_, ?_⟩,
        fun hff => by simp at hff⟩
      · simp only [World.setCtx_ctxs_other _ _ _ _ hy]; exact h.frame.ctxs y hy
      · simp only [World.setCtx_ctxs_same]; exact hoff
      · simp only [World.setCtx_ctxs_same]; exact h.frame.count
      · simp
      · simp
      · rw [hoff] at heq
        rw [List.getD_eq_getElem?_getD] at heq
        cases hget : (w0.ctxs self).send_data_[i]? with
        | none => rw [hget] at heq; simp at heq
        | some p =>
          rw [hget] at heq
          simp only [Option.getD_some] at heq
          subst heq
          cases second with
          | none => rw [hch]
          | some _ => simp at hsec
    · split
      · exact ⟨h.frame.compose_frames (channel.remove_receiver_frame s.w ch self),
          by simpa using h.rand, fun hfd => by simpa using h.committed hfd,
          fun hfd => by simpa using h.untouched hfd⟩
      · exact ⟨h.frame.compose_frames (channel.remove_sender_frame s.w ch self),
          by simpa using h.rand, fun hfd => by simpa using h.committed hfd,
          fun hfd => by simpa using h.untouched hfd⟩

theorem context.unblocked_receiver_loop_scan (self : CtxId) (chan : ChanId) (data : Option T)
    (w0 : World T) (size : Nat) : ∀ (n i : Nat) (s : Scan T), RecvScan self chan data w0 s →
    RecvScan self chan data w0 (context.unblocked_receiver_loop self chan data size n i s)
  | 0, _, _, h => h
  | n + 1, i, s, h => by
    simp only [context.unblocked_receiver_loop]
    exact context.unblocked_receiver_loop_scan self chan data w0 size n _ _
      (context.unblocked_receiver_body_scan self chan data w0 i s h)

/-- The cyclic successor used by the scans. -/
theorem cyclic_next (size i : Nat) (hi : i < size) :
    (if i + 1 ≥ size then 0 else i + 1) = (i + 1) % size := by
  split
  · have : i + 1 = size := by omega
    rw [this, Nat.mod_self]
  · exact (Nat.mod_eq_of_lt (by omega)).symm

/-- Every index below `size` is met by a cyclic scan of `size` steps. -/
theorem cyclic_cover (size i j : Nat) (hi : i < size) (hj : j < size) :
    ∃ k, k < size ∧ (i + k) % size = j := by
  refine ⟨(j + size - i) % size, Nat.mod_lt _ (by omega), ?_⟩
  rw [Nat.add_mod_mod]
  have : i + (j + size - i) = j + size := by omega
  rw [this, Nat.add_mod_right, Nat.mod_eq_of_lt hj]

@[simp] theorem std_rand_chans (w : World T) : (std_rand w).2.chans = w.chans := rfl
@[simp] theorem std_rand_ctxs (w : World T) : (std_rand w).2.ctxs = w.ctxs := rfl

theorem RecvScan.start (x : CtxId) (chan : ChanId) (data : Option T) (w : World T) :
    RecvScan x chan data w { w := w, data := none, found := false } :=
  ⟨CommitFrame.of_same_world _ _, rfl, fun h => by simp at h, fun _ => ⟨rfl, rfl⟩⟩

/-- Whatever it returns, `unblocked_receiver` on the context `self` changes
no other context, and changes channels only by erasing `self` from queues. -/
theorem context.unblocked_receiver_frame (w : World T) (self : CtxId) (chan : ChanId)
    (data : Option T) :
    (∀ d, QueueOnly self (w.chans d) ((context.unblocked_receiver w self chan data).2.chans d)) ∧
    (∀ y, y ≠ self → (context.unblocked_receiver w self chan data).2.ctxs y = w.ctxs y) ∧
    ((context.unblocked_receiver w self chan data).2.ctxs self).count_ = (w.ctxs self).count_ := by
  simp only [context.unblocked_receiver]
  split
  · exact ⟨fun d => QueueOnly.of_same _ _, fun _ _ => rfl, rfl⟩
  · rename_i hsize
    have hs := context.unblocked_receiver_loop_scan self chan data (std_rand w).2
      (w.ctxs self).send_data_.length (w.ctxs self).send_data_.length
      ((std_rand w).1 % (w.ctxs self).send_data_.length) _
      (RecvScan.start self chan data (std_rand w).2)
    split
    · exact ⟨hs.frame.chans, hs.frame.ctxs, hs.frame.count⟩
    · refine ⟨fun d => ?_, fun y hy => ?_, ?_⟩
      · simpa using hs.frame.chans d
      · simpa [World.setCtx_ctxs_other _ _ _ _ hy] using hs.frame.ctxs y hy
      · simpa using hs.frame.count

@[simp] theorem context.signal_chans (w : World T) (x : CtxId) :
    (context.signal w x).chans = w.chans := rfl

@[simp] theorem context.clear_chans (w : World T) (x : CtxId) :
    (context.clear w x).chans = w.chans := rfl

@[simp] theorem context.wait_return_chans (w : World T) (x : CtxId) :
    (context.wait_return w x).chans = w.chans := rfl

/-- `dispatch` returns `false` only through its `if (!block) return false`,
with nothing changed. -/
theorem channel.dispatch_ret_false (w : World T) (c : ChanId) (self : CtxId) (v : T)
    (block : Bool) (h : (channel.dispatch w c self v block).1 = .ret false) :
    (channel.dispatch w c self v block).2 = w ∧ block = false ∧
    (w.chans c).recvq_ = [] ∧ ¬ (w.chans c).count_ < (w.chans c).size_ := by
  generalize hres : channel.dispatch w c self v block = res at h ⊢
  unfold channel.dispatch at hres
  simp only [] at hres
  split at hres
  · subst hres; simp at h
  · split at hres
    · subst hres; simp at h
    · split at hres
      · split at hres <;> (subst hres; simp at h)
      · rename_i hq
        split at hres
        · subst hres; simp at h
        · rename_i hlt
          split at hres
          · rename_i hb
            subst hres
            simp only [channel.size, channel.capacity] at hlt
            simp at hb
            exact ⟨rfl, hb, hq, hlt⟩
          · subst hres; simp at h

/-- `send` returns `false` only without changing anything. -/
theorem channel.send_ret_false (w : World T) (c : ChanId) (self : CtxId) (v : T)
    (block : Bool) (h : (channel.send w c self v block).1 = .ret false) :
    (channel.send w c self v block).2 = w ∧ block = false := by
  unfold channel.send at h ⊢
  simp only [] at h ⊢
  split at h
  · rename_i hf
    simp only [hf, if_true, true_and]
    simp at hf
    exact hf.1.1
  · rename_i hf
    simp only [hf, if_false]
    have := channel.dispatch_ret_false w c self v block h
    exact ⟨this.1, this.2.1⟩

/-- Whenever `receive` returns, its flag is `true`. -/
theorem channel.receive_ret_ok [Inhabited T] (w : World T) (c : ChanId) (self : CtxId)
    (block : Bool) (x : T) (ok : Bool)
    (h : (channel.receive w c self block).1 = .ret (x, ok)) : ok = true := by
  unfold channel.receive at h
  simp only [] at h
  split at h
  · simp at h; exact h.2
  · split at h
    · simp at h
    · split at h
      · simp at h
      · split at h
        · simp at h; exact h.2
        · simp at h

/-- `recv` returns the flag `false` only on its fast path, with nothing
changed. -/
theorem channel.recv_ret_false [Inhabited T] (w : World T) (c : ChanId) (self : CtxId)
    (block : Bool) (x : T) (h : (channel.recv w c self block).1 = .ret (x, false)) :
    (channel.recv w c self block).2 = w ∧ x = default ∧ block = false ∧
    (w.chans c).closed_ = false ∧
    (((w.chans c).size_ = 0 ∧ (w.chans c).sendq_ = []) ∨
      (0 < (w.chans c).size_ ∧ (w.chans c).count_ = 0)) := by
  unfold channel.recv at h ⊢
  simp only [] at h ⊢
  split at h
  · rename_i hf
    simp only [hf, if_true, true_and]
    simp [channel.capacity, channel.size] at hf h
    exact ⟨h.symm, hf.1.1, hf.2, hf.1.2⟩
  · have := channel.receive_ret_ok w c self block x false h
    simp at this

/-- The test of the fast path of `send(v, false)` on an open channel. -/
theorem channel.send_fast_path (w : World T) (c : ChanId) (self : CtxId) (v : T)
    (hopen : (w.chans c).closed_ = false) :
    (((w.chans c).size_ = 0 ∧ (w.chans c).recvq_ = []) ∨
      (0 < (w.chans c).size_ ∧ (w.chans c).count_ = (w.chans c).size_) →
      channel.send w c self v false = (.ret false, w)) ∧
    (¬ (((w.chans c).size_ = 0 ∧ (w.chans c).recvq_ = []) ∨
      (0 < (w.chans c).size_ ∧ (w.chans c).count_ = (w.chans c).size_)) →
      channel.send w c self v false = channel.dispatch w c self v false) := by
  constructor
  · intro h
    have : (!false && (((w.chans c).capacity == 0 && (w.chans c).recvq_.isEmpty) ||
      (decide ((w.chans c).capacity > 0) && (w.chans c).size == (w.chans c).capacity)) &&
      !(w.chans c).closed_) = true := by
      simpa [channel.capacity, channel.size, hopen] using h
    simp only [channel.send, this, if_true]
  · intro h
    have : (!false && (((w.chans c).capacity == 0 && (w.chans c).recvq_.isEmpty) ||
      (decide ((w.chans c).capacity > 0) && (w.chans c).size == (w.chans c).capacity)) &&
      !(w.chans c).closed_) = false := by
      rw [Bool.eq_false_iff]
      intro h2
      apply h
      simpa [channel.capacity, channel.size, hopen] using h2
    simp only [channel.send, this, Bool.false_eq_true, if_false]

/-- C10: on an open channel (with `count_ ≤ size_`), `send(v, false)` returns
`false` exactly when (`C = 0` and `recvq_` is empty) or (`C > 0` and
`count_ = C`), and `recv(false)` returns `(default, false)` exactly when
(`C = 0` and `sendq_` is empty) or (`C > 0` and `count_ = 0`); a non-blocking
call that fails leaves the whole heap, hence `buffer_`, `sendx_`, `recvx_`,
`count_`, `closed_`, `sendq_` and `recvq_`, as it was. -/
theorem C10_nonblocking_failure [Inhabited T] (w : World T) (c : ChanId) (self : CtxId)
    (v : T) (hopen : (w.chans c).closed_ = false)
    (hwf : (w.chans c).count_ ≤ (w.chans c).size_) :
    ((channel.send w c self v false).1 = .ret false ↔
      (((w.chans c).size_ = 0 ∧ (w.chans c).recvq_ = []) ∨
        (0 < (w.chans c).size_ ∧ (w.chans c).count_ = (w.chans c).size_))) ∧
    ((channel.send w c self v false).1 = .ret false → (channel.send w c self v false).2 = w) ∧
    ((channel.recv w c self false).1 = .ret (default, false) ↔
      (((w.chans c).size_ = 0 ∧ (w.chans c).sendq_ = []) ∨
        (0 < (w.chans c).size_ ∧ (w.chans c).count_ = 0))) ∧
    ((channel.recv w c self false).1 = .ret (default, false) →
      (channel.recv w c self false).2 = w) := by
  refine ⟨⟨fun h => ?_, fun h => ?_⟩, fun h => (channel.send_ret_false w c self v false h).1,
    ⟨fun h => (channel.recv_ret_false w c self false default h).2.2.2.2, fun h => ?_⟩,
    fun h => (channel.recv_ret_false w c self false default h).1⟩
  · by_contra hn
    rw [(channel.send_fast_path w c self v hopen).2 hn] at h
    obtain ⟨_, _, hq, hlt⟩ := channel.dispatch_ret_false w c self v false h
    apply hn
    by_cases h0 : (w.chans c).size_ = 0
    · exact .inl ⟨h0, hq⟩
    · exact .inr ⟨by omega, by omega⟩
  · rw [(channel.send_fast_path w c self v hopen).1 h]
  · have : (!false && (((w.chans c).capacity == 0 && (w.chans c).sendq_.isEmpty) ||
      (decide ((w.chans c).capacity > 0) && (w.chans c).size == 0)) &&
      !(w.chans c).closed_) = true := by
      simpa [channel.capacity, channel.size, hopen] using h
    simp only [channel.recv, this, if_true]

/-- Witness of C10 on `channel<int>(2)` holding 1 and 2: `send(3, false)` returns
`false`, changes nothing, and the two values are then received as 1 and 2. -/
theorem C10_nonblocking_failure_witness :
    (scenario_full_buffer.chans 0).closed_ = false ∧
    (scenario_full_buffer.chans 0).count_ ≤ (scenario_full_buffer.chans 0).size_ ∧
    (channel.send scenario_full_buffer 0 1 3 false).1 = .ret false ∧
    (channel.send scenario_full_buffer 0 1 3 false).2 = scenario_full_buffer ∧
    (channel.recv (channel.send scenario_full_buffer 0 1 3 false).2 0 1 true).1 =
      .ret (1, true) ∧
    (channel.recv (channel.recv (channel.send scenario_full_buffer 0 1 3 false).2 0 1 true).2
      0 1 true).1 = .ret (2, true) :=
  have h := C10_nonblocking_failure scenario_full_buffer 0 1 3 (by decide) (by decide)
  ⟨by decide, by decide, h.1.2 (by decide), h.2.1 (h.1.2 (by decide)), by decide, by decide⟩

/-! ## Frames of send, recv and the non-blocking select -/

theorem QueuesShrink.of_same_channel (ch : channel T) : QueuesShrink ch ch :=
  ⟨rfl, rfl, rfl, rfl, rfl, rfl, List.Sublist.refl _, List.Sublist.refl _⟩

theorem QueuesShrink.compose_shrinks {a b c : channel T} (h : QueuesShrink a b) (h' : QueuesShrink b c) :
    QueuesShrink a c :=
  ⟨h'.buffer_.trans h.buffer_, h'.size_.trans h.size_, h'.closed_.trans h.closed_,
    h'.count_.trans h.count_, h'.sendx_.trans h.sendx_, h'.recvx_.trans h.recvx_,
    h'.recvq_.trans h.recvq_, h'.sendq_.trans h.sendq_⟩

theorem QueueOnly.shrink {x : CtxId} {a b : channel T} (h : QueueOnly x a b) :
    QueuesShrink a b :=
  ⟨h.buffer_, h.size_, h.closed_, h.count_, h.sendx_, h.recvx_, h.recvq_.sublist,
    h.sendq_.sublist⟩

theorem QueuesShrink.of_eq {a b : channel T} (h : b = a) : QueuesShrink a b := by
  subst h; exact QueuesShrink.of_same_channel _

/-! ### unblocked_sender -/

theorem context.unblocked_sender_body_frame (self : CtxId) (chan : ChanId) (w0 : World T)
    (i : Nat) (s : Scan T) (h : CommitFrame self w0 s.w) :
    CommitFrame self w0 (context.unblocked_sender_body self chan i s).w := by
  unfold context.unblocked_sender_body
  split
  · exact h
  · split
    · refine ⟨fun d => h.chans d, fun y hy => ?_, ?_, ?_⟩
      · simp only [World.setCtx_ctxs_other _ _ _ _ hy]; exact h.ctxs y hy
      · simp only [World.setCtx_ctxs_same]; exact h.offers
      · simp only [World.setCtx_ctxs_same]; exact h.count
    · split
      · exact h.compose_frames (channel.remove_receiver_frame s.w _ self)
      · exact h.compose_frames (channel.remove_sender_frame s.w _ self)

theorem context.unblocked_sender_loop_frame (self : CtxId) (chan : ChanId) (w0 : World T)
    (size : Nat) : ∀ (n i : Nat) (s : Scan T), CommitFrame self w0 s.w →
    CommitFrame self w0 (context.unblocked_sender_loop self chan size n i s).w
  | 0, _, _, h => h
  | n + 1, i, s, h => by
    simp only [context.unblocked_sender_loop]
    exact context.unblocked_sender_loop_frame self chan w0 size n _ _
      (context.unblocked_sender_body_frame self chan w0 i s h)

/-- Whatever it returns, `unblocked_sender` on the context `self` changes no
other context, and changes channels only by erasing `self` from queues. -/
theorem context.unblocked_sender_frame (w : World T) (self : CtxId) (chan : ChanId) :
    (∀ d, QueueOnly self (w.chans d) ((context.unblocked_sender w self chan).2.chans d)) ∧
    (∀ y, y ≠ self → (context.unblocked_sender w self chan).2.ctxs y = w.ctxs y) ∧
    ((context.unblocked_sender w self chan).2.ctxs self).count_ = (w.ctxs self).count_ := by
  simp only [context.unblocked_sender]
  split
  · exact ⟨fun d => QueueOnly.of_same _ _, fun _ _ => rfl, rfl⟩
  · have hs := context.unblocked_sender_loop_frame self chan (std_rand w).2
      (w.ctxs self).send_data_.length (w.ctxs self).send_data_.length
      ((std_rand w).1 % (w.ctxs self).send_data_.length)
      { w := (std_rand w).2, data := none, found := false } (CommitFrame.of_same_world _ _)
    split
    · exact ⟨hs.chans, hs.ctxs, hs.count⟩
    · split
      · refine ⟨fun d => ?_, fun y hy => ?_, ?_⟩
        · simpa using hs.chans d
        · simpa [World.setCtx_ctxs_other _ _ _ _ hy] using hs.ctxs y hy
        · simpa using hs.count
      · refine ⟨fun d => ?_, fun y hy => ?_, ?_⟩
        · simpa using hs.chans d
        · simpa [World.setCtx_ctxs_other _ _ _ _ hy] using hs.ctxs y hy
        · simpa using hs.count

/-! ### Frames of send and recv -/

@[simp] theorem context.add_chans (w : World T) (x : CtxId) (c : Option ChanId) (d : Option T) :
    (context.add w x c d).chans = w.chans := rfl

/-- `dispatch` on channel `c` leaves every other channel as it was, except
that contexts may have left its queues. -/
theorem channel.dispatch_frame (w : World T) (c : ChanId) (self : CtxId) (v : T) (block : Bool)
    (d : ChanId) (hd : d ≠ c) :
    QueuesShrink (w.chans d) ((channel.dispatch w c self v block).2.chans d) := by
  unfold channel.dispatch
  simp only []
  split
  · exact QueuesShrink.of_same_channel _
  · split
    · exact QueuesShrink.of_same_channel _
    · split
      · rename_i ctext rest hq
        have hfr := (context.unblocked_receiver_frame
          (w.setChan c { w.chans c with recvq_ := rest }) ctext c (some v)).1 d
        simp only [World.setChan_chans_other _ _ _ _ hd] at hfr
        split
        · rename_i heq
          rw [heq] at hfr
          simpa using hfr.shrink
        · rename_i heq
          rw [heq] at hfr
          simpa using hfr.shrink
      · split
        · simp [World.setChan_chans_other _ _ _ _ hd, QueuesShrink.of_same_channel]
        · split
          · exact QueuesShrink.of_same_channel _
          · simp [World.setChan_chans_other _ _ _ _ hd, QueuesShrink.of_same_channel]

theorem channel.send_frame (w : World T) (c : ChanId) (self : CtxId) (v : T) (block : Bool)
    (d : ChanId) (hd : d ≠ c) :
    QueuesShrink (w.chans d) ((channel.send w c self v block).2.chans d) := by
  unfold channel.send
  simp only []
  split
  · exact QueuesShrink.of_same_channel _
  · exact channel.dispatch_frame w c self v block d hd

theorem channel.receive_pop_frame [Inhabited T] (w : World T) (c : ChanId) (d : ChanId)
    (hd : d ≠ c) : (channel.receive_pop w c).2.chans d = w.chans d := by
  unfold channel.receive_pop
  simp only []
  split
  · simp [World.setChan_chans_other _ _ _ _ hd]
  · rfl

theorem channel.receive_direct_frame (w : World T) (c : ChanId) (has : Option T) (d : ChanId)
    (hd : d ≠ c) :
    QueuesShrink (w.chans d) ((channel.receive_direct w c has).2.chans d) := by
  unfold channel.receive_direct
  simp only []
  split
  · rename_i ctext rest hq
    have hfr := (context.unblocked_sender_frame
      (w.setChan c { w.chans c with sendq_ := rest }) ctext c).1 d
    simp only [World.setChan_chans_other _ _ _ _ hd] at hfr
    split
    · rename_i heq
      rw [heq] at hfr
      simpa using hfr.shrink
    · rename_i heq
      rw [heq] at hfr
      simpa using hfr.shrink
  · exact QueuesShrink.of_same_channel _

theorem channel.receive_refill_frame (w : World T) (c : ChanId) (d : ChanId) (hd : d ≠ c) :
    QueuesShrink (w.chans d) ((channel.receive_refill w c).2.chans d) := by
  unfold channel.receive_refill
  simp only []
  split
  · rename_i ctext rest hq
    split
    · have hfr := (context.unblocked_sender_frame
        (w.setChan c { w.chans c with sendq_ := rest }) ctext c).1 d
      simp only [World.setChan_chans_other _ _ _ _ hd] at hfr
      split
      · rename_i heq
        rw [heq] at hfr
        simpa [World.setChan_chans_other _ _ _ _ hd] using hfr.shrink
      · rename_i heq
        rw [heq] at hfr
        simpa using hfr.shrink
    · exact QueuesShrink.of_same_channel _
  · exact QueuesShrink.of_same_channel _

/-- `receive` on channel `c` leaves every other channel as it was, except
that contexts may have left its queues. -/
theorem channel.receive_frame [Inhabited T] (w : World T) (c : ChanId) (self : CtxId)
    (block : Bool) (d : ChanId) (hd : d ≠ c) :
    QueuesShrink (w.chans d) ((channel.receive w c self block).2.chans d) := by
  have h1 := channel.receive_pop_frame w c d hd
  have h2 := channel.receive_direct_frame (channel.receive_pop w c).2 c
    (channel.receive_pop w c).1 d hd
  rw [h1] at h2
  unfold channel.receive
  simp only []
  split
  · exact QueuesShrink.of_same_channel _
  · split
    · rename_i heq
      rw [heq] at h2
      exact h2
    · rename_i has1 w1 heq
      rw [heq] at h2
      have h3 := channel.receive_refill_frame w1 c d hd
      split
      · rename_i heq3
        rw [heq3] at h3
        exact h2.compose_shrinks h3
      · rename_i heq3
        rw [heq3] at h3
        split
        · exact h2.compose_shrinks h3
        · simpa [World.setChan_chans_other _ _ _ _ hd] using h2.compose_shrinks h3

theorem channel.recv_frame [Inhabited T] (w : World T) (c : ChanId) (self : CtxId)
    (block : Bool) (d : ChanId) (hd : d ≠ c) :
    QueuesShrink (w.chans d) ((channel.recv w c self block).2.chans d) := by
  unfold channel.recv
  simp only []
  split
  · exact QueuesShrink.of_same_channel _
  · exact channel.receive_frame w c self block d hd

theorem channel.peek_some [Inhabited T] (w : World T) (c : ChanId) (self : CtxId) (v : T)
    (w1 : World T) (h : channel.peek w c self = (.ret (some v), w1)) :
    (channel.recv w c self false).1 = .ret (v, true) ∧ w1 = (channel.recv w c self false).2 := by
  unfold channel.peek at h
  split at h
  · rename_i res w2 heq
    rw [heq]
    simp only [Prod.mk.injEq, Outcome.ret.injEq] at h
    rcases res with ⟨x, ok⟩
    cases ok <;> simp at h
    exact ⟨by simp [h.1], h.2.symm⟩
  · simp at h
  · simp at h

theorem channel.peek_none [Inhabited T] (w : World T) (c : ChanId) (self : CtxId)
    (w1 : World T) (h : channel.peek w c self = (.ret none, w1)) :
    w1 = w ∧ ∃ v, channel.recv w c self false = (.ret (v, false), w) := by
  unfold channel.peek at h
  split at h
  · rename_i res w2 heq
    simp only [Prod.mk.injEq, Outcome.ret.injEq] at h
    rcases res with ⟨x, ok⟩
    cases ok <;> simp at h
    have hr := channel.recv_ret_false w c self false x (by rw [heq])
    rw [heq] at hr
    simp only at hr
    subst h
    exact ⟨hr.1, x, by rw [heq, hr.1]⟩
  · simp at h
  · simp at h

theorem channel.poke_false (w : World T) (c : ChanId) (self : CtxId) (x : T)
    (w1 : World T) (h : channel.poke w c self x = (.ret false, w1)) :
    w1 = w ∧ channel.send w c self x false = (.ret false, w) := by
  unfold channel.poke at h
  have hr := channel.send_ret_false w c self x false (by rw [h])
  rw [h] at hr
  simp only at hr
  exact ⟨hr.1, by rw [h, hr.1]⟩

/-- A polling loop that ends without `return` has changed nothing, and every
offer it met failed. -/
theorem selector.select_poll_loop_none [Inhabited T] (self : CtxId) (size : Nat) :
    ∀ (n i : Nat) (w : World T) (sel : selector T), i < size →
    (selector.select_poll_loop self size n i w sel).1 = none →
    (selector.select_poll_loop self size n i w sel).2 = (w, sel) ∧
    ∀ k, k < n → ∀ c d, (w.ctxs self).send_data_[(i + k) % size]? = some (some c, d) →
      OfferFails w self c d
  | 0, _, _, _, _, _ => ⟨rfl, fun k hk => by omega⟩
  | n + 1, i, w, sel, hi, h => by
    have hsize : 0 < size := by omega
    have hnext := cyclic_next size i hi
    have hshift : ∀ k, ((i + 1) % size + k) % size = (i + (k + 1)) % size := by
      intro k; rw [Nat.mod_add_mod]; congr 1; omega
    cases hget : (w.ctxs self).send_data_[i]? with
    | none => simp [selector.select_poll_loop, hget] at h
    | some off =>
      rcases off with ⟨_ | ch, _ | data⟩
      · simp only [selector.select_poll_loop, hget, hnext] at h ⊢
        obtain ⟨h1, h2⟩ := selector.select_poll_loop_none self size n _ w sel
          (Nat.mod_lt _ hsize) h
        refine ⟨h1, fun k hk c d hoff => ?_⟩
        cases k with
        | zero => simp [Nat.mod_eq_of_lt hi, hget] at hoff
        | succ k => exact h2 k (by omega) c d (by rw [hshift]; exact hoff)
      · simp only [selector.select_poll_loop, hget, hnext] at h ⊢
        obtain ⟨h1, h2⟩ := selector.select_poll_loop_none self size n _ w sel
          (Nat.mod_lt _ hsize) h
        refine ⟨h1, fun k hk c d hoff => ?_⟩
        cases k with
        | zero => simp [Nat.mod_eq_of_lt hi, hget] at hoff
        | succ k => exact h2 k (by omega) c d (by rw [hshift]; exact hoff)
      · rcases hpk : channel.peek w ch self with ⟨o, w1⟩
        rcases o with (_ | v) | f | _
        · obtain ⟨hw, hfail⟩ := channel.peek_none w ch self w1 hpk
          subst hw
          simp only [selector.select_poll_loop, hget, hnext, hpk] at h ⊢
          obtain ⟨h1, h2⟩ := selector.select_poll_loop_none self size n _ w1 sel
            (Nat.mod_lt _ hsize) h
          refine ⟨h1, fun k hk c d hoff => ?_⟩
          cases k with
          | zero =>
            simp only [Nat.add_zero, Nat.mod_eq_of_lt hi, hget, Option.some.injEq,
              Prod.mk.injEq] at hoff
            obtain ⟨hc, hd⟩ := hoff
            subst hc hd
            exact hfail
          | succ k => exact h2 k (by omega) c d (by rw [hshift]; exact hoff)
        · simp [selector.select_poll_loop, hget, hpk] at h
        · simp [selector.select_poll_loop, hget, hpk] at h
        · simp [selector.select_poll_loop, hget, hpk] at h
      · rcases hpk : channel.poke w ch self data with ⟨o, w1⟩
        rcases o with (_ | _) | f | _
        · obtain ⟨hw, hfail⟩ := channel.poke_false w ch self data w1 hpk
          subst hw
          simp only [selector.select_poll_loop, hget, hnext, hpk] at h ⊢
          obtain ⟨h1, h2⟩ := selector.select_poll_loop_none self size n _ w1 sel
            (Nat.mod_lt _ hsize) h
          refine ⟨h1, fun k hk c d hoff => ?_⟩
          cases k with
          | zero =>
            simp only [Nat.add_zero, Nat.mod_eq_of_lt hi, hget, Option.some.injEq,
              Prod.mk.injEq] at hoff
            obtain ⟨hc, hd⟩ := hoff
            subst hc hd
            exact hfail
          | succ k => exact h2 k (by omega) c d (by rw [hshift]; exact hoff)
        · simp [selector.select_poll_loop, hget, hpk] at h
        · simp [selector.select_poll_loop, hget, hpk] at h
        · simp [selector.select_poll_loop, hget, hpk] at h

/-- A polling loop that returns an index has performed the offer at that
index of the context's list, and nothing else. -/
theorem selector.select_poll_loop_ret [Inhabited T] (self : CtxId) (size : Nat) :
    ∀ (n i : Nat) (w : World T) (sel : selector T) (m : Int),
    (selector.select_poll_loop self size n i w sel).1 = some (.ret m) →
    ∃ (j : Nat) (c : ChanId) (d : Option T), m = (j : Int) ∧
      (w.ctxs self).send_data_[j]? = some (some c, d) ∧
      OfferPerformed w self c sel (selector.select_poll_loop self size n i w sel).2.1
        (selector.select_poll_loop self size n i w sel).2.2 d
  | 0, _, _, _, _, h => by simp [selector.select_poll_loop] at h
  | n + 1, i, w, sel, m, h => by
    cases hget : (w.ctxs self).send_data_[i]? with
    | none => simp [selector.select_poll_loop, hget] at h
    | some off =>
      rcases off with ⟨_ | ch, _ | data⟩
      · simp only [selector.select_poll_loop, hget] at h ⊢
        exact selector.select_poll_loop_ret self size n _ w sel m h
      · simp only [selector.select_poll_loop, hget] at h ⊢
        exact selector.select_poll_loop_ret self size n _ w sel m h
      · rcases hpk : channel.peek w ch self with ⟨o, w1⟩
        rcases o with (_ | v) | f | _
        · obtain ⟨hw, _⟩ := channel.peek_none w ch self w1 hpk
          subst hw
          simp only [selector.select_poll_loop, hget, hpk] at h ⊢
          exact selector.select_poll_loop_ret self size n _ w1 sel m h
        · obtain ⟨hr, hw⟩ := channel.peek_some w ch self v w1 hpk
          simp only [selector.select_poll_loop, hget, hpk, Option.some.injEq,
            Outcome.ret.injEq] at h ⊢
          exact ⟨i, ch, none, h.symm, hget, v, hr, by rw [hw], rfl⟩
        · simp [selector.select_poll_loop, hget, hpk] at h
        · simp [selector.select_poll_loop, hget, hpk] at h
      · rcases hpk : channel.poke w ch self data with ⟨o, w1⟩
        rcases o with (_ | _) | f | _
        · obtain ⟨hw, _⟩ := channel.poke_false w ch self data w1 hpk
          subst hw
          simp only [selector.select_poll_loop, hget, hpk] at h ⊢
          exact selector.select_poll_loop_ret self size n _ w1 sel m h
        · simp only [selector.select_poll_loop, hget, hpk, Option.some.injEq,
            Outcome.ret.injEq] at h ⊢
          have hs : channel.send w ch self data false = (.ret true, w1) := hpk
          exact ⟨i, ch, some data, h.symm, hget, by rw [hs], by rw [hs], rfl⟩
        · simp [selector.select_poll_loop, hget, hpk] at h
        · simp [selector.select_poll_loop, hget, hpk] at h

theorem selector.select_install_spec (self : CtxId) : ∀ (offs : List (Offer T)) (w : World T),
    (selector.select_install self offs w).chans = w.chans ∧
    ((selector.select_install self offs w).ctxs self).send_data_ =
      (w.ctxs self).send_data_ ++ offs
  | [], w => by simp [selector.select_install]
  | sd :: rest, w => by
    obtain ⟨h1, h2⟩ := selector.select_install_spec self rest (context.add w self sd.1 sd.2)
    simp only [selector.select_install]
    refine ⟨h1.trans rfl, ?_⟩
    rw [h2]
    simp [context.add]

theorem selector.select_start_spec (w : World T) (self : CtxId) :
    (selector.select_start w self).2.chans = w.chans ∧
    (selector.select_start w self).2.ctxs = w.ctxs ∧
    (0 < (w.ctxs self).send_data_.length →
      (selector.select_start w self).1 < (w.ctxs self).send_data_.length) := by
  unfold selector.select_start
  simp only []
  split
  · exact ⟨rfl, rfl, fun h => by omega⟩
  · exact ⟨rfl, rfl, fun h => Nat.mod_lt _ h⟩

theorem selector.select_polled_spec (w : World T) (sel : selector T) (self : CtxId)
    (hfresh : (w.ctxs self).send_data_ = []) :
    (selector.select_polled w sel self).chans = w.chans ∧
    ((selector.select_polled w sel self).ctxs self).send_data_ = sel.send_data_ := by
  have hi := selector.select_install_spec self sel.send_data_ w
  have hs := selector.select_start_spec (selector.select_install self sel.send_data_ w) self
  unfold selector.select_polled
  refine ⟨hs.1.trans hi.1, ?_⟩
  rw [hs.2.1, hi.2, hfresh]
  rfl

/-- C9 (as amended): for a `select(false)` called on a thread whose context
holds no offers, if it returns `i ≥ 0` then `i` is the position of an offer of
the selector, exactly the non-blocking operation of that offer was performed
(followed by clearing the context), and every other channel keeps its buffer,
indices, count, capacity and closed flag, its queues changing at most by
contexts leaving them; if it returns -1 then no channel is changed and every
offer's non-blocking attempt fails. -/
theorem C9_select_nonblocking_frame [Inhabited T] (w : World T) (sel : selector T)
    (self : CtxId) (hfresh : (w.ctxs self).send_data_ = []) :
    (∀ i : Int, (selector.select w sel self false).1 = .ret i → 0 ≤ i →
      ∃ (k : Nat) (c : ChanId) (d : Option T), i = (k : Int) ∧
        sel.send_data_[k]? = some (some c, d) ∧
        OfferPerformed (selector.select_polled w sel self) self c sel
          (selector.select w sel self false).2.1 (selector.select w sel self false).2.2 d ∧
        ∀ c', c' ≠ c →
          QueuesShrink (w.chans c') ((selector.select w sel self false).2.1.chans c')) ∧
    ((selector.select w sel self false).1 = .ret (-1) →
      (selector.select w sel self false).2.1.chans = w.chans ∧
      ∀ (k : Nat) (c : ChanId) (d : Option T), sel.send_data_[k]? = some (some c, d) →
        OfferFails (selector.select_polled w sel self) self c d) := by
  obtain ⟨hch, hoffs⟩ := selector.select_polled_spec w sel self hfresh
  have hsp := selector.select_start_spec (selector.select_install self sel.send_data_ w) self
  have hlen : ((selector.select_install self sel.send_data_ w).ctxs self).send_data_ =
      sel.send_data_ := by
    rw [(selector.select_install_spec self sel.send_data_ w).2, hfresh]; rfl
  rcases hloop : selector.select_poll_loop self sel.send_data_.length sel.send_data_.length
    (selector.select_start (selector.select_install self sel.send_data_ w) self).1
    (selector.select_polled w sel self) sel with ⟨o, w1, sel1⟩
  have hsel : selector.select w sel self false = (o.getD (.ret (-1)), w1, sel1) := by
    simp only [selector.select, selector.select_round, selector.select_poll, hlen]
    have : (selector.select_start (selector.select_install self sel.send_data_ w) self).2 =
        selector.select_polled w sel self := rfl
    rw [this, hloop]
    cases o <;> simp
  rw [hsel]
  cases o with
  | none =>
    refine ⟨fun i hi h0 => ?_, fun _ => ?_⟩
    · simp only [Option.getD_none, Outcome.ret.injEq] at hi
      omega
    · by_cases hsz : 0 < sel.send_data_.length
      · have hi := hsp.2.2 (by rw [hlen]; exact hsz)
        rw [hlen] at hi
        obtain ⟨h1, h2⟩ := selector.select_poll_loop_none self _ _ _ _ sel hi
          (by rw [hloop])
        rw [hloop] at h1
        simp only [Prod.mk.injEq] at h1
        refine ⟨by simp only; rw [h1.1]; exact hch, fun k c d hk => ?_⟩
        have hkl : k < sel.send_data_.length := by
          by_contra hn
          rw [List.getElem?_eq_none (by omega)] at hk
          simp at hk
        obtain ⟨k', hk', hkk⟩ := cyclic_cover _ _ k hi hkl
        exact h2 k' hk' c d (by rw [hkk, hoffs]; exact hk)
      · have hz : sel.send_data_.length = 0 := by omega
        rw [hz] at hloop
        simp only [selector.select_poll_loop, Prod.mk.injEq] at hloop
        refine ⟨by simp only; rw [← hloop.2.1]; exact hch, fun k c d hk => ?_⟩
        rw [List.getElem?_eq_none (by omega)] at hk
        simp at hk
  | some o =>
    refine ⟨fun i hi h0 => ?_, fun hm => ?_⟩
    · simp only [Option.getD_some] at hi
      subst hi
      obtain ⟨j, c, d, hj, hget, hperf⟩ := selector.select_poll_loop_ret self _ _ _ _ sel i
        (by rw [hloop])
      rw [hloop] at hperf
      simp only at hperf
      refine ⟨j, c, d, hj, by rw [← hoffs]; exact hget, hperf, fun c' hc' => ?_⟩
      simp only
      cases d with
      | none =>
        obtain ⟨v, _, hw1, _⟩ := hperf
        rw [hw1, context.clear_chans, ← hch]
        exact channel.recv_frame _ c self false c' hc'
      | some x =>
        obtain ⟨_, hw1, _⟩ := hperf
        rw [hw1, context.clear_chans, ← hch]
        exact channel.send_frame _ c self x false c' hc'
    · simp only [Option.getD_some] at hm
      subst hm
      obtain ⟨j, c, d, hj, _⟩ := selector.select_poll_loop_ret self _ _ _ _ sel (-1)
        (by rw [hloop])
      omega

/-- C9 (counterexample to the claim as stated): thread 2 is parked in a
blocking `select` offering `recv(a)` and `recv(b)`; the `select(false)` of
thread 1 offering `send(a, 1)` and `send(b, 2)` returns 0, having sent on `a`,
and channel `b`, the channel of its other offer, is changed: thread 2 has been
removed from its `recvq_`. -/
theorem C9_other_offered_channel_changes :
    scenario_parked_selector.1 = .parked ∧
    (scenario_parked_selector.2.1.ctxs 1).send_data_ = [] ∧
    scenario_polling_selector.1 = .ret 0 ∧
    ((selector.init.send 0 1).send 1 2 : selector Int).send_data_[1]? =
      some (some 1, some 2) ∧
    (scenario_parked_selector.2.1.chans 1).recvq_ = [2] ∧
    (scenario_polling_selector.2.1.chans 1).recvq_ = [] ∧
    scenario_polling_selector.2.1.chans 1 ≠ scenario_parked_selector.2.1.chans 1 := by
  decide

/-- Witness of C9 (as amended): in the scenario of the counterexample the other
channel keeps everything but queue entries, and a `select(false)` on two empty
channels returns -1 and changes no channel. -/
theorem C9_select_nonblocking_frame_witness :
    (scenario_parked_selector.2.1.ctxs 1).send_data_ = [] ∧
    scenario_polling_selector.1 = .ret 0 ∧
    QueuesShrink (scenario_parked_selector.2.1.chans 1)
      (scenario_polling_selector.2.1.chans 1) ∧
    (selector.select (World.fresh (fun _ => 1) (fun _ => 2) : World Int)
      scenario_selector 1 false).1 = .ret (-1) ∧
    (selector.select (World.fresh (fun _ => 1) (fun _ => 2) : World Int)
      scenario_selector 1 false).2.1.chans = (World.fresh (fun _ => 1) (fun _ => 2)).chans := by
  have h := C9_select_nonblocking_frame scenario_parked_selector.2.1
    ((selector.init.send 0 1).send 1 2) 1 (by decide)
  have g := C9_select_nonblocking_frame (World.fresh (fun _ => 1) (fun _ => 2) : World Int)
    scenario_selector 1 (by decide)
  refine ⟨by decide, by decide, ?_, by decide, (g.2 (by decide)).1⟩
  obtain ⟨k, c, d, hk, hget, _, hframe⟩ := h.1 0 (by decide) (by decide)
  have hk0 : k = 0 := by omega
  subst hk0
  have hc : c = 0 := by
    have : ((selector.init.send 0 1).send 1 2 : selector Int).send_data_[0]? =
        some (some 0, some 1) := by decide
    rw [this] at hget
    simp only [Option.some.injEq, Prod.mk.injEq] at hget
    exact hget.1.symm
  subst hc
  exact hframe 1 (by decide)

theorem context.signal_all_chans (l : List CtxId) : ∀ (w : World T),
    (l.foldl context.signal w).chans = w.chans := by
  induction l with
  | nil => intro w; rfl
  | cons x l ih => intro w; simp only [List.foldl_cons]; rw [ih]; rfl

/-- After `close()` the channel is closed; its other fields are as before. -/
theorem channel.close_chans (w : World T) (c : ChanId) :
    (channel.close w c).chans c = { w.chans c with closed_ := true } ∧
    ∀ d, d ≠ c → (channel.close w c).chans d = w.chans d := by
  unfold channel.close
  simp only []
  split
  · rename_i h
    simp only [context.signal_all_chans, World.setChan_chans_same, true_and]
    intro d hd
    exact World.setChan_chans_other _ _ _ _ hd
  · rename_i h
    simp only [Bool.not_eq_true', Bool.not_eq_false] at h
    refine ⟨?_, fun _ _ => rfl⟩
    rcases hch : w.chans c with ⟨buffer, size, recvq, sendq, closed, count, sendx, recvx⟩
    rw [hch] at h
    simp only at h
    subst h
    rfl

/-- On a closed channel `close()` does nothing. -/
theorem channel.close_of_closed (w : World T) (c : ChanId)
    (h : (w.chans c).closed_ = true) : channel.close w c = w := by
  simp [channel.close, h]

theorem context.signal_count (w : World T) (y x : CtxId) :
    ((context.signal w y).ctxs x).count_ = (w.ctxs x).count_ + if y = x then 1 else 0 := by
  by_cases h : y = x
  · subst h
    simp [context.signal, World.setCtx]
  · have hne : x ≠ y := fun e => h e.symm
    simp [context.signal, World.setCtx, h, Function.update_noteq hne]

/-- Signalling the contexts of a queue adds to each semaphore the number of
its entries in the queue. -/
theorem context.signal_all_count (l : List CtxId) : ∀ (w : World T) (x : CtxId),
    ((l.foldl context.signal w).ctxs x).count_ = (w.ctxs x).count_ + l.count x := by
  induction l with
  | nil => intro w x; simp
  | cons y l ih =>
    intro w x
    simp only [List.foldl_cons]
    rw [ih, context.signal_count, List.count_cons]
    by_cases h : y = x
    · simp [h]; omega
    · simp [h]

/-- C13 (as amended): `close` is idempotent. For every heap, a second
`close()` of the same channel returns the heap of the first one unchanged: no
field of the channel changes and no context is signalled again. The semaphore
counts are those left by the first call, which on an open channel adds to the
count of a context one for each of its entries in `recvq_` and `sendq_`, and
on a closed channel adds nothing. -/
theorem C13_close_idempotent (w : World T) (c : ChanId) :
    channel.close (channel.close w c) c = channel.close w c ∧
    ∀ x, ((channel.close w c).ctxs x).count_ = (w.ctxs x).count_ +
      (if (w.chans c).closed_ then 0
       else (w.chans c).recvq_.count x + (w.chans c).sendq_.count x) := by
  refine ⟨channel.close_of_closed (channel.close w c) c
    (by rw [(channel.close_chans w c).1]), fun x => ?_⟩
  cases hcl : (w.chans c).closed_ with
  | true => simp [channel.close, hcl]
  | false =>
    simp only [channel.close, hcl, Bool.not_false, if_true, Bool.false_eq_true, if_false]
    rw [context.signal_all_count, context.signal_all_count]
    simp only [World.setChan_ctxs]
    omega

theorem Ring.of_fields {C : Nat} {ch ch' : channel T} {q : List T} (h : Ring C ch q)
    (hb : ch'.buffer_ = ch.buffer_) (hs : ch'.size_ = ch.size_) (hc : ch'.count_ = ch.count_)
    (hsx : ch'.sendx_ = ch.sendx_) (hrx : ch'.recvx_ = ch.recvx_) : Ring C ch' q :=
  ⟨hs.trans h.cap, by rw [hb]; exact h.len, by rw [hrx]; exact h.rx, by rw [hsx, hrx]; exact h.sx,
    hc.trans h.cnt, h.le, by rw [hb, hrx]; exact h.slots⟩

theorem Sys.leave_status_other {R : Type} (s : Sys T) (self x : CtxId) (o : Outcome R)
    (w : World T) (susp : Status T) (hx : x ≠ self) :
    (s.leave self o w susp).status x = s.status x := by
  simp [Sys.leave, Function.update_noteq hx]

theorem Sys.leave_poll_status_other (s : Sys T) (self x : CtxId) (block : Bool)
    (r : Option (Outcome Int) × World T × selector T) (hx : x ≠ self) :
    (s.leave_poll self block r).status x = s.status x := by
  rcases r with ⟨_ | o, w1, sel1⟩
  · simp [Sys.leave_poll, Function.update_noteq hx]
  · simp [Sys.leave_poll, Sys.leave, Function.update_noteq hx]

/-- C16 (the code departs from the claim): thread 1 has a clean context
(no offers, `unblocked_index = -1`) and calls `select(false)` on a selector
offering `recv(a)` and `recv(b)` while both channels are empty; the call
returns -1 and leaves both offers in the context. -/
theorem C16_select_returns_with_offers_left :
    ((World.fresh (fun _ => 1) (fun _ => 2) : World Int).ctxs 1).send_data_ = [] ∧
    ((World.fresh (fun _ => 1) (fun _ => 2) : World Int).ctxs 1).unblockedx_ = -1 ∧
    (selector.select (World.fresh (fun _ => 1) (fun _ => 2) : World Int)
      scenario_selector 1 false).1 = .ret (-1) ∧
    ((selector.select (World.fresh (fun _ => 1) (fun _ => 2) : World Int)
      scenario_selector 1 false).2.1.ctxs 1).send_data_ = [(some 0, none), (some 1, none)] ∧
    ((selector.select (World.fresh (fun _ => 1) (fun _ => 2) : World Int)
      scenario_selector 1 false).2.1.ctxs 1).send_data_ ≠ [] := by
  decide

/-- C17 (the code departs from the claim): in scenario 4, after `close()` has
woken the parked sender, thread 2 has thrown and is back in its caller with an
empty offers list, yet its context is still in `sendq_`; the next `recv()`
takes the buffered value, calls `unblocked_sender` on that context and runs
into `rand() % 0`. -/
theorem C17_queue_holds_context_without_offers :
    Option.map (fun s => (s.w.chans 0).sendq_) scenario_woken_by_close = some [2] ∧
    Option.map (fun s => (s.w.ctxs 2).send_data_) scenario_woken_by_close = some [] ∧
    Option.map (fun s => s.status 2) scenario_woken_by_close = some .idle ∧
    Option.map (fun s => (context.unblocked_sender s.w 2 0).1) scenario_woken_by_close =
      some (.error .undefined) ∧
    Option.map (fun s => (channel.recv s.w 0 3 true).1) scenario_woken_by_close =
      some (.fault .undefined) :=
  ⟨by decide, by decide, by decide, rfl, by decide⟩

/-- C18 (the code departs from the claim): a blocking `select` offering
`recv(b)` polls the empty channel, another thread sends 5 into the buffer, and
the selecting thread then registers: `recvq_` is not empty while `count_ = 1`.
The next `send` takes the first branch of `dispatch`, whose
`sendq_.erase(recvq_.begin())` is undefined. -/
theorem C18_parked_receiver_with_buffered_value :
    Option.map (fun s => (s.w.chans 0).recvq_) scenario_register_after_send = some [1] ∧
    Option.map (fun s => (s.w.chans 0).count_) scenario_register_after_send = some 1 ∧
    Option.map (fun s => (s.w.chans 0).closed_) scenario_register_after_send = some false ∧
    Option.map (fun s => s.status 1) scenario_register_after_send =
      some (.in_select (selector.init.recv 0) true) ∧
    Option.map (fun s => !(s.w.chans 0).recvq_.isEmpty && decide ((s.w.chans 0).size > 0))
      scenario_register_after_send = some true ∧
    Option.map (fun s => (channel.send s.w 0 3 6 true).1) scenario_register_after_send =
      some (.fault .undefined) := by
  decide

/-- C19 (counterexample to the claim as stated): a thread parked in a
blocking `select` that offers a send and a recv on the same channel is in both
queues of that channel; the state is quiescent. -/
theorem C19_select_both_directions_in_both_queues :
    ∃ s, scenario_select_both_directions = some s ∧ s.quiescent ∧
      (s.w.chans 0).sendq_ = [1] ∧ (s.w.chans 0).recvq_ = [1] ∧
      s.status 1 = .in_select ((selector.init.send 0 1).recv 0) true := by
  refine ⟨_, rfl, ?_, by decide, by decide, by decide⟩
  intro x sel block
  by_cases hx : x = 1
  · subst hx; simp [Function.update]
  · simp [Function.update, hx, Sys.init, Sys.leave_poll_status_other]

/-! ## Scheduler -/

theorem multimap_insert_perm (t : Nat) (f : func) : ∀ l : List (Nat × func),
    (multimap_insert t f l).Perm ((t, f) :: l)
  | [] => List.Perm.refl _
  | e :: rest => by
    simp only [multimap_insert]
    split
    · exact List.Perm.refl _
    · exact ((multimap_insert_perm t f rest).cons e).trans (List.Perm.swap _ _ _)

theorem multimap_insert_sorted (t : Nat) (f : func) : ∀ l : List (Nat × func),
    deadlines_sorted l → deadlines_sorted (multimap_insert t f l)
  | [], _ => by simp [multimap_insert, deadlines_sorted]
  | e :: rest, h => by
    unfold deadlines_sorted at h ⊢
    simp only [multimap_insert]
    split
    · rename_i hlt
      refine List.sorted_cons.mpr ⟨?_, h⟩
      intro b hb
      rcases List.mem_cons.mp hb with hb | hb
      · subst hb; omega
      · have := List.rel_of_sorted_cons h b hb
        omega
    · rename_i hlt
      have hrest := multimap_insert_sorted t f rest (List.Sorted.of_cons h)
      refine List.sorted_cons.mpr ⟨?_, hrest⟩
      intro b hb
      have hb' := (multimap_insert_perm t f rest).subset hb
      rcases List.mem_cons.mp hb' with hb' | hb'
      · subst hb'; simp only; omega
      · exact List.rel_of_sorted_cons h b hb'

theorem scheduler.schedule_all_spec : ∀ (calls : List (Nat × func)) (s : scheduler),
    deadlines_sorted s.tasks_ →
    deadlines_sorted (s.schedule_all calls).tasks_ ∧
    (s.schedule_all calls).tasks_.Perm (s.tasks_ ++ calls) ∧
    (s.schedule_all calls).stop_requested_ = s.stop_requested_ ∧
    (s.schedule_all calls).stop_when_empty_ = s.stop_when_empty_ ∧
    (s.schedule_all calls).nthreads_ = s.nthreads_
  | [], s, h => by simp [scheduler.schedule_all, h]
  | e :: rest, s, h => by
    have ih := scheduler.schedule_all_spec rest (s.schedule e.2 e.1)
      (multimap_insert_sorted e.1 e.2 s.tasks_ h)
    simp only [scheduler.schedule_all]
    refine ⟨ih.1, ?_, ih.2.2.1, ih.2.2.2.1, ih.2.2.2.2⟩
    refine ih.2.1.trans ?_
    simp only [scheduler.schedule]
    refine ((multimap_insert_perm e.1 e.2 s.tasks_).append_right rest).trans ?_
    simp only [List.cons_append]
    exact List.perm_middle.symm

/-- Whenever a piece of `run()` takes a task, it is the front entry of the
map. -/
theorem scheduler.run_take_front (s : scheduler) (entry : Nat × func) (s1 : scheduler)
    (h : s.run_take = .call entry s1) : s.tasks_ = entry :: s1.tasks_ := by
  unfold scheduler.run_take at h
  split at h
  · simp at h
  · split at h
    · simp at h
    · rename_i e rest heq
      simp only [RunStep.call.injEq] at h
      obtain ⟨h1, h2⟩ := h
      subst h1 h2
      exact heq

theorem scheduler.run_timed_front (s : scheduler) (t now : Nat) (entry : Nat × func)
    (s1 : scheduler) (h : s.run_timed t now = .call entry s1) :
    s.tasks_ = entry :: s1.tasks_ := by
  unfold scheduler.run_timed at h
  split at h
  · simp at h
  · exact scheduler.run_take_front s entry s1 h

theorem scheduler.run_inner_front (s : scheduler) (now : Nat) (entry : Nat × func)
    (s1 : scheduler) (h : s.run_inner now = .call entry s1) :
    s.tasks_ = entry :: s1.tasks_ := by
  unfold scheduler.run_inner at h
  split at h
  · simp at h
  · split at h
    · simp at h
    · exact scheduler.run_timed_front s _ now entry s1 h

theorem scheduler.run_outer_front (s : scheduler) (now : Nat) (entry : Nat × func)
    (s1 : scheduler) (h : s.run_outer now = .call entry s1) :
    s.tasks_ = entry :: s1.tasks_ := by
  unfold scheduler.run_outer at h
  split at h
  · exact scheduler.run_inner_front s now entry s1 h
  · simp at h

/-- A `continue` happens only with an empty map. -/
theorem scheduler.run_continue_empty (s s2 : scheduler) (now : Nat) :
    (s.run_take = .continue_ s2 → s2.tasks_ = []) ∧
    (∀ t, s.run_timed t now = .continue_ s2 → s2.tasks_ = []) ∧
    (s.run_inner now = .continue_ s2 → s2.tasks_ = []) ∧
    (s.run_outer now = .continue_ s2 → s2.tasks_ = []) := by
  have h1 : s.run_take = .continue_ s2 → s2.tasks_ = [] := by
    intro h
    unfold scheduler.run_take at h
    split at h
    · simp at h
    · split at h
      · rename_i heq
        simp only [RunStep.continue_.injEq] at h
        subst h; exact heq
      · simp at h
  have h2 : ∀ t, s.run_timed t now = .continue_ s2 → s2.tasks_ = [] := by
    intro t h
    unfold scheduler.run_timed at h
    split at h
    · simp at h
    · exact h1 h
  have h3 : s.run_inner now = .continue_ s2 → s2.tasks_ = [] := by
    intro h
    unfold scheduler.run_inner at h
    split at h
    · simp at h
    · split at h
      · simp at h
      · exact h2 _ h
  refine ⟨h1, h2, h3, ?_⟩
  intro h
  unfold scheduler.run_outer at h
  split at h
  · exact h3 h
  · simp at h

theorem scheduler.run_resolve_front (now : Nat) (r : RunStep) (entry : Nat × func)
    (s1 : scheduler) (h : scheduler.run_resolve now r = .call entry s1) :
    r = .call entry s1 ∨ ∃ s2, r = .continue_ s2 ∧ s2.run_outer now = .call entry s1 := by
  cases r with
  | continue_ s2 => exact .inr ⟨s2, rfl, h⟩
  | returned _ => exact .inl h
  | wait_empty _ => exact .inl h
  | wait_until _ _ => exact .inl h
  | call _ _ => exact .inl h
  | undefined => exact .inl h

theorem scheduler.run_resolved_front (s : scheduler) (now : Nat) (r : RunStep)
    (entry : Nat × func) (s1 : scheduler)
    (hr : (∀ e s', r = .call e s' → s.tasks_ = e :: s'.tasks_) ∧
      (∀ s2, r = .continue_ s2 → s2.tasks_ = []))
    (h : scheduler.run_resolve now r = .call entry s1) : s.tasks_ = entry :: s1.tasks_ := by
  rcases scheduler.run_resolve_front now r entry s1 h with h1 | ⟨s2, h1, h2⟩
  · exact hr.1 entry s1 h1
  · have := scheduler.run_outer_front s2 now entry s1 h2
    rw [hr.2 s2 h1] at this
    simp at this

/-- Every piece of `run()` that takes a task takes the front entry of the
map and leaves the rest. -/
theorem scheduler.run_takes_front (s : scheduler) (now : Nat) (entry : Nat × func)
    (s1 : scheduler) :
    (s.run now = .call entry s1 → s.tasks_ = entry :: s1.tasks_) ∧
    (s.run_head now = .call entry s1 → s.tasks_ = entry :: s1.tasks_) ∧
    (s.run_wake_empty now = .call entry s1 → s.tasks_ = entry :: s1.tasks_) ∧
    (∀ t, s.run_wake_until t now = .call entry s1 → s.tasks_ = entry :: s1.tasks_) := by
  have hhead : ∀ s' : scheduler, s'.run_head now = .call entry s1 →
      s'.tasks_ = entry :: s1.tasks_ := fun s h =>
    scheduler.run_resolved_front s now _ entry s1
      ⟨fun e s' => scheduler.run_outer_front s now e s',
        fun s2 => (scheduler.run_continue_empty s s2 now).2.2.2⟩ h
  refine ⟨fun h => ?_, hhead s, fun h => ?_, fun t h => ?_⟩
  · exact hhead (scheduler.mk s.tasks_ (s.nthreads_ + 1) false false) h
  · exact scheduler.run_resolved_front s now _ entry s1
      ⟨fun e s' => scheduler.run_inner_front s now e s',
        fun s2 => (scheduler.run_continue_empty s s2 now).2.2.1⟩ h
  · exact scheduler.run_resolved_front s now _ entry s1
      ⟨fun e s' => scheduler.run_timed_front s t now e s',
        fun s2 => (scheduler.run_continue_empty s s2 now).2.1 t⟩ h

/-- The driver alone, started at the head of the loop with no stop flag set,
calls the tasks of the map in the order of the map and then waits on the empty
map. -/
theorem scheduler.drive_all (dur : Nat → Nat) : ∀ (tasks : List (Nat × func)) (s : scheduler)
    (now : Nat) (done : List (Nat × func)) (fuel : Nat),
    s.tasks_ = tasks → s.stop_requested_ = false → s.stop_when_empty_ = false →
    (∀ e, e ∈ tasks → ∃ id, e.2 = .call id) → 2 * tasks.length + 1 ≤ fuel →
    (scheduler.drive dur fuel (s.run_head now) now done).1 = .wait_empty { s with tasks_ := [] } ∧
    (scheduler.drive dur fuel (s.run_head now) now done).2.2 = done ++ tasks
  | [], s, now, done, fuel, ht, h1, h2, _, hf => by
    have hs : { s with tasks_ := [] } = s := by
      rcases s with ⟨tasks, n, a, b⟩
      simp only at ht
      subst ht
      rfl
    have hr : s.run_head now = .wait_empty s := by
      simp [scheduler.run_head, scheduler.run_outer, scheduler.run_inner, scheduler.run_resolve,
        h1, h2, ht]
    obtain ⟨fuel, rfl⟩ : ∃ k, fuel = k + 1 := ⟨fuel - 1, by omega⟩
    rw [hr, hs]
    simp [scheduler.drive]
  | e :: rest, s, now, done, fuel, ht, h1, h2, hcall, hf => by
    obtain ⟨id, hid⟩ := hcall e (by simp)
    obtain ⟨fuel, rfl⟩ : ∃ k, fuel = k + 2 := ⟨fuel - 2, by simp at hf; omega⟩
    have htake : s.run_take = .call e { s with tasks_ := rest } := by
      simp [scheduler.run_take, h1, ht]
    have hinv : e.2.invoke dur { s with tasks_ := rest } = fun n =>
        ({ s with tasks_ := rest }, n + dur id, [id]) := by
      funext n; rw [hid]; rfl
    have ih := fun now' done' fuel' hf' => scheduler.drive_all dur rest { s with tasks_ := rest }
      now' done' fuel' rfl h1 h2 (fun e' he' => hcall e' (by simp [he'])) hf'
    have hnil : ({ s with tasks_ := rest } : scheduler) = { s with tasks_ := rest } := rfl
    by_cases hnow : now < e.1
    · have hr : s.run_head now = .wait_until e.1 s := by
        simp [scheduler.run_head, scheduler.run_outer, scheduler.run_inner, scheduler.run_timed,
          scheduler.run_resolve, h1, h2, ht, hnow]
      have hw : s.run_wake_until e.1 (max now e.1) = .call e { s with tasks_ := rest } := by
        have : ¬ (max now e.1 < e.1) := by omega
        simp [scheduler.run_wake_until, scheduler.run_timed, scheduler.run_resolve, htake, this]
      rw [hr]
      simp only [scheduler.drive, hw, hinv]
      have := ih (max now e.1 + dur id) (done ++ [e]) fuel (by simp at hf; omega)
      simpa using this
    · have hr : s.run_head now = .call e { s with tasks_ := rest } := by
        simp [scheduler.run_head, scheduler.run_outer, scheduler.run_inner, scheduler.run_timed,
          scheduler.run_resolve, h1, h2, ht, hnow, htake]
      rw [hr]
      simp only [scheduler.drive, hinv]
      have := ih (now + dur id) (done ++ [e]) (fuel + 1) (by simp at hf; omega)
      simpa using this

/-- C14: the driver executes queued tasks in non-decreasing deadline order.
Whenever a piece of `run()` takes a task to call it (on entering `run()`, at
the head of the loop, or when one of its two waits returns), the task is the
front entry of the sorted task map, whose deadline is the smallest of all
entries in the map at that moment. Hence, for every list of callables
scheduled on a new scheduler in any order of the `schedule` calls, a driver
that then runs alone calls all of them, in the order of their deadlines (the
sorted list of the deadlines), and ends waiting on the empty map. -/
theorem C14_tasks_run_in_deadline_order :
    (∀ (s : scheduler) (now : Nat) (entry : Nat × func) (s1 : scheduler),
      deadlines_sorted s.tasks_ →
      (s.run now = .call entry s1 ∨ s.run_head now = .call entry s1 ∨
        s.run_wake_empty now = .call entry s1 ∨
        ∃ t, s.run_wake_until t now = .call entry s1) →
      s.tasks_ = entry :: s1.tasks_ ∧ (∀ e, e ∈ s.tasks_ → entry.1 ≤ e.1) ∧
      deadlines_sorted s1.tasks_) ∧
    (∀ (calls : List (Nat × Nat)) (dur : Nat → Nat) (now fuel : Nat),
      2 * calls.length + 1 ≤ fuel →
      deadlines_sorted
        (scheduler.init.schedule_all (calls.map fun c => (c.1, func.call c.2))).tasks_ ∧
      ((scheduler.drive dur fuel
        ((scheduler.init.schedule_all (calls.map fun c => (c.1, func.call c.2))).run now)
        now []).2.2).map Prod.fst = (calls.map Prod.fst).insertionSort (fun a b => a ≤ b) ∧
      ((scheduler.drive dur fuel
        ((scheduler.init.schedule_all (calls.map fun c => (c.1, func.call c.2))).run now)
        now []).2.2).Perm (calls.map fun c => (c.1, func.call c.2)) ∧
      (scheduler.drive dur fuel
        ((scheduler.init.schedule_all (calls.map fun c => (c.1, func.call c.2))).run now)
        now []).1 = .wait_empty { scheduler.init with nthreads_ := 1 }) := by
  constructor
  · intro s now entry s1 hs h
    have hf := scheduler.run_takes_front s now entry s1
    have hfront : s.tasks_ = entry :: s1.tasks_ := by
      rcases h with h | h | h | ⟨t, h⟩
      · exact hf.1 h
      · exact hf.2.1 h
      · exact hf.2.2.1 h
      · exact hf.2.2.2 t h
    unfold deadlines_sorted at hs ⊢
    rw [hfront] at hs ⊢
    refine ⟨rfl, ?_, List.Sorted.of_cons hs⟩
    intro e he
    rcases List.mem_cons.mp he with he | he
    · subst he; exact Nat.le_refl _
    · exact List.rel_of_sorted_cons hs e he
  · intro calls dur now fuel hfuel
    have hspec := scheduler.schedule_all_spec (calls.map fun c => (c.1, func.call c.2))
      scheduler.init (by simp [scheduler.init, deadlines_sorted])
    obtain ⟨hsorted, hperm, hsr, hse, hn⟩ := hspec
    replace hperm : (scheduler.init.schedule_all
        (calls.map fun c => (c.1, func.call c.2))).tasks_.Perm
        (calls.map fun c => (c.1, func.call c.2)) := hperm
    replace hn : (scheduler.init.schedule_all
        (calls.map fun c => (c.1, func.call c.2))).nthreads_ = 0 := hn
    have hlen : (scheduler.init.schedule_all
        (calls.map fun c => (c.1, func.call c.2))).tasks_.length = calls.length := by
      have := hperm.length_eq
      simpa using this
    have hcalls : ∀ e, e ∈ (scheduler.init.schedule_all
        (calls.map fun c => (c.1, func.call c.2))).tasks_ → ∃ id, e.2 = .call id := by
      intro e he
      have := hperm.subset he
      simp only [List.mem_map] at this
      obtain ⟨c, _, rfl⟩ := this
      exact ⟨c.2, rfl⟩
    have hd := scheduler.drive_all dur _
      (scheduler.mk (scheduler.init.schedule_all
        (calls.map fun c => (c.1, func.call c.2))).tasks_
        ((scheduler.init.schedule_all
          (calls.map fun c => (c.1, func.call c.2))).nthreads_ + 1) false false)
      now [] fuel rfl rfl rfl hcalls (by rw [hlen]; exact hfuel)
    have hrun : (scheduler.init.schedule_all (calls.map fun c => (c.1, func.call c.2))).run now =
        (scheduler.mk (scheduler.init.schedule_all
          (calls.map fun c => (c.1, func.call c.2))).tasks_
          ((scheduler.init.schedule_all
            (calls.map fun c => (c.1, func.call c.2))).nthreads_ + 1) false false).run_head
          now := rfl
    rw [hrun, hd.1, hd.2]
    refine ⟨hsorted, ?_, by simpa using hperm, ?_⟩
    · apply List.eq_of_perm_of_sorted (r := fun a b : Nat => a ≤ b)
      · have h1 := hperm.map Prod.fst
        simp only [List.nil_append, List.map_map] at h1 ⊢
        refine h1.trans ?_
        have h2 := (List.perm_insertionSort (fun a b : Nat => a ≤ b) (calls.map Prod.fst)).symm
        refine List.Perm.trans ?_ h2
        apply List.Perm.of_eq
        simp [Function.comp_def]
      · simp only [List.nil_append]
        unfold deadlines_sorted at hsorted
        exact List.pairwise_map.mpr hsorted
      · exact List.sorted_insertionSort _ _
    · simp only [hn]
      rfl

/-- Witness of C14: four callables scheduled out of order are called in the
order of their deadlines 10, 10, 20, 30. -/
theorem C14_tasks_run_in_deadline_order_witness :
    2 * [(30, 3), (10, 1), (20, 2), (10, 4)].length + 1 ≤ 9 ∧
    ((scheduler.drive (fun _ => 1) 9
      ((scheduler.init.schedule_all
        ([(30, 3), (10, 1), (20, 2), (10, 4)].map fun c => (c.1, func.call c.2))).run 0)
      0 []).2.2).map Prod.fst = [10, 10, 20, 30] :=
  ⟨by decide,
    (C14_tasks_run_in_deadline_order.2 [(30, 3), (10, 1), (20, 2), (10, 4)] (fun _ => 1) 0 9
      (by decide)).2.1⟩

/-- C15 (the code departs from the claim): a driver that entered `run()` on
an empty task map waits in `cond_.wait(lock)`; when `stop(true)` arrives, the
wait loop ends with the map still empty and `run()` reads
`tasks_.begin()->first` of the empty map. With tasks queued, the driver does
execute them after `stop(true)` and then returns. -/
theorem C15_stop_while_waiting_reads_empty_map :
    scheduler.run scheduler.init 0 = .wait_empty (scheduler.mk [] 1 false false) ∧
    ((scheduler.mk [] 1 false false).stop true).tasks_ = [] ∧
    ((scheduler.mk [] 1 false false).stop true).run_wake_empty 5 = .undefined ∧
    scheduler.run (scheduler.init.schedule_all [(10, .call 1), (20, .call 2)]) 0 =
      .wait_until 10 (scheduler.mk [(10, .call 1), (20, .call 2)] 1 false false) ∧
    scheduler.drive (fun _ => 1) 5
      (((scheduler.mk [(10, .call 1), (20, .call 2)] 1 false false).stop true).run_wake_until 10 3)
      3 [] =
      (.returned (scheduler.mk [] 0 false true), 21, [(10, .call 1), (20, .call 2)]) := by
  decide

/-! ## The channel invariant under send, recv and close -/

theorem ChanInv.of_shrink {C : Nat} {ch ch' : channel T} {g : List T} (h : ChanInv C ch g)
    (hs : QueuesShrink ch ch') : ChanInv C ch' g where
  cap := hs.size_.trans h.cap
  cnt := hs.count_.trans h.cnt
  le := h.le
  ring := fun hC => (h.ring hC).of_fields hs.buffer_ hs.size_ hs.count_ hs.sendx_ hs.recvx_
  excl := by
    intro hne
    have hr : ch.recvq_ ≠ [] := by
      intro h0
      have := hs.recvq_
      rw [h0] at this
      exact hne (List.sublist_nil.mp this)
    obtain ⟨h1, h2⟩ := h.excl hr
    refine ⟨?_, hs.count_.trans h2⟩
    have := hs.sendq_
    rw [h1] at this
    exact List.sublist_nil.mp this

theorem ChanInv.of_same_fields {C : Nat} {ch ch' : channel T} {g : List T}
    (h : ChanInv C ch g)
    (hb : ch'.buffer_ = ch.buffer_) (hs : ch'.size_ = ch.size_) (hc : ch'.count_ = ch.count_)
    (hsx : ch'.sendx_ = ch.sendx_) (hrx : ch'.recvx_ = ch.recvx_)
    (hrq : ch'.recvq_ = ch.recvq_) (hsq : ch'.sendq_ = ch.sendq_) : ChanInv C ch' g where
  cap := hs.trans h.cap
  cnt := hc.trans h.cnt
  le := h.le
  ring := fun hC => (h.ring hC).of_fields hb hs hc hsx hrx
  excl := by rw [hrq, hsq, hc]; exact h.excl

theorem Ring.push_ge {C : Nat} {ch : channel T} {q : List T} (h : Ring C ch q)
    (hlt : q.length < C) (v : T) :
    Ring C { ch with buffer_ := ch.buffer_.set ch.sendx_ v,
                     sendx_ := if ch.sendx_ + 1 ≥ ch.capacity then 0 else ch.sendx_ + 1,
                     count_ := ch.count_ + 1 } (q ++ [v]) := by
  have hC : 0 < C := by omega
  have hsx : ch.sendx_ < C := by rw [h.sx]; exact Nat.mod_lt _ hC
  have hif : (if ch.sendx_ + 1 ≥ ch.capacity then 0 else ch.sendx_ + 1) =
      (if ch.sendx_ + 1 = ch.capacity then 0 else ch.sendx_ + 1) := by
    simp only [channel.capacity, h.cap]
    by_cases h1 : ch.sendx_ + 1 = C
    · simp [h1]
    · have : ¬ (ch.sendx_ + 1 ≥ C) := by omega
      simp [h1, this]
  rw [hif]
  exact h.push hlt v

/-- Storing a value: the branch `if (size() < capacity())` of `dispatch`. -/
theorem ChanInv.store {C : Nat} {ch : channel T} {g : List T} (h : ChanInv C ch g)
    (hrq : ch.recvq_ = []) (hlt : ch.size < ch.capacity) (v : T) :
    ChanInv C { ch with buffer_ := ch.buffer_.set ch.sendx_ v,
                        sendx_ := if ch.sendx_ + 1 = ch.capacity then 0 else ch.sendx_ + 1,
                        count_ := ch.count_ + 1 } (g ++ [v]) where
  cap := h.cap
  cnt := by simp [h.cnt]
  le := by
    simp only [channel.size, channel.capacity, h.cnt, h.cap] at hlt
    simp; omega
  ring := fun hC => (h.ring hC).push (by
    simp only [channel.size, channel.capacity, h.cnt, h.cap] at hlt; exact hlt) v
  excl := by simp [hrq]

/-- Storing the value of a committed sender: the refill of `receive`. -/
theorem ChanInv.refill {C : Nat} {ch : channel T} {g : List T} (h : ChanInv C ch g)
    (hrq : ch.recvq_ = []) (hlt : ch.size < ch.capacity) (v : T) :
    ChanInv C { ch with buffer_ := ch.buffer_.set ch.sendx_ v,
                        sendx_ := if ch.sendx_ + 1 ≥ ch.capacity then 0 else ch.sendx_ + 1,
                        count_ := ch.count_ + 1 } (g ++ [v]) where
  cap := h.cap
  cnt := by simp [h.cnt]
  le := by
    simp only [channel.size, channel.capacity, h.cnt, h.cap] at hlt
    simp; omega
  ring := fun hC => (h.ring hC).push_ge (by
    simp only [channel.size, channel.capacity, h.cnt, h.cap] at hlt; exact hlt) v
  excl := by simp [hrq]

/-- With a value in the buffer no receiver is parked. -/
theorem ChanInv.no_receiver {C : Nat} {ch : channel T} {g : List T} (h : ChanInv C ch g)
    (hpos : 0 < ch.count_) : ch.recvq_ = [] := by
  by_contra hne
  have := (h.excl hne).2
  omega

/-- With a sender parked no receiver is parked. -/
theorem ChanInv.no_receiver_of_sender {C : Nat} {ch : channel T} {g : List T}
    (h : ChanInv C ch g) (hs : ch.sendq_ ≠ []) : ch.recvq_ = [] := by
  by_contra hne
  exact hs (h.excl hne).1

/-- Taking the oldest value: the block `if (size() > 0)` of `receive`. -/
theorem ChanInv.take [Inhabited T] {C : Nat} {ch : channel T} {g : List T}
    (h : ChanInv C ch g) (hpos : ch.size > 0) :
    ChanInv C { ch with recvx_ := if ch.recvx_ + 1 = ch.capacity then 0 else ch.recvx_ + 1,
                        count_ := ch.count_ - 1 } g.tail ∧
    g.head? = some (ch.buffer_.getD ch.recvx_ default) := by
  simp only [channel.size] at hpos
  have hrq := h.no_receiver hpos
  cases g with
  | nil => have := h.cnt; simp at this; omega
  | cons x g =>
    have hC : 0 < C := by have := h.le; simp at this; omega
    have hp := Ring.pop (h.ring hC)
    refine ⟨⟨h.cap, ?_, ?_, fun _ => hp.2, by simp [hrq]⟩, by rw [hp.1]; rfl⟩
    · simp [h.cnt]
    · have := h.le; simp at this ⊢; omega

/-- Parking a sender: no receiver is parked then. -/
theorem ChanInv.park_sender {C : Nat} {ch : channel T} {g : List T} (h : ChanInv C ch g)
    (hrq : ch.recvq_ = []) (x : CtxId) :
    ChanInv C { ch with sendq_ := ch.sendq_ ++ [x] } g :=
  ⟨h.cap, h.cnt, h.le, fun hC => (h.ring hC).of_fields rfl rfl rfl rfl rfl, by simp [hrq]⟩

/-- Parking a receiver: no sender is parked and the buffer is empty then. -/
theorem ChanInv.park_receiver {C : Nat} {ch : channel T} {g : List T} (h : ChanInv C ch g)
    (hsq : ch.sendq_ = []) (hc : ch.count_ = 0) (x : CtxId) :
    ChanInv C { ch with recvq_ := ch.recvq_ ++ [x] } g :=
  ⟨h.cap, h.cnt, h.le, fun hC => (h.ring hC).of_fields rfl rfl rfl rfl rfl,
    fun _ => ⟨hsq, hc⟩⟩

theorem ChanInv.fresh [Inhabited T] (C : Nat) : ChanInv C (channel.init C : channel T) [] where
  cap := rfl
  cnt := rfl
  le := by simp
  ring := fun hC => Ring.init C hC
  excl := by simp [channel.init]

theorem QueuesShrink.drop_recvq_head {ch : channel T} {r : CtxId} {rest : List CtxId}
    (hq : ch.recvq_ = r :: rest) : QueuesShrink ch { ch with recvq_ := rest } :=
  ⟨rfl, rfl, rfl, rfl, rfl, rfl, by rw [hq]; exact List.sublist_cons_self r rest,
    List.Sublist.refl _⟩

theorem QueuesShrink.drop_sendq_head {ch : channel T} {r : CtxId} {rest : List CtxId}
    (hq : ch.sendq_ = r :: rest) : QueuesShrink ch { ch with sendq_ := rest } :=
  ⟨rfl, rfl, rfl, rfl, rfl, rfl, List.Sublist.refl _,
    by rw [hq]; exact List.sublist_cons_self r rest⟩

/-- `dispatch` keeps the invariant of its channel, with the list of
`dispatch_log`. -/
theorem channel.dispatch_inv (w : World T) (this : ChanId) (self : CtxId) (v : T) (b : Bool)
    {C : Nat} {g : List T} (h : ChanInv C (w.chans this) g) :
    ChanInv C ((channel.dispatch w this self v b).2.chans this)
      (channel.dispatch_log w this v g) := by
  cases hcl : (w.chans this).closed_ with
  | true =>
    simp only [channel.dispatch, channel.dispatch_log, hcl, if_true]
    exact h
  | false =>
    cases hub : (!(w.chans this).recvq_.isEmpty && decide ((w.chans this).size > 0)) with
    | true =>
      simp only [channel.dispatch, channel.dispatch_log, hcl, hub, if_true, Bool.false_eq_true,
        if_false]
      exact h
    | false =>
      cases hq : (w.chans this).recvq_ with
      | cons r rest =>
        have hfr := (context.unblocked_receiver_frame
          (w.setChan this { w.chans this with recvq_ := rest }) r this (some v)).1 this
        simp only [World.setChan_chans_same] at hfr
        have hsh := (QueuesShrink.drop_recvq_head hq).compose_shrinks hfr.shrink
        simp only [hcl] at hsh
        rw [hq] at hub
        simp only [channel.dispatch, channel.dispatch_log, hcl, hub, Bool.false_eq_true,
          if_false, hq]
        split
        · rename_i heq
          rw [heq] at hsh
          simpa using h.of_shrink hsh
        · rename_i heq
          rw [heq] at hsh
          simpa using h.of_shrink hsh
      | nil =>
        rw [hq] at hub
        by_cases hlt : (w.chans this).size < (w.chans this).capacity
        · simp only [channel.dispatch, channel.dispatch_log, hcl, hub, Bool.false_eq_true,
            if_false, hq, hlt, if_true, World.setChan_chans_same]
          have := h.store hq hlt v
          simpa only [hq, hcl] using this
        · cases b with
          | false =>
            simp only [channel.dispatch, channel.dispatch_log, hcl, hub, Bool.false_eq_true,
              if_false, hq, hlt, Bool.not_false, if_true]
            exact h
          | true =>
            simp only [channel.dispatch, channel.dispatch_log, hcl, hub, Bool.false_eq_true,
              if_false, hq, hlt, Bool.not_true, World.setChan_chans_same, context.add_chans]
            have := h.park_sender hq self
            simpa only [hq, hcl] using this

/-- `dispatch` keeps the invariant of every channel. -/
theorem channel.dispatch_inv_all (w : World T) (this : ChanId) (self : CtxId) (v : T) (b : Bool)
    (cap : ChanId → Nat) (g : ChanId → List T) (h : ∀ c, ChanInv (cap c) (w.chans c) (g c))
    (c : ChanId) :
    ChanInv (cap c) ((channel.dispatch w this self v b).2.chans c)
      (Function.update g this (channel.dispatch_log w this v (g this)) c) := by
  by_cases hc : c = this
  · subst hc
    simpa using channel.dispatch_inv w c self v b (h c)
  · rw [Function.update_noteq hc]
    exact (h c).of_shrink (channel.dispatch_frame w this self v b c hc)

theorem channel.receive_pop_inv [Inhabited T] (w : World T) (this : ChanId) {C : Nat}
    {g : List T} (h : ChanInv C (w.chans this) g) :
    ChanInv C ((channel.receive_pop w this).2.chans this)
      (if (w.chans this).size > 0 then g.tail else g) ∧
    ((channel.receive_pop w this).1 = none →
      (channel.receive_pop w this).2 = w ∧ (w.chans this).count_ = 0) ∧
    (∀ x, (channel.receive_pop w this).1 = some x → g.head? = some x) := by
  by_cases hpos : (w.chans this).size > 0
  · have ht := h.take hpos
    simp only [channel.receive_pop, hpos, if_true, World.setChan_chans_same]
    refine ⟨ht.1, fun h0 => by simp at h0, fun x hx => ?_⟩
    simp only [Option.some.injEq] at hx
    rw [ht.2, hx]
  · simp only [channel.receive_pop, hpos, if_false]
    refine ⟨h, fun _ => ⟨trivial, ?_⟩, fun x hx => by simp at hx⟩
    simp only [channel.size] at hpos
    omega

theorem channel.receive_direct_inv (w : World T) (this : ChanId) (has : Option T) {C : Nat}
    {g : List T} (h : ChanInv C (w.chans this) g) :
    ChanInv C ((channel.receive_direct w this has).2.chans this) g ∧
    ((channel.receive_direct w this has).1 = .ok none →
      (channel.receive_direct w this has).2 = w ∧ (w.chans this).sendq_ = [] ∧ has = none) ∧
    (∀ x, has = some x → channel.receive_direct w this has = (.ok (some x), w)) := by
  cases has with
  | some x =>
    refine ⟨?_, fun h0 => ?_, fun y hy => ?_⟩
    · simp only [channel.receive_direct]; exact h
    · simp [channel.receive_direct] at h0
    · simp only [Option.some.injEq] at hy
      subst hy
      simp only [channel.receive_direct]
  | none =>
    cases hq : (w.chans this).sendq_ with
    | nil =>
      simp only [channel.receive_direct, hq]
      exact ⟨h, fun _ => by simp, fun x hx => by simp at hx⟩
    | cons r rest =>
      have hfr := (context.unblocked_sender_frame
        (w.setChan this { w.chans this with sendq_ := rest }) r this).1 this
      simp only [World.setChan_chans_same] at hfr
      have hsh := (QueuesShrink.drop_sendq_head hq).compose_shrinks hfr.shrink
      simp only [channel.receive_direct, hq]
      refine ⟨?_, ?_, fun x hx => by simp at hx⟩
      · split
        · rename_i heq
          rw [heq] at hsh
          simpa using h.of_shrink hsh
        · rename_i heq
          rw [heq] at hsh
          simpa using h.of_shrink hsh
      · intro h0
        split at h0 <;> simp at h0

theorem channel.receive_refill_inv (w : World T) (this : ChanId) {C : Nat}
    {g : List T} (h : ChanInv C (w.chans this) g) :
    ChanInv C ((channel.receive_refill w this).2.chans this)
      (channel.receive_refill_log w this g) ∧
    ((w.chans this).sendq_ = [] → channel.receive_refill w this = (.ok (), w) ∧
      channel.receive_refill_log w this g = g) := by
  cases hq : (w.chans this).sendq_ with
  | nil =>
    simp only [channel.receive_refill, channel.receive_refill_log, hq]
    exact ⟨h, fun _ => by simp⟩
  | cons r rest =>
    refine ⟨?_, fun h0 => by simp at h0⟩
    by_cases hlt : (w.chans this).size < (w.chans this).capacity
    · have hfr := (context.unblocked_sender_frame
        (w.setChan this { w.chans this with sendq_ := rest }) r this).1 this
      simp only [World.setChan_chans_same] at hfr
      have hsh := (QueuesShrink.drop_sendq_head hq).compose_shrinks hfr.shrink
      have hrq : (w.chans this).recvq_ = [] := h.no_receiver_of_sender (by rw [hq]; simp)
      simp only [channel.receive_refill, channel.receive_refill_log, hq, hlt, if_true]
      rcases hres : context.unblocked_sender
        (w.setChan this { w.chans this with sendq_ := rest }) r this with ⟨o, w2⟩
      rw [hres] at hsh
      simp only at hsh
      have h2 := h.of_shrink hsh
      cases o with
      | error f => simpa using h2
      | ok d =>
        simp only [context.signal_chans, World.setChan_chans_same]
        refine h2.refill ?_ ?_ d
        · have := hsh.recvq_
          rw [hrq] at this
          exact List.sublist_nil.mp this
        · simp only [channel.size, channel.capacity, hsh.count_, hsh.size_] at hlt ⊢
          exact hlt
    · simp only [channel.receive_refill, channel.receive_refill_log, hq, hlt, if_false]
      exact h

/-- `receive` keeps the invariant of its channel, with the list of
`receive_log`; when the list is not empty, the value it returns is the oldest
of the list. -/
theorem channel.receive_inv [Inhabited T] (w : World T) (this : ChanId) (self : CtxId)
    (b : Bool) {C : Nat} {g : List T} (h : ChanInv C (w.chans this) g) :
    ChanInv C ((channel.receive w this self b).2.chans this) (channel.receive_log w this g) ∧
    (∀ x ok, (channel.receive w this self b).1 = .ret (x, ok) → g ≠ [] →
      g.head? = some x ∧ ok = true) := by
  by_cases hcd : (w.chans this).closed_ = true ∧ (w.chans this).size = 0
  · simp only [channel.receive, channel.receive_log, hcd, and_self, if_true]
    refine ⟨h, fun x ok _ hg => ?_⟩
    exfalso
    apply hg
    have := h.cnt
    simp only [channel.size] at hcd
    rw [hcd.2] at this
    exact List.length_eq_zero.mp this.symm
  · have hpop := channel.receive_pop_inv w this h
    rcases hp : channel.receive_pop w this with ⟨has0, w0⟩
    rw [hp] at hpop
    simp only at hpop
    obtain ⟨hinv0, hnone0, hsome0⟩ := hpop
    have hdir := channel.receive_direct_inv w0 this has0 hinv0
    rcases hd : channel.receive_direct w0 this has0 with ⟨r1, w1⟩
    rw [hd] at hdir
    simp only at hdir
    obtain ⟨hinv1, hnone1, hsome1⟩ := hdir
    cases r1 with
    | error f =>
      simp only [channel.receive, channel.receive_log, hcd, if_false, hp, hd]
      exact ⟨hinv1, fun x ok hx _ => by simp at hx⟩
    | ok has1 =>
      have href := channel.receive_refill_inv w1 this hinv1
      rcases hr : channel.receive_refill w1 this with ⟨r2, w2⟩
      rw [hr] at href
      simp only at href
      obtain ⟨hinv2, hnone2⟩ := href
      cases r2 with
      | error f =>
        simp only [channel.receive, channel.receive_log, hcd, if_false, hp, hd, hr]
        exact ⟨hinv2, fun x ok hx _ => by simp at hx⟩
      | ok u =>
        cases has1 with
        | some data =>
          simp only [channel.receive, channel.receive_log, hcd, if_false, hp, hd, hr]
          refine ⟨hinv2, fun x ok hx hg => ?_⟩
          simp only [Outcome.ret.injEq, Prod.mk.injEq] at hx
          obtain ⟨hx1, hx2⟩ := hx
          subst hx1
          refine ⟨?_, hx2.symm⟩
          cases has0 with
          | some y =>
            have := hsome1 y rfl
            simp only [Prod.mk.injEq, Except.ok.injEq, Option.some.injEq] at this
            rw [this.1]
            exact hsome0 y rfl
          | none =>
            exfalso
            apply hg
            have := (hnone0 rfl).2
            rw [h.cnt] at this
            exact List.length_eq_zero.mp this
        | none =>
          obtain ⟨hw1, hsq0, hhas0⟩ := hnone1 rfl
          subst hhas0
          obtain ⟨hw0, hcnt⟩ := hnone0 rfl
          subst hw1
          subst hw0
          obtain ⟨hw2, hlog⟩ := hnone2 hsq0
          simp only [Prod.mk.injEq, true_and] at hw2
          subst hw2
          simp only [channel.size, hcnt, gt_iff_lt, Nat.lt_irrefl, if_false] at hlog
          simp only [channel.receive, channel.receive_log, hcd, if_false, hp, hd, hr,
            World.setChan_chans_same, context.add_chans]
          simp only [channel.size, hcnt, gt_iff_lt, Nat.lt_irrefl, if_false, hlog]
          have hpark := h.park_receiver hsq0 hcnt self
          simp only [hcnt] at hpark
          exact ⟨hpark, fun x ok hx _ => by simp at hx⟩

/-- `receive` keeps the invariant of every channel. -/
theorem channel.receive_inv_all [Inhabited T] (w : World T) (this : ChanId) (self : CtxId)
    (b : Bool) (cap : ChanId → Nat) (g : ChanId → List T)
    (h : ∀ c, ChanInv (cap c) (w.chans c) (g c)) (c : ChanId) :
    ChanInv (cap c) ((channel.receive w this self b).2.chans c)
      (Function.update g this (channel.receive_log w this (g this)) c) := by
  by_cases hc : c = this
  · subst hc
    simpa using (channel.receive_inv w c self b (h c)).1
  · rw [Function.update_noteq hc]
    exact (h c).of_shrink (channel.receive_frame w this self b c hc)

theorem channel.send_inv_all (w : World T) (this : ChanId) (self : CtxId) (v : T) (b : Bool)
    (cap : ChanId → Nat) (g : ChanId → List T) (h : ∀ c, ChanInv (cap c) (w.chans c) (g c))
    (c : ChanId) :
    ChanInv (cap c) ((channel.send w this self v b).2.chans c)
      (Function.update g this (channel.send_log w this v b (g this)) c) := by
  unfold channel.send channel.send_log
  simp only []
  split
  · simpa using h c
  · exact channel.dispatch_inv_all w this self v b cap g h c

theorem channel.recv_inv_all [Inhabited T] (w : World T) (this : ChanId) (self : CtxId)
    (b : Bool) (cap : ChanId → Nat) (g : ChanId → List T)
    (h : ∀ c, ChanInv (cap c) (w.chans c) (g c)) (c : ChanId) :
    ChanInv (cap c) ((channel.recv w this self b).2.chans c)
      (Function.update g this (channel.recv_log w this b (g this)) c) := by
  unfold channel.recv channel.recv_log
  simp only []
  split
  · simpa using h c
  · exact channel.receive_inv_all w this self b cap g h c

theorem channel.close_inv_all (w : World T) (this : ChanId) (cap : ChanId → Nat)
    (g : ChanId → List T) (h : ∀ c, ChanInv (cap c) (w.chans c) (g c)) (c : ChanId) :
    ChanInv (cap c) ((channel.close w this).chans c) (g c) := by
  have hc := channel.close_chans w this
  by_cases hct : c = this
  · subst hct
    rw [hc.1]
    exact (h c).of_same_fields rfl rfl rfl rfl rfl rfl rfl
  · rw [hc.2 c hct]
    exact h c

theorem channel.dispatch_wake_inv_all (w : World T) (this : ChanId) (self : CtxId) (v : T)
    (b : Bool) (cap : ChanId → Nat) (g : ChanId → List T)
    (h : ∀ c, ChanInv (cap c) (w.chans c) (g c)) (r : Outcome Bool × World T)
    (hr : channel.dispatch_wake w this self v b = some r) (c : ChanId) :
    ChanInv (cap c) (r.2.chans c)
      (Function.update g this (channel.dispatch_wake_log w this self v (g this)) c) := by
  unfold channel.dispatch_wake at hr
  unfold channel.dispatch_wake_log
  split at hr
  · rename_i hready
    simp only [hready, if_true]
    simp only [] at hr
    split at hr
    · rename_i hmem
      simp only [Option.some.injEq] at hr
      subst hr
      simp only [hmem, if_true]
      simpa using h c
    · rename_i hmem
      split at hr
      · rename_i hx
        simp only [Option.some.injEq] at hr
        subst hr
        simp only [hmem, if_false]
        simpa [hx] using h c
      · rename_i hx
        simp only [Option.some.injEq] at hr
        subst hr
        simp only [hmem, if_false, hx]
        exact channel.dispatch_inv_all _ this self v b cap g (fun c => by simpa using h c) c
  · simp at hr

theorem channel.receive_wake_inv_all [Inhabited T] (w : World T) (this : ChanId)
    (self : CtxId) (b : Bool) (cap : ChanId → Nat) (g : ChanId → List T)
    (h : ∀ c, ChanInv (cap c) (w.chans c) (g c)) (r : Outcome (T × Bool) × World T)
    (hr : channel.receive_wake w this self b = some r) (c : ChanId) :
    ChanInv (cap c) (r.2.chans c)
      (Function.update g this (channel.receive_wake_log w this self (g this)) c) := by
  unfold channel.receive_wake at hr
  unfold channel.receive_wake_log
  split at hr
  · rename_i hready
    simp only [hready, if_true]
    simp only [] at hr
    split at hr
    · rename_i hmem
      simp only [Option.some.injEq] at hr
      subst hr
      simp only [hmem, if_true]
      simpa using h c
    · rename_i hmem
      split at hr
      · rename_i hx
        simp only [hmem, if_false]
        split at hr
        · simp only [Option.some.injEq] at hr
          subst hr
          simpa [hx] using h c
        · simp only [Option.some.injEq] at hr
          subst hr
          simpa [hx] using h c
      · rename_i hx
        simp only [Option.some.injEq] at hr
        subst hr
        simp only [hmem, if_false, hx]
        exact channel.receive_inv_all _ this self b cap g (fun c => by simpa using h c) c
  · simp at hr

theorem channel.dispatch_cancel_inv_all (w : World T) (this : ChanId) (self : CtxId)
    (cap : ChanId → Nat) (g : ChanId → List T) (h : ∀ c, ChanInv (cap c) (w.chans c) (g c))
    (c : ChanId) : ChanInv (cap c) ((channel.dispatch_cancel w this self).2.chans c) (g c) := by
  simp only [channel.dispatch_cancel, context.clear_chans]
  by_cases hct : c = this
  · subst hct
    simp only [World.setChan_chans_same]
    exact (h c).of_shrink ⟨rfl, rfl, rfl, rfl, rfl, rfl, List.Sublist.refl _,
      List.erase_sublist _ _⟩
  · simp only [World.setChan_chans_other _ _ _ _ hct]
    exact h c

theorem channel.receive_cancel_inv_all [Inhabited T] (w : World T) (this : ChanId)
    (self : CtxId) (cap : ChanId → Nat) (g : ChanId → List T)
    (h : ∀ c, ChanInv (cap c) (w.chans c) (g c)) (c : ChanId) :
    ChanInv (cap c) ((channel.receive_cancel w this self).2.chans c) (g c) := by
  simp only [channel.receive_cancel, context.clear_chans]
  by_cases hct : c = this
  · subst hct
    simp only [World.setChan_chans_same]
    exact (h c).of_shrink ⟨rfl, rfl, rfl, rfl, rfl, rfl, List.erase_sublist _ _,
      List.Sublist.refl _⟩
  · simp only [World.setChan_chans_other _ _ _ _ hct]
    exact h c

theorem Sys.leave_no_select {R : Type} (s : Sys T) (self : CtxId) (o : Outcome R) (w : World T)
    (susp : Status T) (hs : s.no_select)
    (hsusp : susp = .idle ∨ (∃ c data block, susp = .in_dispatch c data block) ∨
      ∃ c block, susp = .in_receive c block) :
    (s.leave self o w susp).no_select := by
  intro x
  by_cases hx : x = self
  · subst hx
    simp only [Sys.leave, Function.update_same]
    cases o with
    | parked => exact hsusp
    | ret r => exact .inl rfl
    | fault f => exact .inl rfl
  · rw [Sys.leave_status_other s self x o w susp hx]
    exact hs x

@[simp] theorem Sys.leave_w {R : Type} (s : Sys T) (self : CtxId) (o : Outcome R) (w : World T)
    (susp : Status T) : (s.leave self o w susp).w = w := rfl

/-- A step of `send`, `recv` or `close` keeps the invariant of every channel
and leaves every thread outside the library or parked in `send` or `recv`. -/
theorem Sys.step_inv [Inhabited T] (cap : ChanId → Nat) (s s1 : Sys T) (a : Action T)
    (g : ChanId → List T) (hns : s.no_select)
    (h : ∀ c, ChanInv (cap c) (s.w.chans c) (g c)) (ha : a.channel_op = true)
    (hstep : s.step a = some s1) :
    s1.no_select ∧ ∀ c, ChanInv (cap c) (s1.w.chans c) (s.log_step a g c) := by
  cases a with
  | send self c data block =>
    cases hst : s.status self <;> simp only [Sys.step, hst] at hstep <;>
      first | (simp at hstep; done) | skip
    simp only [Option.some.injEq] at hstep
    subst hstep
    exact ⟨Sys.leave_no_select s self _ _ _ hns (.inr (.inl ⟨c, data, block, rfl⟩)),
      fun c' => channel.send_inv_all s.w c self data block cap g h c'⟩
  | recv self c block =>
    cases hst : s.status self <;> simp only [Sys.step, hst] at hstep <;>
      first | (simp at hstep; done) | skip
    simp only [Option.some.injEq] at hstep
    subst hstep
    exact ⟨Sys.leave_no_select s self _ _ _ hns (.inr (.inr ⟨c, block, rfl⟩)),
      fun c' => channel.recv_inv_all s.w c self block cap g h c'⟩
  | close c =>
    simp only [Sys.step, Option.some.injEq] at hstep
    subst hstep
    exact ⟨hns, fun c' => channel.close_inv_all s.w c cap g h c'⟩
  | select self sel block => simp [Action.channel_op] at ha
  | register self => simp [Action.channel_op] at ha
  | wake self =>
    rcases hns self with hst | ⟨c, data, block, hst⟩ | ⟨c, block, hst⟩
    · simp [Sys.step, hst] at hstep
    · simp only [Sys.step, hst, Option.map_eq_some'] at hstep
      obtain ⟨r, hr, rfl⟩ := hstep
      refine ⟨Sys.leave_no_select s self _ _ _ hns (.inr (.inl ⟨c, data, block, rfl⟩)), ?_⟩
      intro c'
      simp only [Sys.log_step, hst, Sys.leave_w]
      exact channel.dispatch_wake_inv_all s.w c self data block cap g h r hr c'
    · simp only [Sys.step, hst, Option.map_eq_some'] at hstep
      obtain ⟨r, hr, rfl⟩ := hstep
      refine ⟨Sys.leave_no_select s self _ _ _ hns (.inr (.inr ⟨c, block, rfl⟩)), ?_⟩
      intro c'
      simp only [Sys.log_step, hst, Sys.leave_w]
      exact channel.receive_wake_inv_all s.w c self block cap g h r hr c'
  | cancel self =>
    rcases hns self with hst | ⟨c, data, block, hst⟩ | ⟨c, block, hst⟩
    · simp [Sys.step, hst] at hstep
    · simp only [Sys.step, hst, Option.some.injEq] at hstep
      subst hstep
      exact ⟨Sys.leave_no_select s self _ _ _ hns (.inl rfl),
        fun c' => channel.dispatch_cancel_inv_all s.w c self cap g h c'⟩
    · simp only [Sys.step, hst, Option.some.injEq] at hstep
      subst hstep
      exact ⟨Sys.leave_no_select s self _ _ _ hns (.inl rfl),
        fun c' => channel.receive_cancel_inv_all s.w c self cap g h c'⟩

/-- Every run of `send`, `recv` and `close` keeps the invariant of every
channel, with the lists of `log_run`. -/
theorem Sys.run_inv [Inhabited T] (cap : ChanId → Nat) : ∀ (acts : List (Action T))
    (s s1 : Sys T) (g : ChanId → List T), s.no_select →
    (∀ c, ChanInv (cap c) (s.w.chans c) (g c)) → (∀ a, a ∈ acts → a.channel_op = true) →
    Sys.run acts s = some s1 →
    s1.no_select ∧ ∀ c, ChanInv (cap c) (s1.w.chans c) (Sys.log_run acts s g c)
  | [], s, s1, g, hns, h, _, hrun => by
    simp only [Sys.run, Option.some.injEq] at hrun
    subst hrun
    exact ⟨hns, h⟩
  | a :: rest, s, s1, g, hns, h, hops, hrun => by
    cases hstep : s.step a with
    | none => simp [Sys.run, hstep] at hrun
    | some s2 =>
      simp only [Sys.run, hstep] at hrun
      obtain ⟨hns2, h2⟩ := Sys.step_inv cap s s2 a g hns h (hops a (by simp)) hstep
      simp only [Sys.log_run, hstep]
      exact Sys.run_inv cap rest s2 s1 _ hns2 h2 (fun a' ha' => hops a' (by simp [ha'])) hrun

theorem Sys.init_inv [Inhabited T] (cap : ChanId → Nat) (rnd : Nat → Nat) :
    (Sys.init cap rnd : Sys T).no_select ∧
    ∀ c, ChanInv (cap c) ((Sys.init cap rnd : Sys T).w.chans c) [] :=
  ⟨fun _ => .inl rfl, fun c => ChanInv.fresh (cap c)⟩

/-! ## Non-blocking calls do not park -/

theorem channel.dispatch_nonblocking_not_parked (w : World T) (c : ChanId) (self : CtxId)
    (v : T) : (channel.dispatch w c self v false).1 ≠ .parked := by
  unfold channel.dispatch
  simp only []
  split
  · simp
  · split
    · simp
    · split
      · split <;> simp
      · split
        · simp
        · simp

theorem channel.send_nonblocking_not_parked (w : World T) (c : ChanId) (self : CtxId) (v : T) :
    (channel.send w c self v false).1 ≠ .parked := by
  unfold channel.send
  simp only []
  split
  · simp
  · exact channel.dispatch_nonblocking_not_parked w c self v

/-- `receive` reaches its `wait()` only when the buffer is empty and no sender
is parked. -/
theorem channel.receive_parked [Inhabited T] (w : World T) (c : ChanId) (self : CtxId)
    (b : Bool) (h : (channel.receive w c self b).1 = .parked) :
    (w.chans c).count_ = 0 ∧ (w.chans c).sendq_ = [] ∧
    ¬ ((w.chans c).closed_ = true ∧ (w.chans c).size = 0) := by
  by_cases hcd : (w.chans c).closed_ = true ∧ (w.chans c).size = 0
  · simp [channel.receive, hcd] at h
  · have hcount : (w.chans c).count_ = 0 := by
      by_contra hne
      have hpos : (w.chans c).size > 0 := by simp only [channel.size]; omega
      simp only [channel.receive, hcd, if_false, channel.receive_pop, hpos, if_true,
        channel.receive_direct] at h
      split at h
      · simp at h
      · simp at h
    refine ⟨hcount, ?_, hcd⟩
    have hpos : ¬ (w.chans c).size > 0 := by simp [channel.size, hcount]
    cases hq : (w.chans c).sendq_ with
    | nil => rfl
    | cons r rest =>
      exfalso
      simp only [channel.receive, hcd, if_false, channel.receive_pop, hpos,
        channel.receive_direct, hq] at h
      split at h
      · simp at h
      · rename_i heq
        split at heq
        · simp only [Prod.mk.injEq, Except.ok.injEq] at heq
          obtain ⟨h1, h2⟩ := heq
          subst h1
          first
            | (simp at h; done)
            | (split at h <;> simp at h)
        · simp at heq

theorem channel.recv_nonblocking_not_parked [Inhabited T] (w : World T) (c : ChanId)
    (self : CtxId) : (channel.recv w c self false).1 ≠ .parked := by
  intro h
  unfold channel.recv at h
  simp only [] at h
  split at h
  · simp at h
  · rename_i hfast
    obtain ⟨hcnt, hsq, hcd⟩ := channel.receive_parked w c self false h
    apply hfast
    have hopen : (w.chans c).closed_ = false := by
      cases hcl : (w.chans c).closed_ with
      | false => rfl
      | true => exact absurd ⟨hcl, by simp [channel.size, hcnt]⟩ hcd
    by_cases h0 : (w.chans c).size_ = 0
    · simp [channel.capacity, channel.size, hopen, hsq, h0]
    · have : 0 < (w.chans c).size_ := by omega
      simp [channel.capacity, channel.size, hopen, hcnt, this]

theorem channel.peek_not_parked [Inhabited T] (w : World T) (c : ChanId) (self : CtxId) :
    (channel.peek w c self).1 ≠ .parked := by
  have := channel.recv_nonblocking_not_parked w c self
  unfold channel.peek
  split
  · simp
  · simp
  · rename_i heq
    rw [heq] at this
    simp at this

/-- The polling pass of `select` does not park. -/
theorem selector.select_poll_loop_not_parked [Inhabited T] (self : CtxId) (size : Nat) :
    ∀ (n i : Nat) (w : World T) (sel : selector T),
    (selector.select_poll_loop self size n i w sel).1 ≠ some .parked
  | 0, _, _, _ => by simp [selector.select_poll_loop]
  | n + 1, i, w, sel => by
    cases hget : (w.ctxs self).send_data_[i]? with
    | none => simp [selector.select_poll_loop, hget]
    | some off =>
      rcases off with ⟨_ | ch, _ | data⟩
      · simp only [selector.select_poll_loop, hget]
        exact selector.select_poll_loop_not_parked self size n _ w sel
      · simp only [selector.select_poll_loop, hget]
        exact selector.select_poll_loop_not_parked self size n _ w sel
      · have hnp := channel.peek_not_parked w ch self
        rcases hpk : channel.peek w ch self with ⟨o, w1⟩
        rw [hpk] at hnp
        rcases o with (_ | v) | f | _
        · simp only [selector.select_poll_loop, hget, hpk]
          exact selector.select_poll_loop_not_parked self size n _ w1 sel
        · simp [selector.select_poll_loop, hget, hpk]
        · simp [selector.select_poll_loop, hget, hpk]
        · simp at hnp
      · have hnp := channel.send_nonblocking_not_parked w ch self data
        rcases hpk : channel.poke w ch self data with ⟨o, w1⟩
        have hpk' : channel.send w ch self data false = (o, w1) := hpk
        rw [hpk'] at hnp
        rcases o with (_ | _) | f | _
        · simp only [selector.select_poll_loop, hget, hpk]
          exact selector.select_poll_loop_not_parked self size n _ w1 sel
        · simp [selector.select_poll_loop, hget, hpk]
        · simp [selector.select_poll_loop, hget, hpk]
        · simp at hnp

/-! ## Invariants of the runs of send, recv and close -/

/-- C12: in every state reached from freshly constructed channels of the
capacities `cap` by a run of calls of send, recv (blocking or not) and close
and of resumptions of their waits, every channel `c` has `capacity() = cap c`
and `size() ≤ capacity()`, and `size() = 0` when its capacity is 0. -/
theorem C12_size_within_capacity [Inhabited T] (cap : ChanId → Nat) (rnd : Nat → Nat)
    (acts : List (Action T)) (s : Sys T) (hops : ∀ a, a ∈ acts → a.channel_op = true)
    (hrun : Sys.run acts (Sys.init cap rnd) = some s) (c : ChanId) :
    (s.w.chans c).capacity = cap c ∧ (s.w.chans c).size ≤ (s.w.chans c).capacity ∧
    (cap c = 0 → (s.w.chans c).size = 0) := by
  have hinit := Sys.init_inv (T := T) cap rnd
  have h := (Sys.run_inv cap acts _ s (fun _ => []) hinit.1 hinit.2 hops hrun).2 c
  have hcap : (s.w.chans c).capacity = cap c := h.cap
  have hle : (s.w.chans c).size ≤ cap c := by
    have := h.le
    simp only [channel.size, h.cnt]
    exact this
  exact ⟨hcap, by rw [hcap]; exact hle, fun h0 => by omega⟩

/-- The run of `scenario_two_channels` is enabled at every step. -/
theorem scenario_two_channels_run :
    Sys.run scenario_two_channels_actions (Sys.init scenario_two_channels_cap (fun _ => 0)) =
      some scenario_two_channels := by
  unfold scenario_two_channels
  cases h : Sys.run scenario_two_channels_actions
      (Sys.init scenario_two_channels_cap (fun _ => 0)) with
  | none => exact absurd (congrArg Option.isSome h) (by decide)
  | some s => rfl

/-- C12, on a run with a buffered and an unbuffered channel: the buffered
channel ends with two values, the unbuffered one with none. -/
theorem C12_size_within_capacity_witness :
    (∀ a, a ∈ scenario_two_channels_actions → a.channel_op = true) ∧
    Sys.run scenario_two_channels_actions (Sys.init scenario_two_channels_cap (fun _ => 0)) =
      some scenario_two_channels ∧
    (scenario_two_channels.w.chans 0).size = 2 ∧ (scenario_two_channels.w.chans 1).size = 0 ∧
    ∀ c, (scenario_two_channels.w.chans c).capacity = scenario_two_channels_cap c ∧
      (scenario_two_channels.w.chans c).size ≤ (scenario_two_channels.w.chans c).capacity ∧
      (scenario_two_channels_cap c = 0 → (scenario_two_channels.w.chans c).size = 0) :=
  ⟨by decide, scenario_two_channels_run, by decide, by decide,
    C12_size_within_capacity scenario_two_channels_cap (fun _ => 0)
      scenario_two_channels_actions scenario_two_channels (by decide) scenario_two_channels_run⟩

/-- With a non-empty list of buffered values, a `recv` that returns gives the
oldest of them, with `ok = true`. -/
theorem channel.recv_head [Inhabited T] (w : World T) (c : ChanId) (self : CtxId) (b : Bool)
    {C : Nat} {g : List T} (h : ChanInv C (w.chans c) g) (hg : g ≠ []) (x : T) (ok : Bool)
    (hret : (channel.recv w c self b).1 = .ret (x, ok)) : g.head? = some x ∧ ok = true := by
  have hlen : 0 < g.length := List.length_pos.mpr hg
  have hcnt : 0 < (w.chans c).count_ := by rw [h.cnt]; exact hlen
  have hC : 0 < (w.chans c).size_ := by rw [h.cap]; exact Nat.lt_of_lt_of_le hlen h.le
  unfold channel.recv at hret
  simp only [] at hret
  split at hret
  · rename_i hfast
    exfalso
    simp only [channel.capacity, channel.size, Bool.and_eq_true, Bool.or_eq_true,
      beq_iff_eq, decide_eq_true_eq] at hfast
    rcases hfast.1.2 with h0 | h0
    · omega
    · omega
  · exact (channel.receive_inv w c self b h).2 x ok hret hg

/-- The content of the ring buffer. In every state reached from freshly
constructed channels by a run of calls of send, recv and close and of
resumptions of their waits, a channel `c` of capacity `C > 0` has
`recvx_ < C`, `sendx_ < C` and `sendx_ = (recvx_ + count_) mod C`; its slots
`recvx_, recvx_ + 1, ..., recvx_ + count_ - 1` (mod `C`) hold, oldest first,
the values written into the buffer and not yet read out of it (a value is
read out also by a `recv` that then ends by an exception); and a `recv` that
returns in that state returns the oldest of them. -/
theorem Sys.run_ring_content [Inhabited T] (cap : ChanId → Nat) (rnd : Nat → Nat)
    (acts : List (Action T)) (s : Sys T) (hops : ∀ a, a ∈ acts → a.channel_op = true)
    (hrun : Sys.run acts (Sys.init cap rnd) = some s) (c : ChanId) (hC : 0 < cap c) :
    (s.w.chans c).recvx_ < cap c ∧ (s.w.chans c).sendx_ < cap c ∧
    (s.w.chans c).sendx_ = ((s.w.chans c).recvx_ + (s.w.chans c).count_) % cap c ∧
    (s.w.chans c).count_ = (Sys.log_run acts (Sys.init cap rnd) (fun _ => []) c).length ∧
    (∀ k, k < (s.w.chans c).count_ →
      (s.w.chans c).buffer_[((s.w.chans c).recvx_ + k) % cap c]? =
        (Sys.log_run acts (Sys.init cap rnd) (fun _ => []) c)[k]?) ∧
    (∀ self block x ok, (channel.recv s.w c self block).1 = .ret (x, ok) →
      Sys.log_run acts (Sys.init cap rnd) (fun _ => []) c ≠ [] →
      (Sys.log_run acts (Sys.init cap rnd) (fun _ => []) c).head? = some x ∧ ok = true) := by
  have hinit := Sys.init_inv (T := T) cap rnd
  have h := (Sys.run_inv cap acts _ s (fun _ => []) hinit.1 hinit.2 hops hrun).2 c
  have hr := h.ring hC
  refine ⟨hr.rx, ?_, ?_, hr.cnt, ?_, ?_⟩
  · rw [hr.sx]; exact Nat.mod_lt _ hC
  · rw [hr.sx, hr.cnt]
  · intro k hk
    exact hr.slots k (by rw [← hr.cnt]; exact hk)
  · intro self block x ok hret hg
    exact channel.recv_head s.w c self block h hg x ok hret

/-- The content of the ring buffer at the end of the run of
`scenario_two_channels`: the buffer of capacity 2 has wrapped around and holds
20 and 30 from slot 1 on. -/
theorem Sys.run_ring_content_example :
    scenario_two_channels_log 0 = [20, 30] ∧
    (scenario_two_channels.w.chans 0).buffer_ = [30, 20] ∧
    (scenario_two_channels.w.chans 0).recvx_ = 1 ∧
    (scenario_two_channels.w.chans 0).sendx_ = 1 ∧
    (scenario_two_channels.w.chans 0).count_ = 2 ∧
    ((scenario_two_channels.w.chans 0).recvx_ < scenario_two_channels_cap 0 ∧
    (scenario_two_channels.w.chans 0).sendx_ < scenario_two_channels_cap 0 ∧
    (scenario_two_channels.w.chans 0).sendx_ =
      ((scenario_two_channels.w.chans 0).recvx_ + (scenario_two_channels.w.chans 0).count_) %
        scenario_two_channels_cap 0 ∧
    (scenario_two_channels.w.chans 0).count_ =
      (Sys.log_run scenario_two_channels_actions
        (Sys.init scenario_two_channels_cap (fun _ => 0)) (fun _ => []) 0).length ∧
    (∀ k, k < (scenario_two_channels.w.chans 0).count_ →
      (scenario_two_channels.w.chans 0).buffer_[((scenario_two_channels.w.chans 0).recvx_ + k) %
          scenario_two_channels_cap 0]? =
        (Sys.log_run scenario_two_channels_actions
          (Sys.init scenario_two_channels_cap (fun _ => 0)) (fun _ => []) 0)[k]?) ∧
    (∀ self block x ok,
      (channel.recv scenario_two_channels.w 0 self block).1 = .ret (x, ok) →
      Sys.log_run scenario_two_channels_actions
        (Sys.init scenario_two_channels_cap (fun _ => 0)) (fun _ => []) 0 ≠ [] →
      (Sys.log_run scenario_two_channels_actions
        (Sys.init scenario_two_channels_cap (fun _ => 0)) (fun _ => []) 0).head? = some x ∧
        ok = true)) :=
  ⟨by decide, by decide, by decide, by decide, by decide,
    Sys.run_ring_content scenario_two_channels_cap (fun _ => 0)
      scenario_two_channels_actions scenario_two_channels (by decide) scenario_two_channels_run
      0 (by decide)⟩

/-! ## Registration of a blocking select -/

theorem channel.add_receiver_mem (w : World T) (ch c : ChanId) (self : CtxId) :
    (∀ x, x ∈ (w.chans c).recvq_ → x ∈ ((channel.add_receiver w ch self).chans c).recvq_) ∧
    (∀ x, x ∈ (w.chans c).sendq_ → x ∈ ((channel.add_receiver w ch self).chans c).sendq_) ∧
    (ch = c → self ∈ ((channel.add_receiver w ch self).chans c).recvq_) := by
  by_cases hc : c = ch
  · subst hc
    simp [channel.add_receiver]
    intro x hx
    exact Or.inl hx
  · have hne : ch ≠ c := fun h => hc h.symm
    simp [channel.add_receiver, hc, hne]

theorem channel.add_sender_mem (w : World T) (ch c : ChanId) (self : CtxId) :
    (∀ x, x ∈ (w.chans c).recvq_ → x ∈ ((channel.add_sender w ch self).chans c).recvq_) ∧
    (∀ x, x ∈ (w.chans c).sendq_ → x ∈ ((channel.add_sender w ch self).chans c).sendq_) ∧
    (ch = c → self ∈ ((channel.add_sender w ch self).chans c).sendq_) := by
  by_cases hc : c = ch
  · subst hc
    simp [channel.add_sender]
    intro x hx
    exact Or.inl hx
  · have hne : ch ≠ c := fun h => hc h.symm
    simp [channel.add_sender, hc, hne]

/-- The loop of `add_to_all_channels` removes nothing from the queues and
appends the context to the queue of each offer. -/
theorem context.add_to_all_channels_loop_mem (self : CtxId) (c : ChanId) :
    ∀ (offs : List (Offer T)) (w : World T),
    (∀ x, x ∈ (w.chans c).recvq_ →
      x ∈ ((context.add_to_all_channels_loop self offs w).chans c).recvq_) ∧
    (∀ x, x ∈ (w.chans c).sendq_ →
      x ∈ ((context.add_to_all_channels_loop self offs w).chans c).sendq_) ∧
    ((some c, none) ∈ offs →
      self ∈ ((context.add_to_all_channels_loop self offs w).chans c).recvq_) ∧
    (∀ v, (some c, some v) ∈ offs →
      self ∈ ((context.add_to_all_channels_loop self offs w).chans c).sendq_)
  | [], w => by simp [context.add_to_all_channels_loop]
  | off :: rest, w => by
    rcases off with ⟨_ | ch, _ | v⟩
    · obtain ⟨h1, h2, h3, h4⟩ := context.add_to_all_channels_loop_mem self c rest w
      simp only [context.add_to_all_channels_loop]
      refine ⟨h1, h2, fun hm => h3 (by simpa using hm), fun v hm => h4 v (by simpa using hm)⟩
    · obtain ⟨h1, h2, h3, h4⟩ := context.add_to_all_channels_loop_mem self c rest w
      simp only [context.add_to_all_channels_loop]
      refine ⟨h1, h2, fun hm => h3 (by simpa using hm), fun v hm => h4 v (by simpa using hm)⟩
    · obtain ⟨h1, h2, h3, h4⟩ := context.add_to_all_channels_loop_mem self c rest
        (channel.add_receiver w ch self)
      obtain ⟨a1, a2, a3⟩ := channel.add_receiver_mem w ch c self
      simp only [context.add_to_all_channels_loop]
      refine ⟨fun x hx => h1 x (a1 x hx), fun x hx => h2 x (a2 x hx), fun hm => ?_,
        fun v hm => h4 v (by simpa using hm)⟩
      simp only [List.mem_cons, Prod.mk.injEq, Option.some.injEq, and_true] at hm
      rcases hm with hm | hm
      · exact h1 self (a3 hm.symm)
      · exact h3 hm
    · obtain ⟨h1, h2, h3, h4⟩ := context.add_to_all_channels_loop_mem self c rest
        (channel.add_sender w ch self)
      obtain ⟨a1, a2, a3⟩ := channel.add_sender_mem w ch c self
      simp only [context.add_to_all_channels_loop]
      refine ⟨fun x hx => h1 x (a1 x hx), fun x hx => h2 x (a2 x hx),
        fun hm => h3 (by simpa using hm), fun u hm => ?_⟩
      simp only [List.mem_cons, Prod.mk.injEq, Option.some.injEq] at hm
      rcases hm with hm | hm
      · exact h2 self (a3 hm.1.symm)
      · exact h4 u hm

/-- A blocking `select` that reaches its `wait()` has registered the context
in the queue of each offer of the selector. -/
theorem selector.select_parked_registered [Inhabited T] (w : World T) (sel : selector T)
    (self : CtxId) (block : Bool) (h : (selector.select w sel self block).1 = .parked)
    (c : ChanId) :
    ((some c, none) ∈ sel.send_data_ →
      self ∈ ((selector.select w sel self block).2.1.chans c).recvq_) ∧
    (∀ v, (some c, some v) ∈ sel.send_data_ →
      self ∈ ((selector.select w sel self block).2.1.chans c).sendq_) := by
  have hi := selector.select_install_spec self sel.send_data_ w
  have hs := selector.select_start_spec (selector.select_install self sel.send_data_ w) self
  have hnp := selector.select_poll_loop_not_parked self
    ((selector.select_install self sel.send_data_ w).ctxs self).send_data_.length
    ((selector.select_install self sel.send_data_ w).ctxs self).send_data_.length
    (selector.select_start (selector.select_install self sel.send_data_ w) self).1
    (selector.select_start (selector.select_install self sel.send_data_ w) self).2 sel
  have hmem : ∀ off, off ∈ sel.send_data_ →
      0 < ((selector.select_install self sel.send_data_ w).ctxs self).send_data_.length ∧
      off ∈ ((selector.select_start (selector.select_install self sel.send_data_ w)
        self).2.ctxs self).send_data_ := by
    intro off hoff
    have : off ∈ ((selector.select_install self sel.send_data_ w).ctxs self).send_data_ := by
      rw [hi.2]; exact List.mem_append_right _ hoff
    exact ⟨List.length_pos_of_mem this, by rw [hs.2.1]; exact this⟩
  unfold selector.select selector.select_round selector.select_poll at h ⊢
  rcases hloop : selector.select_poll_loop self
      ((selector.select_install self sel.send_data_ w).ctxs self).send_data_.length
      ((selector.select_install self sel.send_data_ w).ctxs self).send_data_.length
      (selector.select_start (selector.select_install self sel.send_data_ w) self).1
      (selector.select_start (selector.select_install self sel.send_data_ w) self).2 sel
    with ⟨_ | o, w1, sel1⟩
  · rw [hloop] at h
    cases block with
    | false => simp at h
    | true =>
      simp only [Bool.not_true, Bool.false_eq_true, if_false]
      have hw1 : ∀ off, off ∈ sel.send_data_ → off ∈ (w1.ctxs self).send_data_ := by
        intro off hoff
        obtain ⟨hpos, hin⟩ := hmem off hoff
        have hnone := selector.select_poll_loop_none self _ _ _ _ sel (hs.2.2 hpos)
          (by rw [hloop])
        rw [hloop] at hnone
        simp only [Prod.mk.injEq] at hnone
        rw [hnone.1.1]
        exact hin
      obtain ⟨_, _, h3, h4⟩ := context.add_to_all_channels_loop_mem self c
        (w1.ctxs self).send_data_ w1
      exact ⟨fun hm => h3 (hw1 _ hm), fun v hm => h4 v (hw1 _ hm)⟩
  · rw [hloop] at h hnp
    simp only at h
    subst h
    exact absurd rfl hnp

/-- C19 (as amended): in every state reached from freshly constructed channels
by a run of calls of send, recv and close and of resumptions of their waits,
no channel has both its `sendq_` and its `recvq_` non-empty; and a thread
parked by a blocking `select` is in `recvq_` of every channel on which the
selector offers a recv and in `sendq_` of every channel on which it offers a
send, hence in both queues of a channel offered in both directions. -/
theorem C19_queues_exclusive_without_select [Inhabited T] :
    (∀ (cap : ChanId → Nat) (rnd : Nat → Nat) (acts : List (Action T)) (s : Sys T),
      (∀ a, a ∈ acts → a.channel_op = true) → Sys.run acts (Sys.init cap rnd) = some s →
      ∀ c, (s.w.chans c).sendq_ = [] ∨ (s.w.chans c).recvq_ = []) ∧
    (∀ (w : World T) (sel : selector T) (self : CtxId),
      (selector.select w sel self true).1 = .parked →
      ∀ c, ((some c, none) ∈ sel.send_data_ →
          self ∈ ((selector.select w sel self true).2.1.chans c).recvq_) ∧
        (∀ v, (some c, some v) ∈ sel.send_data_ →
          self ∈ ((selector.select w sel self true).2.1.chans c).sendq_)) := by
  refine ⟨fun cap rnd acts s hops hrun c => ?_, fun w sel self h c =>
    selector.select_parked_registered w sel self true h c⟩
  have hinit := Sys.init_inv (T := T) cap rnd
  have h := (Sys.run_inv cap acts _ s (fun _ => []) hinit.1 hinit.2 hops hrun).2 c
  by_cases hr : (s.w.chans c).recvq_ = []
  · exact Or.inr hr
  · exact Or.inl (h.excl hr).1

/-- C19 (as amended), on channel 0 at the end of the run of
`scenario_two_channels`, and on a blocking `select` of thread 1 offering
`send(c, 1)` and `recv(c)` on the fresh unbuffered channel `c = 0`. -/
theorem C19_queues_exclusive_without_select_witness :
    ((scenario_two_channels.w.chans 0).sendq_ = [] ∨
      (scenario_two_channels.w.chans 0).recvq_ = []) ∧
    (1 ∈ ((selector.select (World.fresh (fun _ => 0) (fun _ => 0))
        ((selector.init.send 0 (1 : Int)).recv 0) 1 true).2.1.chans 0).recvq_ ∧
      1 ∈ ((selector.select (World.fresh (fun _ => 0) (fun _ => 0))
        ((selector.init.send 0 (1 : Int)).recv 0) 1 true).2.1.chans 0).sendq_) :=
  ⟨C19_queues_exclusive_without_select.1 scenario_two_channels_cap (fun _ => 0)
      scenario_two_channels_actions scenario_two_channels (by decide)
      scenario_two_channels_run 0,
    ⟨(C19_queues_exclusive_without_select.2 (World.fresh (fun _ => 0) (fun _ => 0))
        ((selector.init.send 0 (1 : Int)).recv 0) 1 (by decide) 0).1 (by decide),
      (C19_queues_exclusive_without_select.2 (World.fresh (fun _ => 0) (fun _ => 0))
        ((selector.init.send 0 (1 : Int)).recv 0) 1 (by decide) 0).2 1 (by decide)⟩⟩

/-! ## Non-blocking calls and the unlocked test -/

/-- Without interference between the test and the lock, `recv_interleaved` is
`recv`. -/
theorem channel.recv_interleaved_same [Inhabited T] (w : World T) (c : ChanId) (self : CtxId)
    (block : Bool) : channel.recv_interleaved w w c self block = channel.recv w c self block :=
  rfl

/-- C23 (the code departs from the claim): `recv(false)` evaluates its test
before it takes the mutex and `receive` does not test `block` again. Thread 1
calls `recv(false)` on a channel of capacity 1 that holds one value, so the
test does not make it return; thread 3 takes the value; thread 1 then enters
`receive` on the empty channel, appends its context to `recvq_` and waits.
Called in one piece in that empty state, `recv(false)` returns
`(default, false)`; and `send(v, false)` never parks, in any state. -/
theorem C23_nonblocking_recv_parks_after_unlocked_test :
    channel.recv_fast_path scenario_one_buffered 0 false = false ∧
    scenario_one_buffered_taken.1 = .ret (1, true) ∧
    (scenario_one_buffered_taken.2.chans 0).recvq_ = [] ∧
    scenario_nonblocking_recv_late.1 = .parked ∧
    (scenario_nonblocking_recv_late.2.chans 0).recvq_ = [1] ∧
    (scenario_nonblocking_recv_late.2.ctxs 1).send_data_ = [(some 0, none)] ∧
    (channel.recv scenario_one_buffered_taken.2 0 1 false).1 = .ret (0, false) ∧
    (∀ (w : World Int) (c : ChanId) (self : CtxId) (v : Int),
      (channel.send w c self v false).1 ≠ .parked ∧
      (channel.dispatch w c self v false).1 ≠ .parked ∧
      (channel.recv w c self false).1 ≠ .parked) :=
  ⟨by decide, by decide, by decide, by decide, by decide, by decide, by decide,
    fun w c self v => ⟨channel.send_nonblocking_not_parked w c self v,
      channel.dispatch_nonblocking_not_parked w c self v,
      channel.recv_nonblocking_not_parked w c self⟩⟩

/-! ## stop and run -/

/-- The assignments at the head of `run()` erase a stop request made before. -/
theorem scheduler.run_forgets_stop (s : scheduler) (drain : Bool) (now : Nat) :
    (s.stop drain).run now = s.run now := by
  cases drain <;> rfl

/-- A driver inside `run()` that finds `stop_requested_` set, after a wait on
a non-empty map or after a task, returns without taking a task. -/
theorem scheduler.run_stops_inside (s : scheduler) (t now : Nat) :
    (s.stop false).run_wake_until t now =
      .returned { s with stop_requested_ := true, nthreads_ := s.nthreads_ - 1 } ∧
    (s.stop false).run_head now =
      .returned { s with stop_requested_ := true, nthreads_ := s.nthreads_ - 1 } ∧
    (s.tasks_ ≠ [] → (s.stop false).run_wake_empty now =
      .returned { s with stop_requested_ := true, nthreads_ := s.nthreads_ - 1 }) := by
  refine ⟨?_, ?_, ?_⟩
  · simp [scheduler.stop, scheduler.run_wake_until, scheduler.run_timed, scheduler.run_take,
      scheduler.run_resolve]
  · simp [scheduler.stop, scheduler.run_head, scheduler.run_outer, scheduler.run_resolve]
  · intro h
    cases hq : s.tasks_ with
    | nil => exact absurd hq h
    | cons e rest =>
      simp [scheduler.stop, scheduler.run_wake_empty, scheduler.run_inner, scheduler.run_timed,
        scheduler.run_take, scheduler.run_resolve, hq]

/-- C25 (the code departs from the claim): `run()` begins with
`stop_requested_ = false`, so a driver that enters `run()` after
`stop(false)` runs as if stop had not been called. For a ticker stopped before
its driver thread has entered `run()`, the driver waits for the first deadline
and goes on executing the periodic task. A driver that is already inside
`run()`, waiting for a deadline or back from a task, does return without
taking a task. -/
theorem C25_stop_before_run_is_lost :
    (∀ (s : scheduler) (now : Nat), (s.stop false).run now = s.run now) ∧
    scenario_ticker_stopped_early.stop_requested_ = true ∧
    scenario_ticker_stopped_early.tasks_ = [(5, .bind_repeat (.call 0) 5)] ∧
    scenario_ticker_stopped_early.run 0 =
      .wait_until 5 (scheduler.mk [(5, .bind_repeat (.call 0) 5)] 1 false false) ∧
    scheduler.drive (fun _ => 0) 4 (scenario_ticker_stopped_early.run 0) 0 [] =
      (.wait_until 15 (scheduler.mk [(15, .bind_repeat (.call 0) 5)] 1 false false), 10,
        [(5, .bind_repeat (.call 0) 5), (10, .bind_repeat (.call 0) 5)]) ∧
    (∀ (s : scheduler) (t now : Nat),
      (s.stop false).run_wake_until t now =
        .returned { s with stop_requested_ := true, nthreads_ := s.nthreads_ - 1 } ∧
      (s.stop false).run_head now =
        .returned { s with stop_requested_ := true, nthreads_ := s.nthreads_ - 1 }) :=
  ⟨fun s now => scheduler.run_forgets_stop s false now, by decide, by decide, by decide,
    by decide, fun s t now => ⟨(scheduler.run_stops_inside s t now).1,
      (scheduler.run_stops_inside s t now).2.1⟩⟩

/-! ## Order of the polling pass -/

theorem cyclic_shift (size i k : Nat) : ((i + 1) % size + k) % size = (i + (k + 1)) % size := by
  rw [Nat.mod_add_mod]; congr 1; omega

/-- A cyclic scan of `size` steps meets no index twice. -/
theorem cyclic_inj (size r j k : Nat) (hj : j < size) (hk : k < size)
    (h : (r + j) % size = (r + k) % size) : j = k := by
  have h1 : j % size = k % size := Nat.ModEq.add_left_cancel' r h
  rwa [Nat.mod_eq_of_lt hj, Nat.mod_eq_of_lt hk] at h1

/-- A polling loop that returns an index returns the first index, in the
cyclic order from its start, whose offer succeeds: every offer met before has
failed, and the offer at the index has been performed. -/
theorem selector.select_poll_loop_first [Inhabited T] (self : CtxId) (size : Nat) :
    ∀ (n i : Nat) (w : World T) (sel : selector T) (m : Int), i < size →
    (selector.select_poll_loop self size n i w sel).1 = some (.ret m) →
    ∃ k, k < n ∧ m = (((i + k) % size : Nat) : Int) ∧
      (∃ c d, (w.ctxs self).send_data_[(i + k) % size]? = some (some c, d) ∧
        OfferPerformed w self c sel (selector.select_poll_loop self size n i w sel).2.1
          (selector.select_poll_loop self size n i w sel).2.2 d) ∧
      ∀ j, j < k → ∀ c d, (w.ctxs self).send_data_[(i + j) % size]? = some (some c, d) →
        OfferFails w self c d
  | 0, _, _, _, _, _, h => by simp [selector.select_poll_loop] at h
  | n + 1, i, w, sel, m, hi, h => by
    have hsize : 0 < size := by omega
    have hnext := cyclic_next size i hi
    have hi0 : (i + 0) % size = i := by rw [Nat.add_zero, Nat.mod_eq_of_lt hi]
    have lift : ∀ (hfail : ∀ c d, (w.ctxs self).send_data_[i]? = some (some c, d) →
          OfferFails w self c d),
        (selector.select_poll_loop self size n ((i + 1) % size) w sel).1 = some (.ret m) →
        ∃ k, k < n + 1 ∧ m = (((i + k) % size : Nat) : Int) ∧
          (∃ c d, (w.ctxs self).send_data_[(i + k) % size]? = some (some c, d) ∧
            OfferPerformed w self c sel
              (selector.select_poll_loop self size n ((i + 1) % size) w sel).2.1
              (selector.select_poll_loop self size n ((i + 1) % size) w sel).2.2 d) ∧
          ∀ j, j < k → ∀ c d, (w.ctxs self).send_data_[(i + j) % size]? = some (some c, d) →
            OfferFails w self c d := by
      intro hfail h'
      obtain ⟨k, hk, hm, hperf, hbefore⟩ := selector.select_poll_loop_first self size n
        ((i + 1) % size) w sel m (Nat.mod_lt _ hsize) h'
      rw [cyclic_shift] at hm hperf
      refine ⟨k + 1, by omega, hm, hperf, fun j hj c d hoff => ?_⟩
      cases j with
      | zero => rw [hi0] at hoff; exact hfail c d hoff
      | succ j => exact hbefore j (by omega) c d (by rw [cyclic_shift]; exact hoff)
    cases hget : (w.ctxs self).send_data_[i]? with
    | none => simp [selector.select_poll_loop, hget] at h
    | some off =>
      rcases off with ⟨_ | ch, _ | data⟩
      · simp only [selector.select_poll_loop, hget, hnext] at h ⊢
        exact lift (fun c d hoff => by rw [hget] at hoff; simp at hoff) h
      · simp only [selector.select_poll_loop, hget, hnext] at h ⊢
        exact lift (fun c d hoff => by rw [hget] at hoff; simp at hoff) h
      · rcases hpk : channel.peek w ch self with ⟨o, w1⟩
        rcases o with (_ | v) | f | _
        · obtain ⟨hw, hfail⟩ := channel.peek_none w ch self w1 hpk
          subst hw
          simp only [selector.select_poll_loop, hget, hnext, hpk] at h ⊢
          refine lift (fun c d hoff => ?_) h
          rw [hget] at hoff
          simp only [Option.some.injEq, Prod.mk.injEq] at hoff
          obtain ⟨hc, hd⟩ := hoff
          subst hc hd
          exact hfail
        · obtain ⟨hr, hw⟩ := channel.peek_some w ch self v w1 hpk
          simp only [selector.select_poll_loop, hget, hpk, Option.some.injEq,
            Outcome.ret.injEq] at h ⊢
          refine ⟨0, by omega, by rw [hi0]; exact h.symm, ⟨ch, none, by rw [hi0]; exact hget,
            v, hr, by rw [hw], rfl⟩, fun j hj => by omega⟩
        · simp [selector.select_poll_loop, hget, hpk] at h
        · simp [selector.select_poll_loop, hget, hpk] at h
      · rcases hpk : channel.poke w ch self data with ⟨o, w1⟩
        rcases o with (_ | _) | f | _
        · obtain ⟨hw, hfail⟩ := channel.poke_false w ch self data w1 hpk
          subst hw
          simp only [selector.select_poll_loop, hget, hnext, hpk] at h ⊢
          refine lift (fun c d hoff => ?_) h
          rw [hget] at hoff
          simp only [Option.some.injEq, Prod.mk.injEq] at hoff
          obtain ⟨hc, hd⟩ := hoff
          subst hc hd
          exact hfail
        · simp only [selector.select_poll_loop, hget, hpk, Option.some.injEq,
            Outcome.ret.injEq] at h ⊢
          have hs : channel.send w ch self data false = (.ret true, w1) := hpk
          refine ⟨0, by omega, by rw [hi0]; exact h.symm, ⟨ch, some data,
            by rw [hi0]; exact hget, by rw [hs], by rw [hs], rfl⟩, fun j hj => by omega⟩
        · simp [selector.select_poll_loop, hget, hpk] at h
        · simp [selector.select_poll_loop, hget, hpk] at h

/-- A polling loop whose first offer is ready returns its index. -/
theorem selector.select_poll_loop_ready [Inhabited T] (self : CtxId) (size n i : Nat)
    (w : World T) (sel : selector T) (c : ChanId) (d : Option T)
    (hget : (w.ctxs self).send_data_[i]? = some (some c, d)) (hready : OfferReady w self c d) :
    (selector.select_poll_loop self size (n + 1) i w sel).1 = some (.ret (i : Int)) := by
  cases d with
  | none =>
    obtain ⟨v, hv⟩ := hready
    have hpk : channel.peek w c self = (.ret (some v), (channel.recv w c self false).2) := by
      unfold channel.peek
      rcases hrecv : channel.recv w c self false with ⟨o, w1⟩
      rw [hrecv] at hv
      simp only at hv
      subst hv
      rfl
    simp [selector.select_poll_loop, hget, hpk]
  | some x =>
    have hpk : channel.poke w c self x = (.ret true, (channel.send w c self x false).2) := by
      unfold channel.poke
      rcases hsend : channel.send w c self x false with ⟨o, w1⟩
      have hv : (channel.send w c self x false).1 = .ret true := hready
      rw [hsend] at hv
      simp only at hv
      subst hv
      rfl
    simp [selector.select_poll_loop, hget, hpk]

theorem selector.select_install_rand (self : CtxId) : ∀ (offs : List (Offer T)) (w : World T),
    (selector.select_install self offs w).rand = w.rand
  | [], _ => rfl
  | sd :: rest, w => by
    simp only [selector.select_install]
    rw [selector.select_install_rand self rest]
    rfl

/-- The polling pass of a `select` called with a context that holds no
offers, over the `N ≥ 1` offers of the selector, started at the index `r < N`
in the heap in which the offers are installed. If it returns an
index, that index is `(r + k) mod N` for some `k < N`, its offer has been
performed, and the offers at `r, r + 1, ..., r + k - 1` (mod `N`) have each
been attempted and have failed; the indices `(r + k) mod N`, `k < N`, are
distinct, so no offer is attempted twice. If the offer at `r` is ready the
pass returns `r`; `select` draws `r = rand() mod N` and then returns that
index. When all offers are ready, each index `k` is returned for exactly one
start index among `0, ..., N - 1`. -/
theorem selector.select_polling_order [Inhabited T] (w : World T) (sel : selector T) (self : CtxId)
    (hfresh : (w.ctxs self).send_data_ = []) (hN : 1 ≤ sel.send_data_.length) :
    (∀ (r : Nat) (m : Int), r < sel.send_data_.length →
      (selector.select_poll_loop self sel.send_data_.length sel.send_data_.length r
        (selector.select_polled w sel self) sel).1 = some (.ret m) →
      ∃ k, k < sel.send_data_.length ∧ m = (((r + k) % sel.send_data_.length : Nat) : Int) ∧
        (∃ c d, sel.send_data_[(r + k) % sel.send_data_.length]? = some (some c, d) ∧
          OfferPerformed (selector.select_polled w sel self) self c sel
            (selector.select_poll_loop self sel.send_data_.length sel.send_data_.length r
              (selector.select_polled w sel self) sel).2.1
            (selector.select_poll_loop self sel.send_data_.length sel.send_data_.length r
              (selector.select_polled w sel self) sel).2.2 d) ∧
        ∀ j, j < k → ∀ c d,
          sel.send_data_[(r + j) % sel.send_data_.length]? = some (some c, d) →
          OfferFails (selector.select_polled w sel self) self c d) ∧
    (∀ r j k : Nat, j < sel.send_data_.length → k < sel.send_data_.length →
      (r + j) % sel.send_data_.length = (r + k) % sel.send_data_.length → j = k) ∧
    (∀ (r : Nat) (c : ChanId) (d : Option T), sel.send_data_[r]? = some (some c, d) →
      OfferReady (selector.select_polled w sel self) self c d →
      (selector.select_poll_loop self sel.send_data_.length sel.send_data_.length r
        (selector.select_polled w sel self) sel).1 = some (.ret (r : Int))) ∧
    (∀ (block : Bool) (c : ChanId) (d : Option T),
      sel.send_data_[w.rand 0 % sel.send_data_.length]? = some (some c, d) →
      OfferReady (selector.select_polled w sel self) self c d →
      (selector.select w sel self block).1 =
        .ret ((w.rand 0 % sel.send_data_.length : Nat) : Int)) ∧
    ((∀ k, k < sel.send_data_.length → ∃ c d, sel.send_data_[k]? = some (some c, d) ∧
        OfferReady (selector.select_polled w sel self) self c d) →
      ∀ k, k < sel.send_data_.length →
        (List.range sel.send_data_.length).countP (fun r => decide
          ((selector.select_poll_loop self sel.send_data_.length sel.send_data_.length r
            (selector.select_polled w sel self) sel).1 = some (.ret (k : Int)))) = 1) := by
  obtain ⟨hch, hoffs⟩ := selector.select_polled_spec w sel self hfresh
  have hlen : ((selector.select_install self sel.send_data_ w).ctxs self).send_data_ =
      sel.send_data_ := by
    rw [(selector.select_install_spec self sel.send_data_ w).2, hfresh]; rfl
  obtain ⟨n, hn⟩ : ∃ n, sel.send_data_.length = n + 1 := ⟨sel.send_data_.length - 1, by omega⟩
  have hready : ∀ (r : Nat) (c : ChanId) (d : Option T),
      sel.send_data_[r]? = some (some c, d) →
      OfferReady (selector.select_polled w sel self) self c d →
      (selector.select_poll_loop self sel.send_data_.length sel.send_data_.length r
        (selector.select_polled w sel self) sel).1 = some (.ret (r : Int)) := by
    intro r c d hget hr
    have := selector.select_poll_loop_ready self sel.send_data_.length n r
      (selector.select_polled w sel self) sel c d (by rw [hoffs]; exact hget) hr
    rw [← hn] at this
    exact this
  refine ⟨fun r m hr h => ?_, fun r j k hj hk h => cyclic_inj _ r j k hj hk h, hready,
    fun block c d hget hr => ?_, fun hall k hk => ?_⟩
  · obtain ⟨k, hk, hm, ⟨c, d, hget, hperf⟩, hbefore⟩ := selector.select_poll_loop_first self
      sel.send_data_.length sel.send_data_.length r (selector.select_polled w sel self) sel m
      hr h
    rw [hoffs] at hget hbefore
    exact ⟨k, hk, hm, ⟨c, d, hget, hperf⟩, hbefore⟩
  · have hstart : (selector.select_start (selector.select_install self sel.send_data_ w)
        self).1 = w.rand 0 % sel.send_data_.length := by
      simp only [selector.select_start, hlen]
      rw [if_neg (by omega)]
      simp only [std_rand, selector.select_install_rand]
    have hl := hready _ c d hget hr
    rcases hloop : selector.select_poll_loop self sel.send_data_.length sel.send_data_.length
      (w.rand 0 % sel.send_data_.length) (selector.select_polled w sel self) sel
      with ⟨o, w1, sel1⟩
    rw [hloop] at hl
    simp only at hl
    subst hl
    have hpoll : selector.select_poll (selector.select_install self sel.send_data_ w) sel self =
        (some (.ret ((w.rand 0 % sel.send_data_.length : Nat) : Int)), w1, sel1) := by
      simp only [selector.select_poll, hlen, hstart]
      exact hloop
    simp only [selector.select, selector.select_round, hpoll]
  · have hall' : ∀ r, r < sel.send_data_.length →
        (selector.select_poll_loop self sel.send_data_.length sel.send_data_.length r
          (selector.select_polled w sel self) sel).1 = some (.ret (r : Int)) := by
      intro r hr
      obtain ⟨c, d, hget, hrd⟩ := hall r hr
      exact hready r c d hget hrd
    have hcongr : (List.range sel.send_data_.length).countP (fun r => decide
          ((selector.select_poll_loop self sel.send_data_.length sel.send_data_.length r
            (selector.select_polled w sel self) sel).1 = some (.ret (k : Int)))) =
        (List.range sel.send_data_.length).countP (fun r => r == k) := by
      apply List.countP_congr
      intro r hr
      rw [hall' r (List.mem_range.mp hr)]
      simp
    rw [hcongr]
    have : (List.range sel.send_data_.length).count k = 1 :=
      List.count_eq_one_of_mem (List.nodup_range _) (List.mem_range.mpr hk)
    simpa [List.count] using this

/-- On two ready channels with `rand() = 1`, `select` returns index 1, and
started at 0 the polling pass returns index 0. -/
theorem selector.select_polling_order_example :
    (selector.select scenario_two_ready scenario_selector 1 true).1 = .ret 1 ∧
    (selector.select_poll_loop 1 2 2 0 (selector.select_polled scenario_two_ready
      scenario_selector 1) scenario_selector).1 = some (.ret 0) :=
  ⟨(selector.select_polling_order scenario_two_ready scenario_selector 1 (by decide)
        (by decide)).2.2.2.1
      true 1 none (by decide) ⟨11, by decide⟩,
    (selector.select_polling_order scenario_two_ready scenario_selector 1 (by decide)
        (by decide)).2.2.1
      0 0 none (by decide) ⟨10, by decide⟩⟩

/-! ## Periodic tasks -/

theorem context.unblocked_sender_body_eq (self : CtxId) (chan : ChanId) (i : Nat)
    (s : Scan T) :
    context.unblocked_sender_body self chan i s =
      context.unblocked_body true self chan none i s := by
  unfold context.unblocked_sender_body context.unblocked_body
  split
  · rfl
  · rename_i ch second heq
    cases second <;> simp

theorem context.unblocked_receiver_body_eq (self : CtxId) (chan : ChanId) (data : Option T)
    (i : Nat) (s : Scan T) :
    context.unblocked_receiver_body self chan data i s =
      context.unblocked_body false self chan data i s := by
  unfold context.unblocked_receiver_body context.unblocked_body
  split
  · rfl
  · rename_i ch second heq
    cases second <;> simp

theorem context.unblocked_sender_loop_fold (self : CtxId) (chan : ChanId) (size : Nat) :
    ∀ (n i : Nat) (s : Scan T), i < size →
    context.unblocked_sender_loop self chan size n i s =
      context.unblocked_fold true self chan none
        ((List.range n).map (fun k => (i + k) % size)) s
  | 0, _, _, _ => rfl
  | n + 1, i, s, hi => by
    have hsize : 0 < size := by omega
    simp only [context.unblocked_sender_loop, cyclic_next size i hi]
    rw [context.unblocked_sender_loop_fold self chan size n _ _ (Nat.mod_lt _ hsize),
      List.range_succ_eq_map]
    simp only [context.unblocked_fold, List.map_cons, List.map_map, List.foldl_cons,
      Nat.add_zero, Nat.mod_eq_of_lt hi, context.unblocked_sender_body_eq]
    congr 2
    funext k
    simp only [Function.comp, cyclic_shift]

theorem context.unblocked_receiver_loop_fold (self : CtxId) (chan : ChanId) (data : Option T)
    (size : Nat) : ∀ (n i : Nat) (s : Scan T), i < size →
    context.unblocked_receiver_loop self chan data size n i s =
      context.unblocked_fold false self chan data
        ((List.range n).map (fun k => (i + k) % size)) s
  | 0, _, _, _ => rfl
  | n + 1, i, s, hi => by
    have hsize : 0 < size := by omega
    simp only [context.unblocked_receiver_loop, cyclic_next size i hi]
    rw [context.unblocked_receiver_loop_fold self chan data size n _ _ (Nat.mod_lt _ hsize),
      List.range_succ_eq_map]
    simp only [context.unblocked_fold, List.map_cons, List.map_map, List.foldl_cons,
      Nat.add_zero, Nat.mod_eq_of_lt hi, context.unblocked_receiver_body_eq]
    congr 2
    funext k
    simp only [Function.comp, cyclic_shift]

theorem channel.remove_receiver_queue_count (w : World T) (ch d : ChanId) (x : CtxId)
    (b : Bool) :
    (channel.queue b ((channel.remove_receiver w ch x).2.chans d)).count x =
      (channel.queue b (w.chans d)).count x - (if d = ch ∧ b = false then 1 else 0) := by
  unfold channel.remove_receiver
  simp only []
  split
  · by_cases hd : d = ch
    · subst hd
      cases b <;> simp [channel.queue, List.count_erase_self]
    · simp [World.setChan_chans_other _ _ _ _ hd, hd]
  · rename_i hmem
    by_cases hd : d = ch
    · subst hd
      cases b
      · simp [channel.queue, List.count_eq_zero_of_not_mem hmem]
      · simp
    · simp [hd]

theorem channel.remove_sender_queue_count (w : World T) (ch d : ChanId) (x : CtxId)
    (b : Bool) :
    (channel.queue b ((channel.remove_sender w ch x).2.chans d)).count x =
      (channel.queue b (w.chans d)).count x - (if d = ch ∧ b = true then 1 else 0) := by
  unfold channel.remove_sender
  simp only []
  split
  · by_cases hd : d = ch
    · subst hd
      cases b <;> simp [channel.queue, List.count_erase_self]
    · simp [World.setChan_chans_other _ _ _ _ hd, hd]
  · rename_i hmem
    by_cases hd : d = ch
    · subst hd
      cases b
      · simp
      · simp [channel.queue, List.count_eq_zero_of_not_mem hmem]
    · simp [hd]

theorem scan_step_keep (p : Nat → Bool) (vis : List Nat) (i : Nat)
    (h : vis.any p = true ∨ p i = false) :
    (vis ++ [i]).any p = vis.any p ∧ (vis ++ [i]).find? p = vis.find? p := by
  rcases h with h | h
  · refine ⟨by simp [List.any_append, h], ?_⟩
    rw [List.find?_append]
    obtain ⟨a, ha, hpa⟩ := List.any_eq_true.mp h
    cases hf : vis.find? p with
    | none => exact absurd hpa (by simpa using (List.find?_eq_none.mp hf) a ha)
    | some j => rfl
  · refine ⟨by simp [List.any_append, h], ?_⟩
    rw [List.find?_append]
    simp [List.find?, h]

theorem scan_step_commit (p : Nat → Bool) (vis : List Nat) (i : Nat)
    (h1 : vis.any p = false) (h2 : p i = true) :
    (vis ++ [i]).any p = true ∧ (vis ++ [i]).find? p = some i := by
  refine ⟨by simp [List.any_append, h2], ?_⟩
  rw [List.find?_append]
  have : vis.find? p = none := by
    rw [List.find?_eq_none]
    intro a ha hpa
    have : vis.any p = true := List.any_eq_true.mpr ⟨a, ha, hpa⟩
    rw [h1] at this
    exact absurd this (by simp)
  simp [this, List.find?, h2]

theorem scan_found_count (p : Nat → Bool) (vis : List Nat) (h : vis.any p = true) :
    1 ≤ vis.countP p := by
  obtain ⟨a, ha, hpa⟩ := List.any_eq_true.mp h
  exact List.countP_pos_iff.mpr ⟨a, ha, hpa⟩

theorem Offer.is_null (d : ChanId) (b : Bool) (second : Option T) :
    Offer.is d b ((none, second) : Offer T) = false := by
  simp [Offer.is]

theorem Offer.is_some (d ch : ChanId) (b : Bool) (second : Option T) :
    Offer.is d b ((some ch, second) : Offer T) = (decide (ch = d) && (second.isSome == b)) := by
  by_cases h : ch = d <;> simp [Offer.is, h]

theorem scan_count_step (a K c e δ : Nat) (hc : c ≤ K) (hδ : δ = e) :
    (a - (K - c)) - δ = a - (K + e - c) := by
  omega

theorem scan_count_commit (a K e c : Nat) (h : e = c) : a - (K - 0) = a - (K + e - c) := by
  omega

theorem scan_count_one (p : Nat → Bool) (i : Nat) :
    [i].countP p = if p i = true then 1 else 0 := by
  simp [List.countP_cons]

theorem ScanInv.at_start (send : Bool) (x : CtxId) (chan : ChanId) (data : Option T)
    (w : World T) : ScanInv send x chan data w [] { w := w, data := none, found := false } :=
  ⟨CommitFrame.of_same_world _ _, rfl, by simp, by simp, fun _ => rfl, by simp, by simp⟩

theorem ScanInv.step (send : Bool) (x : CtxId) (chan : ChanId) (data : Option T)
    (w0 : World T) (vis : List Nat) (i : Nat) (s : Scan T)
    (h : ScanInv send x chan data w0 vis s) :
    ScanInv send x chan data w0 (vis ++ [i]) (context.unblocked_body send x chan data i s) := by
  have hoffs : (s.w.ctxs x).send_data_ = (w0.ctxs x).send_data_ := h.frame.offers
  have hK : ∀ d b, d = chan ∧ b = send ∧ s.found = true →
      1 ≤ vis.countP (fun j => Offer.is d b ((w0.ctxs x).send_data_.getD j (none, none))) := by
    rintro d b ⟨hd, hb, hf⟩
    subst hd hb
    exact scan_found_count _ vis (by rw [← h.found]; exact hf)
  unfold context.unblocked_body
  rw [hoffs]
  rcases hget : (w0.ctxs x).send_data_.getD i (none, none) with ⟨_ | ch, second⟩
  · -- no channel in the entry
    simp only []
    obtain ⟨hany, hfind⟩ := scan_step_keep
      (fun j => Offer.is chan send ((w0.ctxs x).send_data_.getD j (none, none))) vis i
      (.inr (by simp only [hget, Offer.is_null]))
    refine ⟨h.frame, by rw [hany]; exact h.found, by rw [hfind]; exact h.index,
      by rw [hfind]; exact h.data_send, h.data_keep, by rw [hfind]; exact h.data_recv,
      fun d b => ?_⟩
    rw [h.queues d b, List.countP_append, scan_count_one]
    simp only [hget, Offer.is_null, Bool.false_eq_true, if_false, Nat.add_zero]
  · simp only []
    by_cases hc : ch = chan ∧ second.isSome = send ∧ s.found = false
    · -- the offer is committed
      obtain ⟨hch, hsec, hf⟩ := hc
      subst hch
      have hP : Offer.is ch send ((w0.ctxs x).send_data_.getD i (none, none)) = true := by
        rw [hget, Offer.is_some]; simp [hsec]
      obtain ⟨hany, hfind⟩ := scan_step_commit
        (fun j => Offer.is ch send ((w0.ctxs x).send_data_.getD j (none, none))) vis i
        (by rw [← h.found]; exact hf) hP
      have hq : ∀ (w' : World T) (fnd : Bool), w'.chans = s.w.chans → fnd = true →
          ∀ d b, (channel.queue b (w'.chans d)).count x =
            (channel.queue b (w0.chans d)).count x -
              ((vis ++ [i]).countP (fun j =>
                  Offer.is d b ((w0.ctxs x).send_data_.getD j (none, none))) -
                (if d = ch ∧ b = send ∧ fnd = true then 1 else 0)) := by
        intro w' fnd hw' hfnd d b
        rw [hw', h.queues d b, List.countP_append, hfnd, scan_count_one]
        have hc0 : (if d = ch ∧ b = send ∧ s.found = true then 1 else 0) = 0 := by
          rw [if_neg]; rintro ⟨_, _, h3⟩; rw [hf] at h3; exact absurd h3 (by simp)
        rw [hc0]
        apply scan_count_commit
        simp only [hget, Offer.is_some, hsec]
        by_cases hd : ch = d <;> by_cases hb : send = b
        · subst hd hb; simp
        · have hb' : ¬ b = send := fun e => hb e.symm
          simp [hd, hb, hb']
        · have hd' : ¬ d = ch := fun e => hd e.symm
          simp [hd, hd']
        · have hd' : ¬ d = ch := fun e => hd e.symm
          simp [hd, hd']
      simp only [true_and, hsec, hf, and_self, if_true]
      cases send with
      | true =>
        simp only [if_true]
        refine ⟨?_, by rw [hany], ?_, ?_, ?_, ?_, hq _ true rfl rfl⟩
        · refine ⟨h.frame.chans, fun y hy => ?_, ?_, ?_⟩
          · simp only [World.setCtx_ctxs_other _ _ _ _ hy]; exact h.frame.ctxs y hy
          · simp only [World.setCtx_ctxs_same]; exact h.frame.offers
          · simp only [World.setCtx_ctxs_same]; exact h.frame.count
        · intro j hj
          rw [hfind] at hj
          simp only [Option.some.injEq] at hj
          subst hj
          simp
        · intro _ j hj
          rw [hfind] at hj
          simp only [Option.some.injEq] at hj
          subst hj
          rw [hget]
        · intro _
          simp only [World.setCtx_ctxs_same]
          exact h.data_keep rfl
        · intro hcontra
          exact absurd hcontra (by simp)
      | false =>
        simp only [Bool.false_eq_true, if_false]
        refine ⟨?_, by rw [hany], ?_, ?_, ?_, ?_, hq _ true rfl rfl⟩
        · refine ⟨h.frame.chans, fun y hy => ?_, ?_, ?_⟩
          · simp only [World.setCtx_ctxs_other _ _ _ _ hy]; exact h.frame.ctxs y hy
          · simp only [World.setCtx_ctxs_same]; exact h.frame.offers
          · simp only [World.setCtx_ctxs_same]; exact h.frame.count
        · intro j hj
          rw [hfind] at hj
          simp only [Option.some.injEq] at hj
          subst hj
          simp
        · intro hcontra
          exact absurd hcontra (by simp)
        · intro hcontra
          exact absurd hcontra (by simp)
        · intro _ j _
          simp
    · -- the context is unregistered from the channel of the entry
      rw [if_neg hc]
      have hkeep : s.found = true ∨
          Offer.is chan send ((w0.ctxs x).send_data_.getD i (none, none)) = false := by
        cases hf : s.found with
        | true => exact .inl rfl
        | false =>
          right
          rw [hget, Offer.is_some]
          by_cases h1 : ch = chan
          · by_cases h2 : second.isSome = send
            · exact absurd ⟨h1, h2, hf⟩ hc
            · simp [h2]
          · simp [h1]
      obtain ⟨hany, hfind⟩ := scan_step_keep
        (fun j => Offer.is chan send ((w0.ctxs x).send_data_.getD j (none, none))) vis i
        (hkeep.imp (fun hf => by rw [← h.found]; exact hf) id)
      cases hsec : second with
      | none =>
        simp only [Option.isNone_none, if_true]
        refine ⟨h.frame.compose_frames (channel.remove_receiver_frame s.w ch x),
          by rw [hany]; exact h.found, ?_, by rw [hfind]; exact h.data_send, ?_,
          ?_, fun d b => ?_⟩
        · rw [hfind]; simpa using h.index
        · simpa using h.data_keep
        · rw [hfind]; simpa using h.data_recv
        · rw [channel.remove_receiver_queue_count, h.queues d b, List.countP_append,
            scan_count_one]
          apply scan_count_step
          · by_cases hfd : d = chan ∧ b = send ∧ s.found = true
            · rw [if_pos hfd]; exact hK d b hfd
            · rw [if_neg hfd]; omega
          · simp only [hget, Offer.is_some, Option.isSome_none]
            by_cases hd : ch = d
            · subst hd; cases b <;> simp [hsec]
            · have hd' : ¬ d = ch := fun e => hd e.symm
              simp [hd, hd']
      | some v =>
        simp only [Option.isNone_some, Bool.false_eq_true, if_false]
        refine ⟨h.frame.compose_frames (channel.remove_sender_frame s.w ch x),
          by rw [hany]; exact h.found, ?_, by rw [hfind]; exact h.data_send, ?_,
          ?_, fun d b => ?_⟩
        · rw [hfind]; simpa using h.index
        · simpa using h.data_keep
        · rw [hfind]; simpa using h.data_recv
        · rw [channel.remove_sender_queue_count, h.queues d b, List.countP_append,
            scan_count_one]
          apply scan_count_step
          · by_cases hfd : d = chan ∧ b = send ∧ s.found = true
            · rw [if_pos hfd]; exact hK d b hfd
            · rw [if_neg hfd]; omega
          · simp only [hget, Offer.is_some, Option.isSome_some]
            by_cases hd : ch = d
            · subst hd; cases b <;> simp [hsec]
            · have hd' : ¬ d = ch := fun e => hd e.symm
              simp [hd, hd']

theorem ScanInv.fold (send : Bool) (x : CtxId) (chan : ChanId) (data : Option T)
    (w0 : World T) : ∀ (more vis : List Nat) (s : Scan T),
    ScanInv send x chan data w0 vis s →
    ScanInv send x chan data w0 (vis ++ more) (context.unblocked_fold send x chan data more s)
  | [], vis, s, h => by simpa [context.unblocked_fold] using h
  | i :: more, vis, s, h => by
    have := ScanInv.fold send x chan data w0 more (vis ++ [i]) _
      (ScanInv.step send x chan data w0 vis i s h)
    simpa [context.unblocked_fold] using this

/-- The scan meets the indices of the list rotated by its start. -/
theorem scan_order_rotate (size r : Nat) : scan_order size r = (List.range size).rotate r := by
  apply List.ext_getElem
  · simp [scan_order]
  · intro k h1 h2
    simp only [scan_order, List.getElem_map, List.getElem_range, List.getElem_rotate,
      List.length_range]
    rw [Nat.add_comm]

theorem scan_order_perm (size r : Nat) : (scan_order size r).Perm (List.range size) := by
  rw [scan_order_rotate]
  exact List.rotate_perm _ _

theorem scan_order_mem (size r j : Nat) : j ∈ scan_order size r ↔ j < size := by
  rw [(scan_order_perm size r).mem_iff, List.mem_range]

theorem range_map_getD (offs : List (Offer T)) :
    (List.range offs.length).map (fun j => offs.getD j (none, none)) = offs := by
  apply List.ext_getElem
  · simp
  · intro k h1 h2
    simp [List.getD_eq_getElem?_getD, List.getElem?_eq_getElem h2]

/-- Over a whole scan, the entries met are the entries of the list. -/
theorem scan_order_countP (offs : List (Offer T)) (r : Nat) (p : Offer T → Bool) :
    (scan_order offs.length r).countP (fun j => p (offs.getD j (none, none))) =
      offs.countP p := by
  rw [(scan_order_perm offs.length r).countP_eq]
  conv_rhs => rw [← range_map_getD offs]
  rw [List.countP_map]
  rfl

theorem scan_order_any (offs : List (Offer T)) (r : Nat) (p : Offer T → Bool) :
    (scan_order offs.length r).any (fun j => p (offs.getD j (none, none))) = offs.any p := by
  rw [Bool.eq_iff_iff, List.any_eq_true, List.any_eq_true]
  constructor
  · rintro ⟨j, hj, hp⟩
    rw [scan_order_mem] at hj
    refine ⟨offs[j], List.getElem_mem _, ?_⟩
    simpa [List.getD_eq_getElem?_getD, List.getElem?_eq_getElem hj] using hp
  · rintro ⟨o, ho, hp⟩
    obtain ⟨j, hj, rfl⟩ := List.getElem_of_mem ho
    exact ⟨j, (scan_order_mem _ _ _).mpr hj,
      by simpa [List.getD_eq_getElem?_getD, List.getElem?_eq_getElem hj] using hp⟩

theorem find_range_map (f : Nat → Nat) (p : Nat → Bool) : ∀ (n j : Nat),
    ((List.range n).map f).find? p = some j →
    ∃ k, k < n ∧ j = f k ∧ p j = true ∧ ∀ k', k' < k → p (f k') = false
  | 0, j, h => by simp at h
  | n + 1, j, h => by
    rw [List.range_succ, List.map_append, List.find?_append] at h
    cases hf : ((List.range n).map f).find? p with
    | some j' =>
      rw [hf] at h
      change some j' = some j at h
      simp only [Option.some.injEq] at h
      subst h
      obtain ⟨k, hk, h1, h2, h3⟩ := find_range_map f p n j' hf
      exact ⟨k, by omega, h1, h2, h3⟩
    | none =>
      rw [hf] at h
      change List.find? p [f n] = some j at h
      have hall := List.find?_eq_none.mp hf
      cases hp : p (f n) with
      | false => simp [List.find?, hp] at h
      | true =>
        simp only [List.find?, hp, Option.some.injEq] at h
        subst h
        refine ⟨n, by omega, rfl, hp, fun k' hk' => ?_⟩
        have := hall (f k') (List.mem_map.mpr ⟨k', List.mem_range.mpr hk', rfl⟩)
        simpa using this

/-- The committed index: the first one in the cyclic order from the start
whose entry is an offer of the kind on `chan`. -/
theorem scan_first_spec (offs : List (Offer T)) (chan : ChanId) (send : Bool) (r j : Nat)
    (h : scan_first offs chan send r = some j) :
    ∃ k, k < offs.length ∧ j = (r + k) % offs.length ∧
      Offer.is chan send (offs.getD j (none, none)) = true ∧
      ∀ k', k' < k →
        Offer.is chan send (offs.getD ((r + k') % offs.length) (none, none)) = false :=
  find_range_map (fun k => (r + k) % offs.length)
    (fun j => Offer.is chan send (offs.getD j (none, none))) offs.length j h

theorem scan_first_isSome (offs : List (Offer T)) (chan : ChanId) (send : Bool) (r : Nat) :
    (scan_first offs chan send r).isSome = offs.any (Offer.is chan send) := by
  unfold scan_first
  rw [Bool.eq_iff_iff, List.find?_isSome, ← scan_order_any offs r (Offer.is chan send),
    List.any_eq_true]

theorem scan_first_lt (offs : List (Offer T)) (chan : ChanId) (send : Bool) (r j : Nat)
    (h : scan_first offs chan send r = some j) : j < offs.length := by
  obtain ⟨k, hk, hj, _⟩ := scan_first_spec offs chan send r j h
  rw [hj]
  exact Nat.mod_lt _ (by omega)

/-- With one offer of the kind the scan commits it, whatever its start. -/
theorem scan_first_unique (offs : List (Offer T)) (chan : ChanId) (send : Bool) (r j : Nat)
    (hj : j < offs.length) (hp : Offer.is chan send (offs.getD j (none, none)) = true)
    (huniq : ∀ i, i < offs.length → Offer.is chan send (offs.getD i (none, none)) = true → i = j) :
    scan_first offs chan send r = some j := by
  cases hf : scan_first offs chan send r with
  | none =>
    have h1 := scan_first_isSome offs chan send r
    rw [hf] at h1
    have h2 : offs.any (Offer.is chan send) = true := by
      rw [List.any_eq_true]
      exact ⟨offs[j], List.getElem_mem _, by
        simpa [List.getD_eq_getElem?_getD, List.getElem?_eq_getElem hj] using hp⟩
    rw [h2] at h1
    simp at h1
  | some i =>
    obtain ⟨k, hk, hi, hpi, _⟩ := scan_first_spec offs chan send r i hf
    rw [huniq i (scan_first_lt offs chan send r i hf) hpi]

theorem context.unblocked_sender_scan (w : World T) (self : CtxId) (chan : ChanId)
    (hne : (w.ctxs self).send_data_ ≠ []) :
    ∃ s : Scan T,
      ScanInv true self chan none (std_rand w).2
        (scan_order (w.ctxs self).send_data_.length
          (w.rand 0 % (w.ctxs self).send_data_.length)) s ∧
      context.unblocked_sender w self chan =
        (if s.found = false then (.error (.thrown .chanNotFoundInContext), s.w)
         else match s.data with
           | some d => (.ok d, s.w.setCtx self { s.w.ctxs self with send_data_ := [] })
           | none =>
             (.error .undefined, s.w.setCtx self { s.w.ctxs self with send_data_ := [] })) := by
  have hpos : 0 < (w.ctxs self).send_data_.length := List.length_pos.mpr hne
  refine ⟨context.unblocked_sender_loop self chan (w.ctxs self).send_data_.length
    (w.ctxs self).send_data_.length (w.rand 0 % (w.ctxs self).send_data_.length)
    { w := (std_rand w).2, data := none, found := false }, ?_, ?_⟩
  · rw [context.unblocked_sender_loop_fold self chan _ _ _ _ (Nat.mod_lt _ hpos)]
    have := ScanInv.fold true self chan none (std_rand w).2
      (scan_order (w.ctxs self).send_data_.length
        (w.rand 0 % (w.ctxs self).send_data_.length)) [] _
      (ScanInv.at_start true self chan none (std_rand w).2)
    simpa [scan_order] using this
  · simp only [context.unblocked_sender]
    rw [if_neg (by omega)]
    rfl

theorem context.unblocked_receiver_scan (w : World T) (self : CtxId) (chan : ChanId)
    (data : Option T) (hne : (w.ctxs self).send_data_ ≠ []) :
    ∃ s : Scan T,
      ScanInv false self chan data (std_rand w).2
        (scan_order (w.ctxs self).send_data_.length
          (w.rand 0 % (w.ctxs self).send_data_.length)) s ∧
      context.unblocked_receiver w self chan data =
        (if s.found = false then (.error (.thrown .chanNotFoundInContext), s.w)
         else (.ok (), s.w.setCtx self { s.w.ctxs self with send_data_ := [] })) := by
  have hpos : 0 < (w.ctxs self).send_data_.length := List.length_pos.mpr hne
  refine ⟨context.unblocked_receiver_loop self chan data (w.ctxs self).send_data_.length
    (w.ctxs self).send_data_.length (w.rand 0 % (w.ctxs self).send_data_.length)
    { w := (std_rand w).2, data := none, found := false }, ?_, ?_⟩
  · rw [context.unblocked_receiver_loop_fold self chan data _ _ _ _ (Nat.mod_lt _ hpos)]
    have := ScanInv.fold false self chan data (std_rand w).2
      (scan_order (w.ctxs self).send_data_.length
        (w.rand 0 % (w.ctxs self).send_data_.length)) [] _
      (ScanInv.at_start false self chan data (std_rand w).2)
    simpa [scan_order] using this
  · simp only [context.unblocked_receiver]
    rw [if_neg (by omega)]
    rfl

/-- The state at the end of a scan that has found its offer at index `j`,
once the offers list is emptied, is a commit. -/
theorem ScanInv.commit (send : Bool) (x : CtxId) (chan : ChanId) (data : Option T)
    (w : World T) (r j : Nat) (s : Scan T)
    (h : ScanInv send x chan data (std_rand w).2
      (scan_order (w.ctxs x).send_data_.length r) s)
    (hj : scan_first (w.ctxs x).send_data_ chan send r = some j) :
    s.found = true ∧
    Commit x chan send j w (s.w.setCtx x { s.w.ctxs x with send_data_ := [] }) := by
  have hfd := h.found
  have hidx := h.index
  have hcnt := h.frame.count
  have hctx := h.frame.ctxs
  have hchs := h.frame.chans
  have hqs := h.queues
  simp only [std_rand_ctxs, std_rand_chans] at hfd hidx hcnt hctx hchs hqs
  have hfound : s.found = true := by
    rw [hfd, scan_order_any (w.ctxs x).send_data_ r (Offer.is chan send)]
    have := scan_first_isSome (w.ctxs x).send_data_ chan send r
    rw [hj] at this
    exact this.symm
  refine ⟨hfound, ?_, ?_, ?_, fun y hy => ?_, fun d => ?_, fun d b => ?_⟩
  · simp only [World.setCtx_ctxs_same]
    exact hidx j hj
  · simp only [World.setCtx_ctxs_same]
  · simp only [World.setCtx_ctxs_same]
    exact hcnt
  · simp only [World.setCtx_ctxs_other _ _ _ _ hy]
    exact hctx y hy
  · simp only [World.setCtx_chans]
    exact hchs d
  · simp only [World.setCtx_chans]
    have := hqs d b
    rw [scan_order_countP (w.ctxs x).send_data_ r (Offer.is d b), hfound] at this
    simpa using this

theorem Offer.is_send_entry (chan : ChanId) (o : Offer T) (h : Offer.is chan true o = true) :
    ∃ d, o = (some chan, some d) := by
  rcases o with ⟨_ | ch, _ | d⟩ <;> simp [Offer.is] at h
  exact ⟨d, by rw [h]⟩

theorem Offer.is_recv_entry (chan : ChanId) (o : Offer T) (h : Offer.is chan false o = true) :
    o = (some chan, none) := by
  rcases o with ⟨_ | ch, _ | d⟩ <;> simp [Offer.is] at h
  rw [h]

theorem getD_getElem (offs : List (Offer T)) (j : Nat) (hj : j < offs.length) :
    offs[j]? = some (offs.getD j (none, none)) := by
  simp [List.getD_eq_getElem?_getD, List.getElem?_eq_getElem hj]

/-- `unblocked_sender(chan)` on a context whose scan meets a send offer on
`chan`: the first one met is committed and its value returned. -/
theorem context.unblocked_sender_commits (w : World T) (self : CtxId) (chan : ChanId) (j : Nat)
    (hj : scan_first (w.ctxs self).send_data_ chan true
      (w.rand 0 % (w.ctxs self).send_data_.length) = some j) :
    ∃ d, (w.ctxs self).send_data_[j]? = some (some chan, some d) ∧
      (context.unblocked_sender w self chan).1 = .ok d ∧
      Commit self chan true j w (context.unblocked_sender w self chan).2 ∧
      ((context.unblocked_sender w self chan).2.ctxs self).recv_data_ =
        (w.ctxs self).recv_data_ := by
  have hlt := scan_first_lt _ _ _ _ _ hj
  have hne : (w.ctxs self).send_data_ ≠ [] := List.length_pos.mp (by omega)
  obtain ⟨s, hinv, heq⟩ := context.unblocked_sender_scan w self chan hne
  obtain ⟨hfound, hcommit⟩ := hinv.commit true self chan none w _ j s hj
  obtain ⟨_, _, _, hp, _⟩ := scan_first_spec _ _ _ _ _ hj
  obtain ⟨d, hd⟩ := Offer.is_send_entry chan _ hp
  have hdata : s.data = some d := by
    have := hinv.data_send rfl j hj
    simp only [std_rand_ctxs] at this
    rw [this, hd]
  have hkeep := hinv.data_keep rfl
  simp only [std_rand_ctxs] at hkeep
  refine ⟨d, by rw [getD_getElem _ _ hlt, hd], ?_, ?_, ?_⟩
  · rw [heq]; simp [hfound, hdata]
  · rw [heq]; simpa [hfound, hdata] using hcommit
  · rw [heq]; simpa [hfound, hdata] using hkeep

/-- `unblocked_receiver(chan, data)` on a context whose scan meets a receive
offer on `chan`: the first one met is committed and `data` stored. -/
theorem context.unblocked_receiver_commits (w : World T) (self : CtxId) (chan : ChanId)
    (data : Option T) (j : Nat)
    (hj : scan_first (w.ctxs self).send_data_ chan false
      (w.rand 0 % (w.ctxs self).send_data_.length) = some j) :
    (w.ctxs self).send_data_[j]? = some (some chan, none) ∧
    (context.unblocked_receiver w self chan data).1 = .ok () ∧
    Commit self chan false j w (context.unblocked_receiver w self chan data).2 ∧
    ((context.unblocked_receiver w self chan data).2.ctxs self).recv_data_ = data := by
  have hlt := scan_first_lt _ _ _ _ _ hj
  have hne : (w.ctxs self).send_data_ ≠ [] := List.length_pos.mp (by omega)
  obtain ⟨s, hinv, heq⟩ := context.unblocked_receiver_scan w self chan data hne
  obtain ⟨hfound, hcommit⟩ := hinv.commit false self chan data w _ j s hj
  obtain ⟨_, _, _, hp, _⟩ := scan_first_spec _ _ _ _ _ hj
  have hd := Offer.is_recv_entry chan _ hp
  have hrecv := hinv.data_recv rfl j hj
  refine ⟨by rw [getD_getElem _ _ hlt, hd], ?_, ?_, ?_⟩
  · rw [heq]; simp [hfound]
  · rw [heq]; simpa [hfound] using hcommit
  · rw [heq]; simpa [hfound] using hrecv

/-- Without an offer of their kind on `chan` in a non-empty offers list, the
commit routines throw. -/
theorem context.unblocked_not_found (w : World T) (self : CtxId) (chan : ChanId)
    (hne : (w.ctxs self).send_data_ ≠ []) :
    (scan_first (w.ctxs self).send_data_ chan true
        (w.rand 0 % (w.ctxs self).send_data_.length) = none →
      (context.unblocked_sender w self chan).1 = .error (.thrown .chanNotFoundInContext)) ∧
    (∀ data, scan_first (w.ctxs self).send_data_ chan false
        (w.rand 0 % (w.ctxs self).send_data_.length) = none →
      (context.unblocked_receiver w self chan data).1 =
        .error (.thrown .chanNotFoundInContext)) := by
  constructor
  · intro hj
    obtain ⟨s, hinv, heq⟩ := context.unblocked_sender_scan w self chan hne
    have hf : s.found = false := by
      have := hinv.found
      simp only [std_rand_ctxs] at this
      rw [this, scan_order_any (w.ctxs self).send_data_ _ (Offer.is chan true),
        ← scan_first_isSome _ _ _ (w.rand 0 % (w.ctxs self).send_data_.length), hj]
      rfl
    rw [heq]; simp [hf]
  · intro data hj
    obtain ⟨s, hinv, heq⟩ := context.unblocked_receiver_scan w self chan data hne
    have hf : s.found = false := by
      have := hinv.found
      simp only [std_rand_ctxs] at this
      rw [this, scan_order_any (w.ctxs self).send_data_ _ (Offer.is chan false),
        ← scan_first_isSome _ _ _ (w.rand 0 % (w.ctxs self).send_data_.length), hj]
      rfl
    rw [heq]; simp [hf]

/-- After a commit the context is in no queue, when it had at most one queue
entry for each of its offers other than the committed one. -/
theorem Commit.unregistered {x : CtxId} {chan : ChanId} {send : Bool} {j : Nat}
    {w w' : World T} (h : Commit x chan send j w w')
    (hreg : ∀ d b, (channel.queue b (w.chans d)).count x ≤
      (w.ctxs x).send_data_.countP (Offer.is d b) - (if d = chan ∧ b = send then 1 else 0))
    (d : ChanId) : x ∉ (w'.chans d).recvq_ ∧ x ∉ (w'.chans d).sendq_ := by
  have h1 := h.queues d false
  have h2 := h.queues d true
  have r1 := hreg d false
  have r2 := hreg d true
  constructor
  · apply List.count_eq_zero.mp
    have : (channel.queue false (w'.chans d)).count x = 0 := by omega
    simpa [channel.queue] using this
  · apply List.count_eq_zero.mp
    have : (channel.queue true (w'.chans d)).count x = 0 := by omega
    simpa [channel.queue] using this

/-- C22 (as amended): on a context with a non-empty offers list, with
`r = rand() mod size` the start of the scan. If the list holds an offer of the
routine's kind on `chan`, the routine commits the first such offer in the
cyclic order `r, r + 1, ...` (the only one, when there is one; otherwise it
depends on `r`): `unblocked_index` is its index, `unblocked_sender` returns its
value and `unblocked_receiver` stores `value`; the offers list is emptied; and
the context loses one queue entry on the channel of each other offer, in
`recvq_` for a receive offer and in `sendq_` for a send offer, so that it is
in no queue afterwards when it was registered once per offer and the caller
had dequeued the committed entry. If the list holds no such offer the routine
throws "chan not found in context". -/
theorem C22_commit_routines (w : World T) (self : CtxId) (chan : ChanId)
    (hne : (w.ctxs self).send_data_ ≠ []) :
    (∀ j, scan_first (w.ctxs self).send_data_ chan true
        (w.rand 0 % (w.ctxs self).send_data_.length) = some j →
      ∃ d, (w.ctxs self).send_data_[j]? = some (some chan, some d) ∧
        (context.unblocked_sender w self chan).1 = .ok d ∧
        Commit self chan true j w (context.unblocked_sender w self chan).2) ∧
    (∀ data j, scan_first (w.ctxs self).send_data_ chan false
        (w.rand 0 % (w.ctxs self).send_data_.length) = some j →
      (w.ctxs self).send_data_[j]? = some (some chan, none) ∧
      (context.unblocked_receiver w self chan data).1 = .ok () ∧
      Commit self chan false j w (context.unblocked_receiver w self chan data).2 ∧
      ((context.unblocked_receiver w self chan data).2.ctxs self).recv_data_ = data) ∧
    (∀ send j, scan_first (w.ctxs self).send_data_ chan send
        (w.rand 0 % (w.ctxs self).send_data_.length) = some j →
      ∃ k, k < (w.ctxs self).send_data_.length ∧
        j = (w.rand 0 % (w.ctxs self).send_data_.length + k) % (w.ctxs self).send_data_.length ∧
        Offer.is chan send ((w.ctxs self).send_data_.getD j (none, none)) = true ∧
        ∀ k', k' < k → Offer.is chan send ((w.ctxs self).send_data_.getD
          ((w.rand 0 % (w.ctxs self).send_data_.length + k') % (w.ctxs self).send_data_.length)
          (none, none)) = false) ∧
    (∀ send, (∃ o, o ∈ (w.ctxs self).send_data_ ∧ Offer.is chan send o = true) →
      ∃ j, scan_first (w.ctxs self).send_data_ chan send
        (w.rand 0 % (w.ctxs self).send_data_.length) = some j) ∧
    (∀ send j, j < (w.ctxs self).send_data_.length →
      Offer.is chan send ((w.ctxs self).send_data_.getD j (none, none)) = true →
      (∀ i, i < (w.ctxs self).send_data_.length →
        Offer.is chan send ((w.ctxs self).send_data_.getD i (none, none)) = true → i = j) →
      scan_first (w.ctxs self).send_data_ chan send
        (w.rand 0 % (w.ctxs self).send_data_.length) = some j) ∧
    (∀ send j w', Commit self chan send j w w' →
      (∀ d b, (channel.queue b (w.chans d)).count self ≤
        (w.ctxs self).send_data_.countP (Offer.is d b) -
          (if d = chan ∧ b = send then 1 else 0)) →
      ∀ d, self ∉ (w'.chans d).recvq_ ∧ self ∉ (w'.chans d).sendq_) ∧
    (scan_first (w.ctxs self).send_data_ chan true
        (w.rand 0 % (w.ctxs self).send_data_.length) = none →
      (context.unblocked_sender w self chan).1 = .error (.thrown .chanNotFoundInContext)) ∧
    (∀ data, scan_first (w.ctxs self).send_data_ chan false
        (w.rand 0 % (w.ctxs self).send_data_.length) = none →
      (context.unblocked_receiver w self chan data).1 =
        .error (.thrown .chanNotFoundInContext)) := by
  refine ⟨fun j hj => ?_, fun data j hj => context.unblocked_receiver_commits w self chan data j hj,
    fun send j hj => scan_first_spec _ _ _ _ _ hj, fun send hex => ?_,
    fun send j hj hp hu => scan_first_unique _ _ _ _ _ hj hp hu,
    fun send j w' hc hreg d => hc.unregistered hreg d,
    (context.unblocked_not_found w self chan hne).1,
    (context.unblocked_not_found w self chan hne).2⟩
  · obtain ⟨d, h1, h2, h3, _⟩ := context.unblocked_sender_commits w self chan j hj
    exact ⟨d, h1, h2, h3⟩
  · have h := scan_first_isSome (w.ctxs self).send_data_ chan send
      (w.rand 0 % (w.ctxs self).send_data_.length)
    have hany : (w.ctxs self).send_data_.any (Offer.is chan send) = true :=
      List.any_eq_true.mpr hex
    rw [hany] at h
    exact Option.isSome_iff_exists.mp h

/-- C22 (counterexample to the claim as stated): thread 1 is parked with the
offers `send(c, 1)` and `send(c, 2)`, both matching `(c, send)`, and `rand()`
returns 1. `unblocked_sender(c)` commits the offer at index 1 and returns 2,
though the first matching offer of the list is at index 0; the `recv()` of
thread 2 that calls it returns 2. -/
theorem C22_commit_index_depends_on_start :
    (scenario_two_sends.ctxs 1).send_data_ = [(some 0, some 1), (some 0, some 2)] ∧
    (scenario_two_sends.chans 0).sendq_ = [1, 1] ∧
    scenario_two_sends.rand 0 % 2 = 1 ∧
    List.findIdx? (Offer.is 0 true) (scenario_two_sends.ctxs 1).send_data_ = some 0 ∧
    (context.unblocked_sender scenario_two_sends 1 0).1 = .ok 2 ∧
    ((context.unblocked_sender scenario_two_sends 1 0).2.ctxs 1).unblockedx_ = 1 ∧
    (channel.recv scenario_two_sends 0 2 true).1 = .ret (2, true) ∧
    ((channel.recv scenario_two_sends 0 2 true).2.ctxs 1).unblockedx_ = 1 ∧
    ((channel.recv scenario_two_sends 0 2 true).2.chans 0).sendq_ = [] :=
  ⟨by decide, by decide, by decide, by decide, rfl, by decide, by decide, by decide, by decide⟩

/-- C22 (as amended), on `scenario_two_sends`: the scan from 1 commits index
1; the other offer costs the context its second entry in `sendq_`. -/
theorem C22_commit_routines_witness :
    scan_first (scenario_two_sends.ctxs 1).send_data_ 0 true
      (scenario_two_sends.rand 0 % (scenario_two_sends.ctxs 1).send_data_.length) = some 1 ∧
    ∃ d, (scenario_two_sends.ctxs 1).send_data_[1]? = some (some 0, some d) ∧
      (context.unblocked_sender scenario_two_sends 1 0).1 = .ok d ∧
      Commit 1 0 true 1 scenario_two_sends (context.unblocked_sender scenario_two_sends 1 0).2 :=
  ⟨by decide, (C22_commit_routines scenario_two_sends 1 0 (by decide)).1 1 (by decide)⟩

/-! ## Refill on receive -/

theorem Erasures.count_le {x : CtxId} {l l' : List CtxId} (h : Erasures x l l') :
    l'.count x ≤ l.count x := by
  induction h with
  | refl => exact Nat.le_refl _
  | step _ ih => rw [List.count_erase_self]; omega

/-- Erasures that keep the number of entries of `x` have erased nothing. -/
theorem Erasures.eq_of_count {x : CtxId} {l l' : List CtxId} (h : Erasures x l l')
    (hc : l'.count x = l.count x) : l' = l := by
  induction h with
  | refl => rfl
  | @step l'' h' ih =>
    have hle := h'.count_le
    rw [List.count_erase_self] at hc
    have h0 : l''.count x = 0 := by omega
    rw [List.erase_of_not_mem (List.count_eq_zero.mp h0)]
    exact ih (by omega)

theorem countP_le_one_of_unique (p : Offer T → Bool) : ∀ (offs : List (Offer T)) (j : Nat),
    (∀ i, i < offs.length → p (offs.getD i (none, none)) = true → i = j) →
    offs.countP p ≤ 1
  | [], _, _ => by simp
  | o :: rest, j, h => by
    rw [List.countP_cons]
    cases hp : p o with
    | false =>
      simp only [Bool.false_eq_true, if_false, Nat.add_zero]
      refine countP_le_one_of_unique p rest (j - 1) (fun i hi hpi => ?_)
      have := h (i + 1) (by simp; omega) (by simpa using hpi)
      omega
    | true =>
      have h0 : j = 0 := (h 0 (by simp) (by simpa using hp)).symm
      have : rest.countP p = 0 := by
        rw [List.countP_eq_zero]
        intro a ha hpa
        obtain ⟨i, hi, rfl⟩ := List.getElem_of_mem ha
        have := h (i + 1) (by simp; omega) (by
          simpa [List.getD_eq_getElem?_getD, List.getElem?_eq_getElem hi] using hpa)
        omega
      simp [this]

theorem World.setChan_setChan (w : World T) (c : ChanId) (a b : channel T) :
    (w.setChan c a).setChan c b = w.setChan c b := by
  simp [World.setChan]

/-- `recv` on a channel with a value in the buffer and a parked sender at the
head of `sendq_` whose commit succeeds: the oldest value is returned and the
value of the sender is stored behind the others. -/
theorem channel.recv_refills [Inhabited T] (w : World T) (c : ChanId) (self : CtxId)
    (block : Bool) (C : Nat) (v1 : T) (vs : List T) (s1 : CtxId) (rest : List CtxId)
    (d : T) (wB : World T)
    (hr : Ring C (w.chans c) (v1 :: vs)) (hq : (w.chans c).sendq_ = s1 :: rest)
    (hus : context.unblocked_sender (w.setChan c
        { w.chans c with
          recvx_ := if (w.chans c).recvx_ + 1 = (w.chans c).capacity then 0
                    else (w.chans c).recvx_ + 1,
          count_ := (w.chans c).count_ - 1, sendq_ := rest }) s1 c = (.ok d, wB)) :
    channel.recv w c self block = (.ret (v1, true), context.signal (wB.setChan c
      { wB.chans c with
        buffer_ := (wB.chans c).buffer_.set (wB.chans c).sendx_ d,
        sendx_ := if (wB.chans c).sendx_ + 1 ≥ (wB.chans c).capacity then 0
                  else (wB.chans c).sendx_ + 1,
        count_ := (wB.chans c).count_ + 1 }) s1) := by
  have hC : 0 < C := by have := hr.rx; omega
  have hne0 : ¬ (C = 0) := by omega
  have hx := (Ring.pop hr).1
  have hcnt : (w.chans c).count_ = vs.length + 1 := by rw [hr.cnt]; rfl
  have hle : vs.length + 1 ≤ C := hr.le
  have hcap := hr.cap
  rcases hch : w.chans c with ⟨buf, size, recvq, sendq, closed, count, sendx, recvx⟩
  rw [hch] at hq hus hx hcnt hcap
  simp only [channel.capacity] at hq hus hx hcnt hcap
  subst hq hcnt hcap
  simp only [List.getD_eq_getElem?_getD] at hx
  have hpos : 0 < vs.length + 1 := by omega
  have hlt : vs.length + 1 - 1 < size := by omega
  simp only [channel.recv, channel.receive, channel.receive_pop, channel.receive_direct,
    channel.receive_refill, channel.capacity, channel.size, hch, World.setChan_chans_same,
    World.setChan_setChan, hx, hus]
  simp only [Nat.add_sub_cancel] at hus
  have hlt' : vs.length < size := by omega
  simp [hne0, hpos, hlt', hx, World.setChan_setChan, hus]

/-- Refill on receive, for a parked sender without stale offers. On a
channel of capacity `C > 0` whose buffer is full with `v1 :: vs`, oldest first, and whose `sendq_` is `s1 :: rest`, where
the context of `s1` holds exactly one send offer on the channel, at index `j`
with the value `w1`: `recv` returns `(v1, true)`; the buffer then holds
`vs ++ [w1]` with `count_ = C`; `sendq_` is `rest`; `s1` is committed (its
`unblocked_index` is `j` and its offers list is empty) and its semaphore has
been incremented once; no other context is changed. -/
theorem channel.recv_refill_unique_offer [Inhabited T] (w : World T) (c : ChanId) (self : CtxId)
    (block : Bool) (C : Nat) (v1 : T) (vs : List T) (s1 : CtxId) (rest : List CtxId) (w1 : T)
    (j : Nat) (hr : Ring C (w.chans c) (v1 :: vs)) (hfull : (v1 :: vs).length = C)
    (hq : (w.chans c).sendq_ = s1 :: rest)
    (hoff : (w.ctxs s1).send_data_[j]? = some (some c, some w1))
    (huniq : ∀ i d, (w.ctxs s1).send_data_[i]? = some (some c, some d) → i = j) :
    (channel.recv w c self block).1 = .ret (v1, true) ∧
    Ring C ((channel.recv w c self block).2.chans c) (vs ++ [w1]) ∧
    ((channel.recv w c self block).2.chans c).count_ = C ∧
    ((channel.recv w c self block).2.chans c).sendq_ = rest ∧
    ((channel.recv w c self block).2.ctxs s1).unblockedx_ = (j : Int) ∧
    ((channel.recv w c self block).2.ctxs s1).send_data_ = [] ∧
    ((channel.recv w c self block).2.ctxs s1).count_ = (w.ctxs s1).count_ + 1 ∧
    ∀ y, y ≠ s1 → (channel.recv w c self block).2.ctxs y = w.ctxs y := by
  have hjlt : j < (w.ctxs s1).send_data_.length := by
    by_contra hn
    rw [List.getElem?_eq_none (by omega)] at hoff
    simp at hoff
  have hgetj : (w.ctxs s1).send_data_.getD j (none, none) = (some c, some w1) := by
    rw [List.getD_eq_getElem?_getD, hoff]; rfl
  have hu : ∀ i, i < (w.ctxs s1).send_data_.length →
      Offer.is c true ((w.ctxs s1).send_data_.getD i (none, none)) = true → i = j := by
    intro i hi hp
    obtain ⟨d, hd⟩ := Offer.is_send_entry c _ hp
    exact huniq i d (by rw [getD_getElem _ _ hi, hd])
  have hj : scan_first (w.ctxs s1).send_data_ c true
      (w.rand 0 % (w.ctxs s1).send_data_.length) = some j :=
    scan_first_unique _ _ _ _ _ hjlt (by rw [hgetj]; simp [Offer.is]) hu
  have hK : (w.ctxs s1).send_data_.countP (Offer.is c true) ≤ 1 :=
    countP_le_one_of_unique _ _ j hu
  have hcm := context.unblocked_sender_commits (w.setChan c
      { w.chans c with
        recvx_ := if (w.chans c).recvx_ + 1 = (w.chans c).capacity then 0
                  else (w.chans c).recvx_ + 1,
        count_ := (w.chans c).count_ - 1, sendq_ := rest }) s1 c j hj
  rcases hres : context.unblocked_sender (w.setChan c
      { w.chans c with
        recvx_ := if (w.chans c).recvx_ + 1 = (w.chans c).capacity then 0
                  else (w.chans c).recvx_ + 1,
        count_ := (w.chans c).count_ - 1, sendq_ := rest }) s1 c with ⟨o, wB⟩
  rw [hres] at hcm
  simp only [World.setChan_ctxs] at hcm
  obtain ⟨d, hd1, hd2, hcommit, _⟩ := hcm
  subst hd2
  have hdw : d = w1 := by
    rw [hoff] at hd1
    simp only [Option.some.injEq, Prod.mk.injEq] at hd1
    exact hd1.2.symm
  subst hdw
  have hrecv := channel.recv_refills w c self block C v1 vs s1 rest d wB hr hq hres
  have hfr := hcommit.chans c
  simp only [World.setChan_chans_same] at hfr
  have hrA : Ring C (wB.chans c) vs :=
    (Ring.pop hr).2.of_fields hfr.buffer_ hfr.size_ hfr.count_ hfr.sendx_ hfr.recvx_
  have hlen : vs.length < C := by simp at hfull; omega
  have hpush := hrA.push_ge hlen d
  have hsq : (wB.chans c).sendq_ = rest := by
    have hqc := hcommit.queues c true
    simp only [channel.queue, if_true, World.setChan_chans_same, World.setChan_ctxs, and_self]
      at hqc
    have hers : Erasures s1 rest (wB.chans c).sendq_ := hfr.sendq_
    exact hers.eq_of_count (by rw [hqc]; omega)
  have hcnt : (wB.chans c).count_ = vs.length := hrA.cnt
  have hctx : (wB.ctxs s1).count_ = (w.ctxs s1).count_ := hcommit.count
  rw [hrecv]
  refine ⟨rfl, ?_, ?_, ?_, ?_, ?_, ?_, fun y hy => ?_⟩
  · simpa using hpush
  · simp only [context.signal_chans, World.setChan_chans_same, hcnt]
    simpa using hfull
  · simpa using hsq
  · simp only [context.signal, World.setCtx_ctxs_same, World.setChan_ctxs]
    exact hcommit.index
  · simp only [context.signal, World.setCtx_ctxs_same, World.setChan_ctxs]
    exact hcommit.offers
  · simp only [context.signal, World.setCtx_ctxs_same, World.setChan_ctxs, hctx]
  · simp only [context.signal, World.setCtx_ctxs_other _ _ _ _ hy, World.setChan_ctxs]
    exact hcommit.ctxs y hy

theorem scenario_full_with_sender_ring :
    Ring 2 (scenario_full_with_sender.chans 0) [10, 20] where
  cap := by decide
  len := by decide
  rx := by decide
  sx := by decide
  cnt := by decide
  le := by decide
  slots := by
    intro k hk
    have : k = 0 ∨ k = 1 := by simp at hk; omega
    rcases this with h | h <;> subst h <;> decide

/-- On `scenario_full_with_sender` the `recv()` of thread 3 returns 10, the
buffer then holds 20 and 30, and thread 2 has left `sendq_`. -/
theorem channel.recv_refill_unique_offer_example :
    (scenario_full_with_sender.chans 0).sendq_ = [2] ∧
    (scenario_full_with_sender.ctxs 2).send_data_ = [(some 0, some 30)] ∧
    (channel.recv scenario_full_with_sender 0 3 true).1 = .ret (10, true) ∧
    Ring 2 ((channel.recv scenario_full_with_sender 0 3 true).2.chans 0) ([20] ++ [30]) ∧
    ((channel.recv scenario_full_with_sender 0 3 true).2.chans 0).sendq_ = [] := by
  have h := channel.recv_refill_unique_offer scenario_full_with_sender 0 3 true 2 10 [20] 2 [] 30 0
    scenario_full_with_sender_ring (by decide) (by decide) (by decide)
    (fun i d hi => by
      have hlt : i < 1 := by
        by_contra hn
        rw [List.getElem?_eq_none (by
          have : (scenario_full_with_sender.ctxs 2).send_data_.length = 1 := by decide
          omega)] at hi
        simp at hi
      omega)
  exact ⟨by decide, by decide, h.1, h.2.1, h.2.2.2.1⟩

/-! ## Claims that fail on reachable states -/

/-- C13 (counterexample to the claim as stated): thread 1 is parked in a
`select` that offers a send and a recv on the same open channel, so its
context is in `sendq_` and in `recvq_`; one `close()` signals it twice and
takes its semaphore count from 0 to 2. The second `close()` adds nothing. -/
theorem C13_close_signals_once_per_entry :
    (scenario_select_both_parked.chans 0).closed_ = false ∧
    (scenario_select_both_parked.chans 0).recvq_ = [1] ∧
    (scenario_select_both_parked.chans 0).sendq_ = [1] ∧
    (scenario_select_both_parked.ctxs 1).count_ = 0 ∧
    ((channel.close scenario_select_both_parked 0).ctxs 1).count_ = 2 ∧
    ((channel.close (channel.close scenario_select_both_parked 0) 0).ctxs 1).count_ = 2 := by
  decide

/-- C13 (as amended), on the `select` parked in both queues: the second
`close()` changes nothing, and the first adds 1 + 1 to the semaphore count. -/
theorem C13_close_idempotent_witness :
    channel.close (channel.close scenario_select_both_parked 0) 0 =
      channel.close scenario_select_both_parked 0 ∧
    ((channel.close scenario_select_both_parked 0).ctxs 1).count_ =
      (scenario_select_both_parked.ctxs 1).count_ +
        (if (scenario_select_both_parked.chans 0).closed_ then 0
         else (scenario_select_both_parked.chans 0).recvq_.count 1 +
           (scenario_select_both_parked.chans 0).sendq_.count 1) :=
  ⟨(C13_close_idempotent scenario_select_both_parked 0).1,
    (C13_close_idempotent scenario_select_both_parked 0).2 1⟩

/-- C20 (the code departs from the claim): in `scenario_popped_value` the
buffer of channel 0 holds the value 1, which no `recv` has returned, and
thread 2, woken by `close()`, is still in `sendq_` while its context holds
the receive offer on channel 1. The `recv()` of thread 3 pops the 1, then its
refill calls `unblocked_sender` on thread 2, which throws "chan not found in
context": the call ends by that exception, the buffer is empty, and the next
`recv()` returns `(0, true)`. The value 1 was sent, has been received by
nobody and is in no slot. The indices still satisfy their equations. -/
theorem C20_popped_value_is_lost :
    Option.map (fun s => (s.w.chans 0).buffer_) scenario_popped_value = some [1] ∧
    Option.map (fun s => (s.w.chans 0).count_) scenario_popped_value = some 1 ∧
    Option.map (fun s => (s.w.chans 0).recvx_) scenario_popped_value = some 0 ∧
    Option.map (fun s => (s.w.chans 0).sendq_) scenario_popped_value = some [2] ∧
    Option.map (fun s => (s.w.ctxs 2).send_data_) scenario_popped_value =
      some [(some 1, none)] ∧
    Option.map (fun s => (channel.recv s.w 0 3 true).1) scenario_popped_value =
      some (.fault (.thrown .chanNotFoundInContext)) ∧
    Option.map (fun s => ((channel.recv s.w 0 3 true).2.chans 0).count_)
      scenario_popped_value = some 0 ∧
    Option.map (fun s => ((channel.recv s.w 0 3 true).2.chans 0).recvx_)
      scenario_popped_value = some 0 ∧
    Option.map (fun s => ((channel.recv s.w 0 3 true).2.chans 0).sendx_)
      scenario_popped_value = some 0 ∧
    Option.map (fun s => (channel.recv (channel.recv s.w 0 3 true).2 0 3 true).1)
      scenario_popped_value = some (.ret (0, true)) := by
  decide

/-- C21 (the code departs from the claim): the buffer of `channel<int> c(1)` is
full with 10 and thread 2 is parked in `c.send(30)`, at the head of `sendq_`;
its context still holds the offer `send(c, 5)` of a `select(false)` that
returned -1. The `recv()` of thread 3 returns `(10, true)` and, with
`rand() % 2 == 0`, refills the buffer with 5, not with the value 30 of the
parked sender, whose `send(30)` then returns `true`. -/
theorem C21_refill_stores_stale_offer :
    (selector.select (channel.send (World.fresh (fun _ => 1) (fun _ => 0)) 0 1 10 true).2
      (selector.init.send 0 5) 2 false).1 = .ret (-1) ∧
    (scenario_stale_sender.chans 0).buffer_ = [10] ∧
    (scenario_stale_sender.chans 0).count_ = 1 ∧
    (scenario_stale_sender.chans 0).sendq_ = [2] ∧
    (scenario_stale_sender.ctxs 2).send_data_ = [(some 0, some 5), (some 0, some 30)] ∧
    (channel.recv scenario_stale_sender 0 3 true).1 = .ret (10, true) ∧
    ((channel.recv scenario_stale_sender 0 3 true).2.chans 0).buffer_ = [5] ∧
    ((channel.recv scenario_stale_sender 0 3 true).2.chans 0).count_ = 1 ∧
    ((channel.recv scenario_stale_sender 0 3 true).2.chans 0).sendq_ = [] ∧
    ((channel.recv scenario_stale_sender 0 3 true).2.ctxs 2).unblockedx_ = 0 ∧
    (channel.dispatch_wake (channel.recv scenario_stale_sender 0 3 true).2 0 2 30 true).map
      (fun r => r.1) = some (.ret true) := by
  decide

/-- C24 (the code departs from the claim): a selector with the N = 2 offers
`recv(a)`, `recv(b)`; its `select(false)` has returned -1 and left both offers
in the context. Both channels then hold a value. The next `select` on the same
selector polls a list of four entries, the two offers twice, from the start
index `rand() % 4 = 2`, and returns 2: the start index is not below N and the
index returned is that of no offer of the selector. -/
theorem C24_stale_offers_change_polling :
    scenario_selector.send_data_.length = 2 ∧
    scenario_selector_first.1 = .ret (-1) ∧
    (scenario_selector_both_ready.ctxs 1).send_data_ = [(some 0, none), (some 1, none)] ∧
    (scenario_selector_both_ready.chans 0).count_ = 1 ∧
    (scenario_selector_both_ready.chans 1).count_ = 1 ∧
    ((selector.select_polled scenario_selector_both_ready scenario_selector_first.2.2 1).ctxs
      1).send_data_ = [(some 0, none), (some 1, none), (some 0, none), (some 1, none)] ∧
    scenario_selector_both_ready.rand 0 % 4 = 2 ∧
    (selector.select scenario_selector_both_ready scenario_selector_first.2.2 1 true).1 =
      .ret 2 ∧
    (selector.select scenario_selector_both_ready scenario_selector_first.2.2 1 true).2.2.data_ =
      some 42 := by
  decide

/-! ## Completeness of the polling pass -/

theorem channel.peek_of_fails [Inhabited T] (w : World T) (c : ChanId) (self : CtxId)
    (h : OfferFails w self c none) : channel.peek w c self = (.ret none, w) := by
  obtain ⟨v, hv⟩ := h
  simp [channel.peek, hv]

theorem channel.poke_of_fails [Inhabited T] (w : World T) (c : ChanId) (self : CtxId) (x : T)
    (h : OfferFails w self c (some x)) : channel.poke w c self x = (.ret false, w) := h

/-- One step of the polling loop over an entry that is skipped or whose
attempt fails: the loop goes on with the next index in the same heap. -/
theorem selector.select_poll_loop_skip [Inhabited T] (self : CtxId) (size n i : Nat)
    (w : World T) (sel : selector T) (hi : i < size) (o : Offer T)
    (hget : (w.ctxs self).send_data_[i]? = some o)
    (hfail : o.1 = none ∨ ∃ c, o.1 = some c ∧ OfferFails w self c o.2) :
    selector.select_poll_loop self size (n + 1) i w sel =
      selector.select_poll_loop self size n ((i + 1) % size) w sel := by
  have hnext := cyclic_next size i hi
  rcases o with ⟨_ | ch, _ | data⟩
  · simp only [selector.select_poll_loop, hget, hnext]
  · simp only [selector.select_poll_loop, hget, hnext]
  · rcases hfail with h | ⟨c, hc, hf⟩
    · simp at h
    · simp only [Option.some.injEq] at hc
      subst hc
      simp only [selector.select_poll_loop, hget, hnext, channel.peek_of_fails w ch self hf]
  · rcases hfail with h | ⟨c, hc, hf⟩
    · simp at h
    · simp only [Option.some.injEq] at hc
      subst hc
      simp only [selector.select_poll_loop, hget, hnext,
        channel.poke_of_fails w ch self data hf]

/-- The polling loop returns the index of the first offer, in the cyclic
order from its start, that is ready, when the entries before it are skipped or
fail. -/
theorem selector.select_poll_loop_complete [Inhabited T] (self : CtxId) (size : Nat) :
    ∀ (k n i : Nat) (w : World T) (sel : selector T), i < size → k < n →
    (∃ c d, (w.ctxs self).send_data_[(i + k) % size]? = some (some c, d) ∧
      OfferReady w self c d) →
    (∀ j, j < k → ∃ o, (w.ctxs self).send_data_[(i + j) % size]? = some o ∧
      (o.1 = none ∨ ∃ c, o.1 = some c ∧ OfferFails w self c o.2)) →
    (selector.select_poll_loop self size n i w sel).1 =
      some (.ret (((i + k) % size : Nat) : Int))
  | 0, n, i, w, sel, hi, hk, ⟨c, d, hget, hready⟩, _ => by
    obtain ⟨m, rfl⟩ : ∃ m, n = m + 1 := ⟨n - 1, by omega⟩
    have hi0 : (i + 0) % size = i := by rw [Nat.add_zero, Nat.mod_eq_of_lt hi]
    rw [hi0] at hget ⊢
    exact selector.select_poll_loop_ready self size m i w sel c d hget hready
  | k + 1, n, i, w, sel, hi, hk, hready, hbefore => by
    have hsize : 0 < size := by omega
    obtain ⟨m, rfl⟩ : ∃ m, n = m + 1 := ⟨n - 1, by omega⟩
    obtain ⟨o, hget, hfail⟩ := hbefore 0 (by omega)
    rw [Nat.add_zero, Nat.mod_eq_of_lt hi] at hget
    rw [selector.select_poll_loop_skip self size m i w sel hi o hget hfail,
      ← cyclic_shift size i k]
    refine selector.select_poll_loop_complete self size k m _ w sel (Nat.mod_lt _ hsize)
      (by omega) ?_ (fun j hj => ?_)
    · rw [cyclic_shift]; exact hready
    · rw [cyclic_shift]; exact hbefore (j + 1) (by omega)

/-- When every entry is skipped or fails, the polling loop ends without a
`return` and has changed nothing. -/
theorem selector.select_poll_loop_all_fail [Inhabited T] (self : CtxId) (size : Nat) :
    ∀ (n i : Nat) (w : World T) (sel : selector T), i < size →
    (∀ j, j < n → ∃ o, (w.ctxs self).send_data_[(i + j) % size]? = some o ∧
      (o.1 = none ∨ ∃ c, o.1 = some c ∧ OfferFails w self c o.2)) →
    selector.select_poll_loop self size n i w sel = (none, w, sel)
  | 0, _, _, _, _, _ => rfl
  | n + 1, i, w, sel, hi, hall => by
    have hsize : 0 < size := by omega
    obtain ⟨o, hget, hfail⟩ := hall 0 (by omega)
    rw [Nat.add_zero, Nat.mod_eq_of_lt hi] at hget
    rw [selector.select_poll_loop_skip self size n i w sel hi o hget hfail]
    exact selector.select_poll_loop_all_fail self size n _ w sel (Nat.mod_lt _ hsize)
      (fun j hj => by rw [cyclic_shift]; exact hall (j + 1) (by omega))

/-- The polling pass of a `select` called with a context that holds no
offers, started at `r < N`: it returns the index of the first offer in the
order `r, r + 1, ...` (mod `N`) that is ready, when the entries before it are
skipped or fail; and when every entry is skipped or fails, it ends without a
`return` from every start, having changed nothing. -/
theorem selector.select_polling_complete [Inhabited T] (w : World T) (sel : selector T)
    (self : CtxId) (hfresh : (w.ctxs self).send_data_ = []) :
    (∀ r k : Nat, r < sel.send_data_.length → k < sel.send_data_.length →
      (∃ c d, sel.send_data_[(r + k) % sel.send_data_.length]? = some (some c, d) ∧
        OfferReady (selector.select_polled w sel self) self c d) →
      (∀ j, j < k → ∃ o, sel.send_data_[(r + j) % sel.send_data_.length]? = some o ∧
        (o.1 = none ∨
          ∃ c, o.1 = some c ∧ OfferFails (selector.select_polled w sel self) self c o.2)) →
      (selector.select_poll_loop self sel.send_data_.length sel.send_data_.length r
        (selector.select_polled w sel self) sel).1 =
        some (.ret (((r + k) % sel.send_data_.length : Nat) : Int))) ∧
    ((∀ j, j < sel.send_data_.length → ∃ o, sel.send_data_[j]? = some o ∧
        (o.1 = none ∨
          ∃ c, o.1 = some c ∧ OfferFails (selector.select_polled w sel self) self c o.2)) →
      ∀ r, r < sel.send_data_.length →
        selector.select_poll_loop self sel.send_data_.length sel.send_data_.length r
          (selector.select_polled w sel self) sel =
          (none, selector.select_polled w sel self, sel)) := by
  obtain ⟨_, hoffs⟩ := selector.select_polled_spec w sel self hfresh
  constructor
  · intro r k hr hk hready hbefore
    exact selector.select_poll_loop_complete self _ k _ r _ sel hr hk
      (by rw [hoffs]; exact hready) (fun j hj => by rw [hoffs]; exact hbefore j hj)
  · intro hall r hr
    refine selector.select_poll_loop_all_fail self _ _ r _ sel hr (fun j _ => ?_)
    rw [hoffs]
    exact hall _ (Nat.mod_lt _ (by omega))

end ipc
